import Mathlib

/-!
# Windows clipboard redirection (`client/Windows/wf_cliprdr.c`)

A shallow embedding of the format registry, of the lazy file stream, of the file
data object, of the format data correlator, of the local format list, of the file
harvester, of the synchronization with the peer and of the clipboard window of the
clipboard bridge, followed by theorems about them. The computation of `VTIME` of
`winpr/libwinpr/comm/comm_io.c` is embedded in the namespace `CommIo`.

Conventions of the embedding

* C unsigned integers are `Nat`; a reduction `% 2 ^ w` is written wherever the C
  arithmetic can wrap.
* A heap block is a `List`; an access outside the block has no defined result
  and the embedding returns `none` (or `Outcome.fault`) for it.
* Strings are values: `char*` and `WCHAR*` texts are `String`, a NULL string
  pointer is `none`. The lengths, offsets and buffer sizes of `WCHAR` strings count
  WCHARs (UTF-16 code units, `wchars`), not characters.
* `free` of a stored pointer is not part of the value a function returns. Where the
  source frees a pointer that was never stored (the entries that `realloc` adds to the
  registry), the run that reaches it has no result (`handle_format_lists`).
* A buffer of the caller is not a value of the embedding: what a function writes there
  is part of its result, with its length (`ReadResult.pv`).
* Objects handed to a function (`clipboard`, `This`, out-parameters) are live
  objects: the `if (!p) return ...` guards that reject NULL pointers before any
  state is touched are outside the embedding.
* Calls that leave the translation unit (allocation, the Win32 clipboard, the
  channel to the peer, the file system, the OLE clipboard) are answered by the
  fields of `Platform`, `Channel`, `FileSystem` and `Ole`.
* A recursion that the source bounds by nothing but the stack takes the number of
  calls that still fit as an argument.
-/

namespace WfCliprdr

/-! ## Constants taken from the protocol and Win32 headers -/

/-- Status `CHANNEL_RC_OK` of the channel API. -/
def CHANNEL_RC_OK : Nat := 0

/-- Win32 error `ERROR_INTERNAL_ERROR`. -/
def ERROR_INTERNAL_ERROR : Nat := 1359

/-- Message flag `CB_RESPONSE_OK` of a clipboard response PDU. -/
def CB_RESPONSE_OK : Nat := 1

/-- Message flag `CB_RESPONSE_FAIL` of a clipboard response PDU. -/
def CB_RESPONSE_FAIL : Nat := 2

/-- Request flag `FILECONTENTS_SIZE`. -/
def FILECONTENTS_SIZE : Nat := 1

/-- Request flag `FILECONTENTS_RANGE`. -/
def FILECONTENTS_RANGE : Nat := 2

/-- The `HRESULT` `S_OK`. -/
def S_OK : Nat := 0

/-- The `HRESULT` `S_FALSE`. -/
def S_FALSE : Nat := 1

/-- The `HRESULT` `E_FAIL` (bit pattern of the 32-bit value). -/
def E_FAIL : Nat := 0x80004005

/-- The `HRESULT` `E_INVALIDARG` (bit pattern of the 32-bit value). -/
def E_INVALIDARG : Nat := 0x80070057

/-- Seek origin `STREAM_SEEK_SET`. -/
def STREAM_SEEK_SET : Nat := 0

/-- Seek origin `STREAM_SEEK_CUR`. -/
def STREAM_SEEK_CUR : Nat := 1

/-- Seek origin `STREAM_SEEK_END`. -/
def STREAM_SEEK_END : Nat := 2

/-- Window message `WM_CLIPRDR_MESSAGE` (`WM_USER + 156`). -/
def WM_CLIPRDR_MESSAGE : Nat := 0x0400 + 156

/-- The `wParam` value `OLE_SETCLIPBOARD`. -/
def OLE_SETCLIPBOARD : Nat := 1

/-- The shell format name `CFSTR_FILEDESCRIPTORW`. -/
def CFSTR_FILEDESCRIPTORW : String := "FileGroupDescriptorW"

/-! ## Data model -/

/-- One entry of the format registry (`formatMapping`). -/
structure formatMapping where
  remote_format_id : Nat
  local_format_id : Nat
  name : Option String
deriving DecidableEq, Repr

/-- The all-zero entry written by `clear_format_map` and by `calloc`. -/
def formatMapping.zero : formatMapping :=
  { remote_format_id := 0, local_format_id := 0, name := none }

/-- One format of a format list PDU (`CLIPRDR_FORMAT`). -/
structure CLIPRDR_FORMAT where
  formatId : Nat
  formatName : Option String
deriving DecidableEq, Repr

/-- A format list PDU (`CLIPRDR_FORMAT_LIST`); `numFormats` is the length of `formats`. -/
structure CLIPRDR_FORMAT_LIST where
  formats : List CLIPRDR_FORMAT
deriving DecidableEq, Repr

/-- The field `numFormats` of a format list. -/
def CLIPRDR_FORMAT_LIST.numFormats (formatList : CLIPRDR_FORMAT_LIST) : Nat :=
  formatList.formats.length

/-- The fields of a shell file descriptor (`FILEDESCRIPTORW`) that the bridge reads or
writes; `ftLastWriteTime` is the 64-bit time. -/
structure FILEDESCRIPTORW where
  dwFlags : Nat
  dwFileAttributes : Nat
  ftLastWriteTime : Nat
  nFileSizeHigh : Nat
  nFileSizeLow : Nat
  cFileName : String
deriving DecidableEq, Repr

/-- The part of `wfClipboard` that the registry, the correlator, the file stream and
the harvester use. `format_mappings`, `file_names` and `fileDescriptor` are the
allocated blocks (a NULL entry is `none`, a NULL block is empty), `hmem` is the content
of the global memory handle (`none` for NULL), `response_data_event` and `req_fevent`
are the signalled states of the manual-reset events of the same names. -/
structure wfClipboard where
  sync : Bool
  map_size : Nat
  map_capacity : Nat
  format_mappings : List formatMapping
  req_fsize : Nat
  req_fdata : Option (List Nat)
  req_fevent : Bool
  requestedFormatId : Nat := 0
  hmem : Option (List Nat) := none
  response_data_event : Bool := false
  nFiles : Nat := 0
  file_array_size : Nat := 0
  file_names : List (Option String) := []
  fileDescriptor : List (Option FILEDESCRIPTORW) := []
  legacyApi : Bool := false
deriving DecidableEq, Repr

/-- A call made to the local clipboard or to the owner window; the second argument of
`SetClipboardData` is the content of the handle, `none` for a NULL handle. -/
inductive OsCall where
  | PostMessage (Msg wParam : Nat)
  | OpenClipboard
  | EmptyClipboard
  | SetClipboardData (uFormat : Nat) (hMem : Option (List Nat))
  | CloseClipboard
deriving DecidableEq, Repr

/-- Answers of the operating system and of the allocator.

* `ConvertUtf8ToWCharAlloc`, `_wcsdup`: `none` is a NULL result;
* `RegisterClipboardFormatW`: the identifier registered for a name, `0` on failure;
* `realloc n`: whether growing the registry block to `n` entries succeeds;
* `heap i`: what an entry at index `i` of a grown block holds before it is written;
* `OpenClipboard k`: whether attempt number `k` of `try_open_clipboard` succeeds;
* `SetClipboardData f h`: whether the call returns a non-NULL handle;
* `CountClipboardFormats`, `IsClipboardFormatAvailable f`, `EnumClipboardFormats f`: the
  answers of the open local clipboard (`EnumClipboardFormats` returns the format that
  follows `f`, `0` at the end);
* `GetClipboardFormatNameA f`: the name copied into the buffer, `none` when the call
  returns 0; `_strdup`: `none` is a NULL result;
* `calloc n`: whether a zeroed block of `n` elements can be allocated;
* `GetEnvironmentVariableA name`: the text the buffer holds when the call returns a value
  other than 0, `none` when it returns 0;
* `clipboard_owned`: whether `GetClipboardOwner ()` is the window of the bridge;
  `OleIsCurrentClipboard`: the `HRESULT` of that call for the data object of the bridge;
* `terminated_behind`: whether the WCHAR behind the block that holds a converted
  name reads as 0 (the block has no room for a terminating 0);
* `MultiByteToWideChar p`: the string the conversion of the single-byte name `p`
  gives; the number of its WCHARs is what the call returns. -/
structure Platform where
  ConvertUtf8ToWCharAlloc : String → Option String
  RegisterClipboardFormatW : String → Nat
  _wcsdup : String → Option String
  realloc : Nat → Bool
  heap : Nat → formatMapping
  PostMessage : Bool
  OpenClipboard : Nat → Bool
  EmptyClipboard : Bool
  CloseClipboard : Bool
  GetLastError : Nat
  SetClipboardData : Nat → Option (List Nat) → Bool := fun _ hMem => hMem.isSome
  CountClipboardFormats : Nat := 0
  IsClipboardFormatAvailable : Nat → Bool := fun _ => false
  EnumClipboardFormats : Nat → Nat := fun _ => 0
  GetClipboardFormatNameA : Nat → Option String := fun _ => none
  _strdup : String → Option String := fun s => some s
  calloc : Nat → Bool := fun _ => true
  GetEnvironmentVariableA : String → Option String := fun _ => none
  clipboard_owned : Bool := false
  OleIsCurrentClipboard : Nat := S_FALSE
  terminated_behind : Bool := true
  MultiByteToWideChar : String → String := fun p => p

/-! ## Format registry -/

/-- The loop of `get_local_format_id_by_name`: `n` iterations remain, `i` is the index. -/
def get_local_format_id_by_name_loop (clipboard : wfClipboard) (unicode_name : String) :
    Nat → Nat → Option Nat
  | 0, _ => some 0
  | n + 1, i =>
    match clipboard.format_mappings[i]? with
    | none => none
    | some map =>
      match map.name with
      | some name =>
        if name = unicode_name then some map.local_format_id
        else get_local_format_id_by_name_loop clipboard unicode_name n (i + 1)
      | none => get_local_format_id_by_name_loop clipboard unicode_name n (i + 1)

/-- The function `get_local_format_id_by_name` (UNICODE build: the name is duplicated
with `_wcsdup`, compared with `wcscmp`). -/
def get_local_format_id_by_name (env : Platform) (clipboard : wfClipboard)
    (format_name : String) : Option Nat :=
  match env._wcsdup format_name with
  | none => some 0
  | some unicode_name =>
    get_local_format_id_by_name_loop clipboard unicode_name clipboard.map_size 0

/-- The function `file_transferring`. -/
def file_transferring (env : Platform) (clipboard : wfClipboard) : Option Bool :=
  (get_local_format_id_by_name env clipboard CFSTR_FILEDESCRIPTORW).map (fun id => id != 0)

/-- The loop of `get_remote_format_id`: `n` iterations remain, `i` is the index.
The C counter is a `UINT32`; `map_size` is only ever counted up from a `UINT32`
`numFormats`, so the counter does not wrap. -/
def get_remote_format_id_loop (clipboard : wfClipboard) (local_format : Nat) :
    Nat → Nat → Option Nat
  | 0, _ => some local_format
  | n + 1, i =>
    match clipboard.format_mappings[i]? with
    | none => none
    | some map =>
      if map.local_format_id = local_format then some map.remote_format_id
      else get_remote_format_id_loop clipboard local_format n (i + 1)

/-- The function `get_remote_format_id`. -/
def get_remote_format_id (clipboard : wfClipboard) (local_format : Nat) : Option Nat :=
  get_remote_format_id_loop clipboard local_format clipboard.map_size 0

/-- The loop of `clear_format_map` over the block: `n` iterations remain, `i` is the
index; every visited entry is zeroed. -/
def clear_format_map_loop : Nat → Nat → List formatMapping → Option (List formatMapping)
  | 0, _, maps => some maps
  | n + 1, i, maps =>
    if i < maps.length then clear_format_map_loop n (i + 1) (maps.set i formatMapping.zero)
    else none

/-- The function `clear_format_map` on a bridge whose block was allocated
(`wf_cliprdr_init` fails otherwise): zeroes `map_capacity` entries, then `map_size = 0`.
The value returned is the registry after the loop on a block in which every entry below
`map_capacity` holds a `name` that was stored there, so that `free (map->name)` releases
a name or is given NULL. On a block that `realloc` has grown, the entries that no rebuild
wrote hold no such pointer: `handle_format_lists` keeps count of the entries written and
ends the run at such a call (`clear_format_map_frees_stored`). -/
def clear_format_map (clipboard : wfClipboard) : Option wfClipboard :=
  (clear_format_map_loop clipboard.map_capacity 0 clipboard.format_mappings).map
    (fun maps => { clipboard with format_mappings := maps, map_size := 0 })

/-- The function `map_ensure_capacity`: when `map_size >= map_capacity` the block is
grown to twice the capacity; the new entries are not written: the numbers read from them
are whatever the heap holds (`env.heap`); a failed `realloc` leaves the registry as it
is. -/
def map_ensure_capacity (env : Platform) (clipboard : wfClipboard) : wfClipboard :=
  if clipboard.map_size ≥ clipboard.map_capacity then
    let new_size := clipboard.map_capacity * 2
    if env.realloc new_size then
      { clipboard with
        format_mappings :=
          clipboard.format_mappings.take new_size ++
            (List.range (new_size - clipboard.format_mappings.length)).map
              (fun k => env.heap (clipboard.format_mappings.length + k)),
        map_capacity := new_size }
    else clipboard
  else clipboard

/-- The body of the loop of `wf_cliprdr_server_format_list`: what entry `mapping`
holds after it is filled from `format`. A name that cannot be converted leaves
`local_format_id` as it was. -/
def fill_mapping (env : Platform) (mapping : formatMapping) (format : CLIPRDR_FORMAT) :
    formatMapping :=
  match format.formatName with
  | some formatName =>
    match env.ConvertUtf8ToWCharAlloc formatName with
    | some name =>
      { remote_format_id := format.formatId,
        local_format_id := env.RegisterClipboardFormatW name,
        name := some name }
    | none =>
      { remote_format_id := format.formatId,
        local_format_id := mapping.local_format_id,
        name := none }
  | none =>
    { remote_format_id := format.formatId,
      local_format_id := format.formatId,
      name := none }

/-- The first loop of `wf_cliprdr_server_format_list`: the formats still to be handled,
the index `i`, the registry. -/
def wf_cliprdr_server_format_list_loop (env : Platform) :
    List CLIPRDR_FORMAT → Nat → wfClipboard → Option wfClipboard
  | [], _, clipboard => some clipboard
  | format :: rest, i, clipboard =>
    match clipboard.format_mappings[i]? with
    | none => none
    | some mapping =>
      wf_cliprdr_server_format_list_loop env rest (i + 1)
        (map_ensure_capacity env
          { clipboard with
            format_mappings := clipboard.format_mappings.set i (fill_mapping env mapping format),
            map_size := clipboard.map_size + 1 })

/-- The function `try_open_clipboard`: up to ten attempts. -/
def try_open_clipboard (env : Platform) : Bool :=
  (List.range 10).any env.OpenClipboard

/-- The second loop of `wf_cliprdr_server_format_list`: one `SetClipboardData(id, NULL)`
per registry entry; `n` iterations remain, `i` is the index. -/
def placeholder_loop (clipboard : wfClipboard) : Nat → Nat → Option (List OsCall)
  | 0, _ => some []
  | n + 1, i =>
    match clipboard.format_mappings[i]? with
    | none => none
    | some map =>
      (placeholder_loop clipboard n (i + 1)).map
        (fun calls => OsCall.SetClipboardData map.local_format_id none :: calls)

/-- What a handler leaves behind: its status, the bridge, the calls it made. -/
structure Handled where
  rc : Nat
  clipboard : wfClipboard
  calls : List OsCall
deriving DecidableEq, Repr

/-- The function `wf_cliprdr_server_format_list`. -/
def wf_cliprdr_server_format_list (env : Platform) (clipboard : wfClipboard)
    (formatList : CLIPRDR_FORMAT_LIST) : Option Handled :=
  match clear_format_map clipboard with
  | none => none
  | some cleared =>
    match wf_cliprdr_server_format_list_loop env formatList.formats 0 cleared with
    | none => none
    | some rebuilt =>
      match file_transferring env rebuilt with
      | none => none
      | some true =>
        some { rc := if env.PostMessage then CHANNEL_RC_OK else ERROR_INTERNAL_ERROR,
               clipboard := rebuilt,
               calls := [OsCall.PostMessage WM_CLIPRDR_MESSAGE OLE_SETCLIPBOARD] }
      | some false =>
        if !try_open_clipboard env then
          some { rc := CHANNEL_RC_OK, clipboard := rebuilt, calls := [] }
        else
          let emptied : Option (Nat × List OsCall) :=
            if env.EmptyClipboard then
              (placeholder_loop rebuilt (rebuilt.map_size % 2 ^ 32) 0).map
                (fun calls => (CHANNEL_RC_OK, OsCall.EmptyClipboard :: calls))
            else some (ERROR_INTERNAL_ERROR, [OsCall.EmptyClipboard])
          match emptied with
          | none => none
          | some (rc, calls) =>
            some { rc := if !env.CloseClipboard && env.GetLastError != 0 then ERROR_INTERNAL_ERROR
                         else rc,
                   clipboard := rebuilt,
                   calls := OsCall.OpenClipboard :: calls ++ [OsCall.CloseClipboard] }

/-- The registry part of `wf_cliprdr_init`: a zeroed block of 32 entries, nothing
requested, the event not signalled. -/
def wf_cliprdr_init : wfClipboard :=
  { sync := false, map_size := 0, map_capacity := 32,
    format_mappings := List.replicate 32 formatMapping.zero,
    req_fsize := 0, req_fdata := none, req_fevent := false }

/-- Whether every `free (map->name)` of the loop of `clear_format_map` is given a pointer
that was stored in the block: the loop visits every entry below `map_capacity`, and
`written` is the number of leading entries of the block that were written since they were
allocated. `calloc` in `wf_cliprdr_init` writes all entries of the first block; `realloc` in
`map_ensure_capacity` writes none of the entries it adds. -/
def clear_format_map_frees_stored (clipboard : wfClipboard) (written : Nat) : Bool :=
  decide (clipboard.map_capacity ≤ written)

/-- A run of the channel thread: the format lists are handled one after the other, from a
registry of which the first `written` entries were written since they were allocated (32
for the registry of `wf_cliprdr_init`). A rebuild writes the entries below `map_capacity`
(in `clear_format_map`) and the entries below `numFormats` (in the loop that fills them),
and none of the other entries that `realloc` added. The run ends without a result (`none`)
at a rebuild whose `clear_format_map` frees the `name` of an entry that was never
written. -/
def handle_format_lists (env : Platform) :
    Nat → wfClipboard → List CLIPRDR_FORMAT_LIST → Option wfClipboard
  | _, clipboard, [] => some clipboard
  | written, clipboard, formatList :: rest =>
    if clear_format_map_frees_stored clipboard written then
      match wf_cliprdr_server_format_list env clipboard formatList with
      | none => none
      | some handled =>
        handle_format_lists env (max clipboard.map_capacity formatList.numFormats)
          handled.clipboard rest
    else none

/-! ## Lazy file stream -/

/-- The cursor of a `CliprdrStream`; `address` is the value `(ULONG_PTR)This` that
the stream sends as its stream id. -/
structure CliprdrStream where
  address : Nat
  m_lRefCount : Int
  m_lIndex : Nat
  m_lSize : Nat
  m_lOffset : Nat
deriving DecidableEq, Repr

/-- A file contents request PDU (`CLIPRDR_FILE_CONTENTS_REQUEST`). -/
structure CLIPRDR_FILE_CONTENTS_REQUEST where
  streamId : Nat
  listIndex : Nat
  dwFlags : Nat
  nPositionLow : Nat
  nPositionHigh : Nat
  cbRequested : Nat
  clipDataId : Nat
  msgFlags : Nat
deriving DecidableEq, Repr

/-- A file contents response PDU (`CLIPRDR_FILE_CONTENTS_RESPONSE`); `cbRequested`
is the length of `requestedData`. -/
structure CLIPRDR_FILE_CONTENTS_RESPONSE where
  msgFlags : Nat
  streamId : Nat
  requestedData : List Nat
deriving DecidableEq, Repr

/-- The field `cbRequested` of a file contents response. -/
def CLIPRDR_FILE_CONTENTS_RESPONSE.cbRequested (r : CLIPRDR_FILE_CONTENTS_RESPONSE) : Nat :=
  r.requestedData.length

/-- A format data request PDU (`CLIPRDR_FORMAT_DATA_REQUEST`). -/
structure CLIPRDR_FORMAT_DATA_REQUEST where
  requestedFormatId : Nat
deriving DecidableEq, Repr

/-- A format data response PDU (`CLIPRDR_FORMAT_DATA_RESPONSE`); `dataLen` is the length
of `requestedFormatData`. -/
structure CLIPRDR_FORMAT_DATA_RESPONSE where
  msgFlags : Nat
  requestedFormatData : List Nat
deriving DecidableEq, Repr

/-- The field `common.dataLen` of a format data response. -/
def CLIPRDR_FORMAT_DATA_RESPONSE.dataLen (r : CLIPRDR_FORMAT_DATA_RESPONSE) : Nat :=
  r.requestedFormatData.length

/-- A general capability set (`CLIPRDR_GENERAL_CAPABILITY_SET`). -/
structure CLIPRDR_GENERAL_CAPABILITY_SET where
  capabilitySetType : Nat
  capabilitySetLength : Nat
  version : Nat
  generalFlags : Nat
deriving DecidableEq, Repr

/-- A capabilities PDU (`CLIPRDR_CAPABILITIES`); `cCapabilitiesSets` is the length of
`capabilitySets`. -/
structure CLIPRDR_CAPABILITIES where
  capabilitySets : List CLIPRDR_GENERAL_CAPABILITY_SET
deriving DecidableEq, Repr

/-- The field `cCapabilitiesSets` of a capabilities PDU. -/
def CLIPRDR_CAPABILITIES.cCapabilitiesSets (capabilities : CLIPRDR_CAPABILITIES) : Nat :=
  capabilities.capabilitySets.length

/-- A temporary directory PDU (`CLIPRDR_TEMP_DIRECTORY`). -/
structure CLIPRDR_TEMP_DIRECTORY where
  szTempDir : String
deriving DecidableEq, Repr

/-- The channel to the peer, seen from the thread that renders the clipboard.

* `ClientFileContentsRequest`, `ClientFormatDataRequest`, `ClientFormatList`,
  `ClientFileContentsResponse`, `ClientCapabilities`, `TempDirectory`: the status
  returned by the send;
* `peer`, `data_peer`: the response the channel thread delivers for a request, if any;
* `malloc n`, `GlobalAlloc n`: whether `n` bytes can be allocated;
* `SetEvent`, `ResetEvent`, `GlobalLock`: whether the call succeeds;
* `GlobalUnlockFailed`: whether `!GlobalUnlock (hMem) && GetLastError ()` holds;
* `WaitFailed`: whether `WaitForSingleObject` returns something else than
  `WAIT_OBJECT_0` instead of waiting;
* `stream_alloc i`: the address of the stream object allocated for list index `i`,
  `none` when one of its two allocations fails. -/
structure Channel where
  ClientFileContentsRequest : CLIPRDR_FILE_CONTENTS_REQUEST → Nat
  peer : CLIPRDR_FILE_CONTENTS_REQUEST → Option CLIPRDR_FILE_CONTENTS_RESPONSE
  malloc : Nat → Bool
  SetEvent : Bool
  ResetEvent : Bool
  WaitFailed : Bool
  ClientFormatDataRequest : CLIPRDR_FORMAT_DATA_REQUEST → Nat := fun _ => CHANNEL_RC_OK
  data_peer : CLIPRDR_FORMAT_DATA_REQUEST → Option CLIPRDR_FORMAT_DATA_RESPONSE := fun _ => none
  GlobalAlloc : Nat → Bool := fun _ => true
  GlobalLock : Bool := true
  GlobalUnlockFailed : Bool := false
  stream_alloc : Nat → Option Nat := fun i => some (0x5000 + 0x100 * i)
  ClientFormatList : CLIPRDR_FORMAT_LIST → Nat := fun _ => CHANNEL_RC_OK
  ClientFileContentsResponse : CLIPRDR_FILE_CONTENTS_RESPONSE → Nat := fun _ => CHANNEL_RC_OK
  ClientCapabilities : CLIPRDR_CAPABILITIES → Nat := fun _ => CHANNEL_RC_OK
  TempDirectory : CLIPRDR_TEMP_DIRECTORY → Nat := fun _ => CHANNEL_RC_OK

/-- The requests a call has sent and what it returned; `result = none` when the call
never returns (it waits for an event that is not signalled). -/
structure Sent (α : Type) where
  requests : List CLIPRDR_FILE_CONTENTS_REQUEST
  result : Option α
deriving DecidableEq, Repr

/-- The function `wf_cliprdr_server_file_contents_response`: status and bridge. A
response with a failure flag, or one whose buffer cannot be allocated, returns without
setting the event. The buffer freed after a failed `SetEvent` leaves `req_fdata`
non-NULL, so the field keeps its value. -/
def wf_cliprdr_server_file_contents_response (ch : Channel) (clipboard : wfClipboard)
    (fileContentsResponse : CLIPRDR_FILE_CONTENTS_RESPONSE) : Nat × wfClipboard :=
  if fileContentsResponse.msgFlags ≠ CB_RESPONSE_OK then (E_FAIL, clipboard)
  else
    let sized := { clipboard with req_fsize := fileContentsResponse.cbRequested }
    if !ch.malloc fileContentsResponse.cbRequested then
      (ERROR_INTERNAL_ERROR, { sized with req_fdata := none })
    else
      let filled :=
        { sized with
          req_fdata :=
            some (fileContentsResponse.requestedData.take fileContentsResponse.cbRequested) }
      if !ch.SetEvent then (ERROR_INTERNAL_ERROR, filled)
      else (CHANNEL_RC_OK, { filled with req_fevent := true })

/-- The function `cliprdr_send_request_filecontents`: the request is sent, the channel
thread handles the response of the peer, the caller waits for `req_fevent`. -/
def cliprdr_send_request_filecontents (ch : Channel) (clipboard : wfClipboard)
    (streamid index flag position nreq : Nat) : Sent (Nat × wfClipboard) :=
  let fileContentsRequest : CLIPRDR_FILE_CONTENTS_REQUEST :=
    { streamId := streamid % 2 ^ 32,
      listIndex := index,
      dwFlags := flag,
      nPositionLow := position % 2 ^ 32,
      nPositionHigh := (position / 2 ^ 32) % 2 ^ 32,
      cbRequested := nreq,
      clipDataId := 0,
      msgFlags := 0 }
  let rc := ch.ClientFileContentsRequest fileContentsRequest
  let answered :=
    match ch.peer fileContentsRequest with
    | none => clipboard
    | some fileContentsResponse =>
      (wf_cliprdr_server_file_contents_response ch clipboard fileContentsResponse).2
  { requests := [fileContentsRequest],
    result :=
      if ch.WaitFailed then some (ERROR_INTERNAL_ERROR, answered)
      else if answered.req_fevent then
        if ch.ResetEvent then some (rc, { answered with req_fevent := false })
        else some (ERROR_INTERNAL_ERROR, answered)
      else none }

/-- What `CliprdrStream_Read` returns: the `HRESULT`, `*pcbRead`, the bytes written at
the address `pv` (the caller's buffer, and the memory behind it when they are more than
the buffer holds), and the stream and bridge afterwards. -/
structure ReadResult where
  hr : Nat
  pcbRead : Nat
  pv : List Nat
  stream : CliprdrStream
  clipboard : wfClipboard
deriving DecidableEq, Repr

/-- The function `CliprdrStream_Read`. The status of the request is stored in an
`int`: it is negative when bit 31 of the `UINT` is set. `free (req_fdata)` leaves the
pointer non-NULL, so the field keeps its value. `pv` of the result is what
`CopyMemory (pv, req_fdata, req_fsize)` writes at the caller's address: `req_fsize` bytes,
whatever `cb` is. The caller provides `cb` bytes there, so a result with `cb < pv.length`
stands for a write of `pv.length - cb` bytes behind the caller's buffer. -/
def CliprdrStream_Read (ch : Channel) (clipboard : wfClipboard) (This : CliprdrStream)
    (cb : Nat) : Sent ReadResult :=
  if This.m_lOffset ≥ This.m_lSize then
    { requests := [],
      result := some { hr := S_FALSE, pcbRead := 0, pv := [], stream := This,
                       clipboard := clipboard } }
  else
    let sent := cliprdr_send_request_filecontents ch clipboard This.address This.m_lIndex
      FILECONTENTS_RANGE This.m_lOffset cb
    { requests := sent.requests,
      result := sent.result.map (fun r =>
        if r.1 % 2 ^ 32 ≥ 2 ^ 31 then
          { hr := E_FAIL, pcbRead := 0, pv := [], stream := This, clipboard := r.2 }
        else
          { hr := if r.2.req_fsize < cb then S_FALSE else S_OK,
            pcbRead := r.2.req_fsize,
            pv := match r.2.req_fdata with
                  | some data => data.take r.2.req_fsize
                  | none => [],
            stream := { This with m_lOffset := (This.m_lOffset + r.2.req_fsize) % 2 ^ 64 },
            clipboard := r.2 }) }

/-- What `CliprdrStream_Seek` returns: the `HRESULT`, the value stored through
`plibNewPosition` (if any), and the stream afterwards. -/
structure SeekResult where
  hr : Nat
  plibNewPosition : Option Nat
  stream : CliprdrStream
deriving DecidableEq, Repr

/-- The `switch` of `CliprdrStream_Seek`: the unsigned 64-bit `newoffset` for an origin,
`none` for an unknown origin. -/
def CliprdrStream_Seek_newoffset (This : CliprdrStream) (dlibMove : Int) (dwOrigin : Nat) :
    Option Nat :=
  if dwOrigin = STREAM_SEEK_SET then some (dlibMove % 2 ^ 64).toNat
  else if dwOrigin = STREAM_SEEK_CUR then
    some (((This.m_lOffset : Int) + dlibMove) % 2 ^ 64).toNat
  else if dwOrigin = STREAM_SEEK_END then
    some (((This.m_lSize : Int) + dlibMove) % 2 ^ 64).toNat
  else none

/-- The function `CliprdrStream_Seek`; `dlibMove` is the signed 64-bit move. -/
def CliprdrStream_Seek (This : CliprdrStream) (dlibMove : Int) (dwOrigin : Nat) : SeekResult :=
  match CliprdrStream_Seek_newoffset This dlibMove dwOrigin with
  | none => { hr := E_INVALIDARG, plibNewPosition := none, stream := This }
  | some newoffset =>
    if newoffset < 0 ∨ newoffset ≥ This.m_lSize then
      { hr := E_FAIL, plibNewPosition := none, stream := This }
    else
      { hr := S_OK, plibNewPosition := some newoffset,
        stream := { This with m_lOffset := newoffset } }

/-- A consumer that calls `CliprdrStream_Read` once per requested length, each call on
the stream and bridge the previous one left; `none` when a call never returns. -/
def read_all (ch : Channel) : wfClipboard → CliprdrStream → List Nat → Option (List ReadResult)
  | _, _, [] => some []
  | clipboard, This, cb :: rest =>
    match (CliprdrStream_Read ch clipboard This cb).result with
    | none => none
    | some r => (read_all ch r.clipboard r.stream rest).map (fun rs => r :: rs)

/-- A peer that serves the file `content`: a range request for `cbRequested` bytes at a
position gets the bytes of `content` from that position, at most `cbRequested` and at
most as many as remain. -/
def serving_peer (content : List Nat) (request : CLIPRDR_FILE_CONTENTS_REQUEST) :
    Option CLIPRDR_FILE_CONTENTS_RESPONSE :=
  some { msgFlags := CB_RESPONSE_OK,
         streamId := request.streamId,
         requestedData :=
           (content.drop (request.nPositionHigh * 2 ^ 32 + request.nPositionLow)).take
             request.cbRequested }

/-! ## Auxiliary definitions and sample data -/

/-- What entry `k` of the block of `c` holds when a rebuild from `c` comes to fill it:
zero inside the block that `clear_format_map` cleared, the heap content in the part the
block has grown into. -/
def cleared_entry (env : Platform) (c : wfClipboard) (k : Nat) : formatMapping :=
  if k < c.map_capacity then formatMapping.zero else env.heap k

/-- The peer serves the file `content` for list index `index` and nothing fails on the way:
every range request for that index is answered by `serving_peer content`, the send
returns `CHANNEL_RC_OK`, the response buffer is allocated, the event is set and reset,
and the wait does not fail. -/
def Channel.serves (ch : Channel) (index : Nat) (content : List Nat) : Prop :=
  (∀ request, request.dwFlags = FILECONTENTS_RANGE → request.listIndex = index →
    ch.peer request = serving_peer content request) ∧
  (∀ request, ch.ClientFileContentsRequest request = CHANNEL_RC_OK) ∧
  (∀ n, ch.malloc n = true) ∧
  ch.SetEvent = true ∧ ch.ResetEvent = true ∧ ch.WaitFailed = false

/-- A platform on which every allocation and every clipboard call succeeds; the id
registered for a name is `0xC000` plus the length of the name. -/
def sample_platform : Platform :=
  { ConvertUtf8ToWCharAlloc := fun s => some s,
    RegisterClipboardFormatW := fun name => 0xC000 + name.length,
    _wcsdup := fun s => some s,
    realloc := fun _ => true,
    heap := fun _ => formatMapping.zero,
    PostMessage := true,
    OpenClipboard := fun _ => true,
    EmptyClipboard := true,
    CloseClipboard := true,
    GetLastError := 0 }

/-- The format list of the example in the specification: the named format `CustomText`
(remote id `0xC0A1`) and the unnamed numeric format `7`. -/
def custom_text_list : CLIPRDR_FORMAT_LIST :=
  { formats := [{ formatId := 0xC0A1, formatName := some "CustomText" },
                { formatId := 7, formatName := none }] }

/-- A format list that carries the name `CustomText` under two remote ids. -/
def repeated_name_list : CLIPRDR_FORMAT_LIST :=
  { formats := [{ formatId := 0xC0A1, formatName := some "CustomText" },
                { formatId := 0xC0A2, formatName := some "CustomText" }] }

/-- A format list with an unnamed format and two named formats of different names. -/
def mixed_list : CLIPRDR_FORMAT_LIST :=
  { formats := [{ formatId := 7, formatName := none },
                { formatId := 0xC0A0, formatName := some "Rich Text Format" },
                { formatId := 0xC0A1, formatName := some "CustomText" }] }

/-- A registry with two entries in a block of 32. -/
def sample_registry : wfClipboard :=
  { wf_cliprdr_init with
    map_size := 2,
    format_mappings :=
      [{ remote_format_id := 0xC0A1, local_format_id := 0xC00A, name := some "CustomText" },
       { remote_format_id := 7, local_format_id := 7, name := none }] ++
        List.replicate 30 formatMapping.zero }

/-- A channel whose peer serves `content` and on which nothing fails. -/
def sample_channel (content : List Nat) : Channel :=
  { ClientFileContentsRequest := fun _ => CHANNEL_RC_OK,
    peer := serving_peer content,
    malloc := fun _ => true,
    SetEvent := true,
    ResetEvent := true,
    WaitFailed := false }

/-- Ten bytes of file content. -/
def sample_content : List Nat := [10, 11, 12, 13, 14, 15, 16, 17, 18, 19]

/-- A stream for list index 3 of total size 10 at offset 0. -/
def sample_stream : CliprdrStream :=
  { address := 0x5000, m_lRefCount := 1, m_lIndex := 3, m_lSize := 10, m_lOffset := 0 }

/-- A channel whose peer answers every request with a failure response. -/
def refusing_channel : Channel :=
  { ClientFileContentsRequest := fun _ => CHANNEL_RC_OK,
    peer := fun request =>
      some { msgFlags := CB_RESPONSE_FAIL, streamId := request.streamId, requestedData := [] },
    malloc := fun _ => true,
    SetEvent := true,
    ResetEvent := true,
    WaitFailed := false }

/-- A channel whose peer serves `content` but on which `ResetEvent` fails, so that
`cliprdr_send_request_filecontents` returns `ERROR_INTERNAL_ERROR`. -/
def reset_failing_channel (content : List Nat) : Channel :=
  { sample_channel content with ResetEvent := false }

/-! ## Format data correlator -/

/-- The `HRESULT` `E_UNEXPECTED` (bit pattern of the 32-bit value). -/
def E_UNEXPECTED : Nat := 0x8000FFFF

/-- The `HRESULT` `E_OUTOFMEMORY` (bit pattern of the 32-bit value). -/
def E_OUTOFMEMORY : Nat := 0x8007000E

/-- The `HRESULT` `DV_E_FORMATETC` (bit pattern of the 32-bit value). -/
def DV_E_FORMATETC : Nat := 0x80040064

/-- Win32 error `CHANNEL_RC_NO_MEMORY` of the channel API. -/
def CHANNEL_RC_NO_MEMORY : Nat := 12

/-- The shell format name `CFSTR_FILECONTENTS`. -/
def CFSTR_FILECONTENTS : String := "FileContents"

/-- The standard clipboard format `CF_HDROP`. -/
def CF_HDROP : Nat := 15

/-- Descriptor flag `FD_ATTRIBUTES`. -/
def FD_ATTRIBUTES : Nat := 0x4

/-- Descriptor flag `FD_WRITESTIME`. -/
def FD_WRITESTIME : Nat := 0x20

/-- Descriptor flag `FD_FILESIZE`. -/
def FD_FILESIZE : Nat := 0x40

/-- Descriptor flag `FD_PROGRESSUI`. -/
def FD_PROGRESSUI : Nat := 0x4000

/-- File attribute `FILE_ATTRIBUTE_DIRECTORY`. -/
def FILE_ATTRIBUTE_DIRECTORY : Nat := 0x10

/-- Storage medium type `TYMED_HGLOBAL`. -/
def TYMED_HGLOBAL : Nat := 1

/-- Storage medium type `TYMED_ISTREAM`. -/
def TYMED_ISTREAM : Nat := 4

/-- Aspect `DVASPECT_CONTENT`. -/
def DVASPECT_CONTENT : Nat := 1

/-- The length `MAX_PATH` of a path buffer, in WCHARs. -/
def MAX_PATH : Nat := 260

/-- A PDU that the bridge sends to the peer. -/
inductive ClientPdu where
  | FormatDataRequest (request : CLIPRDR_FORMAT_DATA_REQUEST)
  | FileContentsRequest (request : CLIPRDR_FILE_CONTENTS_REQUEST)
  | FileContentsResponse (response : CLIPRDR_FILE_CONTENTS_RESPONSE)
  | FormatList (formatList : CLIPRDR_FORMAT_LIST)
  | Capabilities (capabilities : CLIPRDR_CAPABILITIES)
  | TempDirectory (tempDirectory : CLIPRDR_TEMP_DIRECTORY)
deriving DecidableEq, Repr

/-- How a call ends: it returns a value, it never returns (it waits for an event that is
not signalled), or it does not get to return: it makes an access that C leaves undefined
(a NULL or out of block dereference), it violates a run-time constraint of the C library
(a string that does not fit the buffer given to `wcscpy_s`), or it exhausts the stack. -/
inductive Outcome (α : Type) where
  | done (a : α)
  | blocked
  | fault
deriving DecidableEq, Repr

/-- The PDUs a call has sent and how it ended. -/
structure Ran (α : Type) where
  sent : List ClientPdu
  result : Outcome α
deriving DecidableEq, Repr

/-- The function `wf_cliprdr_server_format_data_response`: status and bridge. A response
with a failure flag clears `hmem` and signals `response_data_event`. -/
def wf_cliprdr_server_format_data_response (ch : Channel) (clipboard : wfClipboard)
    (formatDataResponse : CLIPRDR_FORMAT_DATA_RESPONSE) : Nat × wfClipboard :=
  if formatDataResponse.msgFlags ≠ CB_RESPONSE_OK then
    let cleared := { clipboard with hmem := none }
    if !ch.SetEvent then (ERROR_INTERNAL_ERROR, cleared)
    else (CHANNEL_RC_OK, { cleared with response_data_event := true })
  else if !ch.GlobalAlloc formatDataResponse.dataLen then (ERROR_INTERNAL_ERROR, clipboard)
  else if !ch.GlobalLock then (ERROR_INTERNAL_ERROR, clipboard)
  else if ch.GlobalUnlockFailed then (ERROR_INTERNAL_ERROR, clipboard)
  else
    let filled :=
      { clipboard with
        hmem := some (formatDataResponse.requestedFormatData.take formatDataResponse.dataLen) }
    if !ch.SetEvent then (ERROR_INTERNAL_ERROR, filled)
    else (CHANNEL_RC_OK, { filled with response_data_event := true })

/-- The function `cliprdr_send_data_request`: the format id is mapped with
`get_remote_format_id`, the request is sent, the channel thread handles the response of
the peer, the caller waits for `response_data_event`; the status returned is the status of
the send unless the wait or the reset fails. -/
def cliprdr_send_data_request (ch : Channel) (clipboard : wfClipboard) (formatId : Nat) :
    Ran (Nat × wfClipboard) :=
  match get_remote_format_id clipboard formatId with
  | none => { sent := [], result := Outcome.fault }
  | some remoteFormatId =>
    let formatDataRequest : CLIPRDR_FORMAT_DATA_REQUEST :=
      { requestedFormatId := remoteFormatId }
    let requested := { clipboard with requestedFormatId := formatId }
    let rc := ch.ClientFormatDataRequest formatDataRequest
    let answered :=
      match ch.data_peer formatDataRequest with
      | none => requested
      | some formatDataResponse =>
        (wf_cliprdr_server_format_data_response ch requested formatDataResponse).2
    { sent := [ClientPdu.FormatDataRequest formatDataRequest],
      result :=
        if ch.WaitFailed then Outcome.done (ERROR_INTERNAL_ERROR, answered)
        else if answered.response_data_event then
          if ch.ResetEvent then
            Outcome.done (rc, { answered with response_data_event := false })
          else Outcome.done (ERROR_INTERNAL_ERROR, answered)
        else Outcome.blocked }

/-- The case `WM_RENDERFORMAT` of `cliprdr_proc`: the bridge afterwards and the calls made
to the local clipboard. Nothing is offered when the data request returns a status other
than 0; otherwise `hmem` is handed to `SetClipboardData`, and dropped when that call
returns NULL. -/
def cliprdr_proc_WM_RENDERFORMAT (env : Platform) (ch : Channel) (clipboard : wfClipboard)
    (wParam : Nat) : Ran (wfClipboard × List OsCall) :=
  let requested := cliprdr_send_data_request ch clipboard (wParam % 2 ^ 32)
  { sent := requested.sent,
    result :=
      match requested.result with
      | Outcome.blocked => Outcome.blocked
      | Outcome.fault => Outcome.fault
      | Outcome.done (rc, answered) =>
        if rc ≠ 0 then Outcome.done (answered, [])
        else if env.SetClipboardData (wParam % 2 ^ 32) answered.hmem then
          Outcome.done (answered, [OsCall.SetClipboardData (wParam % 2 ^ 32) answered.hmem])
        else
          Outcome.done ({ answered with hmem := none },
            [OsCall.SetClipboardData (wParam % 2 ^ 32) answered.hmem]) }

/-- The `FORMATETC` of a data object; `cfFormat` is the clipboard format, `lindex` the
signed list index. -/
structure FORMATETC where
  cfFormat : Nat
  dwAspect : Nat
  lindex : Int
  tymed : Nat
deriving DecidableEq, Repr

/-- What `pMedium->u` holds after `CliprdrDataObject_GetData`: nothing written, a global
memory handle (`none` for NULL), or a stream. -/
inductive MediumValue where
  | unset
  | hGlobal (hmem : Option (List Nat))
  | pstm (stream : CliprdrStream)
deriving DecidableEq, Repr

/-- The `STGMEDIUM` filled by `CliprdrDataObject_GetData`. -/
structure STGMEDIUM where
  tymed : Nat
  u : MediumValue
deriving DecidableEq, Repr

/-- The state of a `CliprdrDataObject`: `m_nNumFormats` is the length of `m_pFormatEtc`,
`m_pStream` is the array of stream pointers (`none` for a NULL array, `none` entries for
NULL pointers); the streams are held by value. -/
structure CliprdrDataObject where
  m_lRefCount : Int
  m_pFormatEtc : List FORMATETC
  m_nStreams : Nat
  m_pStream : Option (List (Option CliprdrStream))
deriving DecidableEq, Repr

/-- The field `m_nNumFormats` of a data object. -/
def CliprdrDataObject.m_nNumFormats (This : CliprdrDataObject) : Nat :=
  This.m_pFormatEtc.length

/-- The 32-bit little-endian value at `offset` of a buffer, `none` outside the buffer. -/
def le32 (bytes : List Nat) (offset : Nat) : Option Nat :=
  if offset + 4 ≤ bytes.length then
    some (bytes.getD offset 0 + 2 ^ 8 * bytes.getD (offset + 1) 0 +
      2 ^ 16 * bytes.getD (offset + 2) 0 + 2 ^ 24 * bytes.getD (offset + 3) 0)
  else none

/-- The 64-bit little-endian value at `offset` of a buffer, `none` outside the buffer. -/
def le64 (bytes : List Nat) (offset : Nat) : Option Nat :=
  match le32 bytes offset, le32 bytes (offset + 4) with
  | some low, some high => some (low + 2 ^ 32 * high)
  | _, _ => none

/-- The text of a NUL-terminated `WCHAR` array of `count` characters at `offset`. -/
def wchars_at (bytes : List Nat) (offset count : Nat) : String :=
  String.mk ((((List.range count).map
    (fun k => bytes.getD (offset + 2 * k) 0 + 2 ^ 8 * bytes.getD (offset + 2 * k + 1) 0)).takeWhile
      (fun unit => unit != 0)).map Char.ofNat)

/-- The size of a `FILEDESCRIPTORW` in a `FILEGROUPDESCRIPTORW`. -/
def sizeof_FILEDESCRIPTORW : Nat := 592

/-- The descriptor stored at `offset` of a buffer (`dwFlags` at 0, `dwFileAttributes` at
36, `ftLastWriteTime` at 56, `nFileSizeHigh` at 64, `nFileSizeLow` at 68, `cFileName` at
72), `none` when it does not lie inside the buffer. -/
def FILEDESCRIPTORW_at (bytes : List Nat) (offset : Nat) : Option FILEDESCRIPTORW :=
  if offset + sizeof_FILEDESCRIPTORW ≤ bytes.length then
    some { dwFlags := (le32 bytes offset).getD 0,
           dwFileAttributes := (le32 bytes (offset + 36)).getD 0,
           ftLastWriteTime := (le64 bytes (offset + 56)).getD 0,
           nFileSizeHigh := (le32 bytes (offset + 64)).getD 0,
           nFileSizeLow := (le32 bytes (offset + 68)).getD 0,
           cFileName := wchars_at bytes (offset + 72) MAX_PATH }
  else none

/-- The function `CliprdrStream_AddRef`. -/
def CliprdrStream_AddRef (This : CliprdrStream) : CliprdrStream :=
  { This with m_lRefCount := This.m_lRefCount + 1 }

/-- The function `CliprdrStream_New`; `dsc` is the descriptor `*dsc`, `none` when the
pointer does not point into the buffer. A descriptor that carries no size (and is no
directory) makes the stream ask the peer for its size; the 8 bytes delivered are read
whatever the status of the request. The result is the new stream, `none` for NULL. -/
def CliprdrStream_New (ch : Channel) (clipboard : wfClipboard) (index : Nat)
    (dsc : Option FILEDESCRIPTORW) : Ran (Option CliprdrStream × wfClipboard) :=
  match ch.stream_alloc index with
  | none => { sent := [], result := Outcome.done (none, clipboard) }
  | some address =>
    match dsc with
    | none => { sent := [], result := Outcome.fault }
    | some m_Dsc =>
      let isDir : Bool :=
        decide (m_Dsc.dwFlags &&& FD_ATTRIBUTES ≠ 0) &&
          decide (m_Dsc.dwFileAttributes &&& FILE_ATTRIBUTE_DIRECTORY ≠ 0)
      if m_Dsc.dwFlags &&& FD_FILESIZE = 0 ∧ isDir = false then
        let sent := cliprdr_send_request_filecontents ch clipboard address index
          FILECONTENTS_SIZE 0 8
        { sent := sent.requests.map ClientPdu.FileContentsRequest,
          result :=
            match sent.result with
            | none => Outcome.blocked
            | some (rc, answered) =>
              match answered.req_fdata with
              | none => Outcome.fault
              | some data =>
                match le64 data 0 with
                | none => Outcome.fault
                | some size =>
                  if rc = CHANNEL_RC_OK then
                    Outcome.done (some { address := address, m_lRefCount := 1,
                                         m_lIndex := index, m_lSize := size, m_lOffset := 0 },
                      answered)
                  else Outcome.done (none, answered) }
      else
        { sent := [],
          result := Outcome.done (some { address := address, m_lRefCount := 1,
                                         m_lIndex := index,
                                         m_lSize := (m_Dsc.nFileSizeHigh <<< 32) |||
                                           m_Dsc.nFileSizeLow,
                                         m_lOffset := 0 },
            clipboard) }

/-- The loop of `cliprdr_lookup_format`: the index of the first format of the object that
matches, `-1` when there is none. -/
def cliprdr_lookup_format_loop (pFormatEtc : FORMATETC) : List FORMATETC → Nat → Int
  | [], _ => -1
  | format :: rest, i =>
    if pFormatEtc.tymed &&& format.tymed ≠ 0 ∧ pFormatEtc.cfFormat = format.cfFormat ∧
        pFormatEtc.dwAspect &&& format.dwAspect ≠ 0 then (i : Int)
    else cliprdr_lookup_format_loop pFormatEtc rest (i + 1)

/-- The function `cliprdr_lookup_format`. -/
def cliprdr_lookup_format (This : CliprdrDataObject) (pFormatEtc : FORMATETC) : Int :=
  cliprdr_lookup_format_loop pFormatEtc This.m_pFormatEtc 0

/-- The loop of `CliprdrDataObject_GetData` that fills the stream array from the
descriptors of the buffer: `n` iterations remain, `i` is the index. It stops at the first
stream that cannot be made (`false`), leaving the later entries as they were. -/
def materialize_loop (ch : Channel) (bytes : List Nat) :
    Nat → Nat → wfClipboard → List (Option CliprdrStream) →
      Ran (Bool × wfClipboard × List (Option CliprdrStream))
  | 0, _, clipboard, streams => { sent := [], result := Outcome.done (true, clipboard, streams) }
  | n + 1, i, clipboard, streams =>
    let made := CliprdrStream_New ch clipboard i
      (FILEDESCRIPTORW_at bytes (4 + sizeof_FILEDESCRIPTORW * i))
    match made.result with
    | Outcome.blocked => { sent := made.sent, result := Outcome.blocked }
    | Outcome.fault => { sent := made.sent, result := Outcome.fault }
    | Outcome.done (stream, answered) =>
      if i < streams.length then
        match stream with
        | none =>
          { sent := made.sent, result := Outcome.done (false, answered, streams.set i none) }
        | some s =>
          let rest := materialize_loop ch bytes n (i + 1) answered (streams.set i (some s))
          { sent := made.sent ++ rest.sent, result := rest.result }
      else { sent := made.sent, result := Outcome.fault }

/-- What `CliprdrDataObject_GetData` returns: the `HRESULT`, the medium, and the object
and the bridge afterwards. -/
structure GetDataResult where
  hr : Nat
  pMedium : STGMEDIUM
  This : CliprdrDataObject
  clipboard : wfClipboard
deriving DecidableEq, Repr

/-- The descriptor list branch of `CliprdrDataObject_GetData` for the matching format
`format`: the data request, then the streams made from the buffer delivered. The stream
array is allocated and filled only while the object has none. -/
def CliprdrDataObject_GetData_descriptors (ch : Channel) (clipboard : wfClipboard)
    (This : CliprdrDataObject) (format : FORMATETC) : Ran GetDataResult :=
  match get_remote_format_id clipboard format.cfFormat with
  | none => { sent := [], result := Outcome.fault }
  | some remote =>
    let requested := cliprdr_send_data_request ch clipboard remote
    match requested.result with
    | Outcome.blocked => { sent := requested.sent, result := Outcome.blocked }
    | Outcome.fault => { sent := requested.sent, result := Outcome.fault }
    | Outcome.done (rc, answered) =>
      if rc ≠ 0 then
        { sent := requested.sent,
          result := Outcome.done { hr := E_UNEXPECTED,
                                   pMedium := { tymed := format.tymed, u := MediumValue.unset },
                                   This := This, clipboard := answered } }
      else
        match answered.hmem with
        | none => { sent := requested.sent, result := Outcome.fault }
        | some bytes =>
          match le32 bytes 0 with
          | none => { sent := requested.sent, result := Outcome.fault }
          | some cItems =>
            let counted := { This with m_nStreams := cItems }
            let released : GetDataResult :=
              { hr := E_OUTOFMEMORY,
                pMedium := { tymed := format.tymed, u := MediumValue.hGlobal none },
                This := counted, clipboard := { answered with hmem := none } }
            match This.m_pStream with
            | some _ =>
              { sent := requested.sent,
                result := Outcome.done { hr := S_OK,
                                         pMedium := { tymed := format.tymed,
                                                      u := MediumValue.hGlobal (some bytes) },
                                         This := counted, clipboard := answered } }
            | none =>
              if cItems = 0 then { sent := requested.sent, result := Outcome.done released }
              else if !ch.malloc (cItems * 8) then
                { sent := requested.sent, result := Outcome.done released }
              else
                let filled := materialize_loop ch bytes cItems 0 answered
                  (List.replicate cItems none)
                { sent := requested.sent ++ filled.sent,
                  result :=
                    match filled.result with
                    | Outcome.blocked => Outcome.blocked
                    | Outcome.fault => Outcome.fault
                    | Outcome.done (all, after, streams) =>
                      Outcome.done
                        { hr := if all then S_OK else E_OUTOFMEMORY,
                          pMedium := { tymed := format.tymed,
                                       u := MediumValue.hGlobal (some bytes) },
                          This := { counted with m_pStream := some streams },
                          clipboard := after } }

/-- The file contents branch of `CliprdrDataObject_GetData` for the matching format
`format`: the stream at `lindex` when `0 <= lindex < m_nStreams`, with one more
reference; `E_INVALIDARG` otherwise. `lindex` is a `LONG`; the cast of a non-negative
`LONG` to `ULONG` keeps the value. -/
def CliprdrDataObject_GetData_contents (clipboard : wfClipboard) (This : CliprdrDataObject)
    (format : FORMATETC) (lindex : Int) : Ran GetDataResult :=
  if 0 ≤ lindex ∧ lindex.toNat < This.m_nStreams then
    match This.m_pStream with
    | none => { sent := [], result := Outcome.fault }
    | some streams =>
      match streams[lindex.toNat]? with
      | none => { sent := [], result := Outcome.fault }
      | some none => { sent := [], result := Outcome.fault }
      | some (some stream) =>
        { sent := [],
          result := Outcome.done
            { hr := S_OK,
              pMedium := { tymed := format.tymed,
                           u := MediumValue.pstm (CliprdrStream_AddRef stream) },
              This := { This with
                m_pStream :=
                  some (streams.set lindex.toNat (some (CliprdrStream_AddRef stream))) },
              clipboard := clipboard } }
  else
    { sent := [],
      result := Outcome.done { hr := E_INVALIDARG,
                               pMedium := { tymed := format.tymed, u := MediumValue.unset },
                               This := This, clipboard := clipboard } }

/-- The function `CliprdrDataObject_GetData`. -/
def CliprdrDataObject_GetData (env : Platform) (ch : Channel) (clipboard : wfClipboard)
    (This : CliprdrDataObject) (pFormatEtc : FORMATETC) : Ran GetDataResult :=
  let idx := cliprdr_lookup_format This pFormatEtc
  if idx = -1 then
    { sent := [],
      result := Outcome.done { hr := DV_E_FORMATETC,
                               pMedium := { tymed := 0, u := MediumValue.unset },
                               This := This, clipboard := clipboard } }
  else
    match This.m_pFormatEtc[idx.toNat]? with
    | none => { sent := [], result := Outcome.fault }
    | some format =>
      if format.cfFormat = env.RegisterClipboardFormatW CFSTR_FILEDESCRIPTORW then
        CliprdrDataObject_GetData_descriptors ch clipboard This format
      else if format.cfFormat = env.RegisterClipboardFormatW CFSTR_FILECONTENTS then
        CliprdrDataObject_GetData_contents clipboard This format pFormatEtc.lindex
      else
        { sent := [],
          result := Outcome.done { hr := E_UNEXPECTED,
                                   pMedium := { tymed := format.tymed, u := MediumValue.unset },
                                   This := This, clipboard := clipboard } }

/-- The function `wf_create_file_obj` (through `CliprdrDataObject_New`): a data object
with the descriptor list format and the file contents format, and no stream yet. -/
def wf_create_file_obj (env : Platform) : CliprdrDataObject :=
  { m_lRefCount := 1,
    m_pFormatEtc :=
      [{ cfFormat := env.RegisterClipboardFormatW CFSTR_FILEDESCRIPTORW,
         dwAspect := DVASPECT_CONTENT, lindex := 0, tymed := TYMED_HGLOBAL },
       { cfFormat := env.RegisterClipboardFormatW CFSTR_FILECONTENTS,
         dwAspect := DVASPECT_CONTENT, lindex := 0, tymed := TYMED_ISTREAM }],
    m_nStreams := 0,
    m_pStream := none }

/-- A data object as `wf_create_file_obj` makes it, after three streams of one byte each
were made for it. -/
def sample_data_object : CliprdrDataObject :=
  { wf_create_file_obj sample_platform with
    m_nStreams := 3,
    m_pStream := some [some { address := 0x5000, m_lRefCount := 1, m_lIndex := 0,
                              m_lSize := 1, m_lOffset := 0 },
                       some { address := 0x5100, m_lRefCount := 1, m_lIndex := 1,
                              m_lSize := 1, m_lOffset := 0 },
                       some { address := 0x5200, m_lRefCount := 1, m_lIndex := 2,
                              m_lSize := 1, m_lOffset := 0 }] }

/-- A data object as `wf_create_file_obj` makes it, after two streams of one byte each
were made for it and a later descriptor list of three files set `m_nStreams` to 3. -/
def recounted_data_object : CliprdrDataObject :=
  { wf_create_file_obj sample_platform with
    m_nStreams := 3,
    m_pStream := some [some { address := 0x5000, m_lRefCount := 1, m_lIndex := 0,
                              m_lSize := 1, m_lOffset := 0 },
                       some { address := 0x5100, m_lRefCount := 1, m_lIndex := 1,
                              m_lSize := 1, m_lOffset := 0 }] }

/-- The request for the file contents at list index `lindex`, as a consumer of the data
object makes it. -/
def file_contents_FORMATETC (env : Platform) (lindex : Int) : FORMATETC :=
  { cfFormat := env.RegisterClipboardFormatW CFSTR_FILECONTENTS,
    dwAspect := DVASPECT_CONTENT, lindex := lindex, tymed := TYMED_ISTREAM }

/-! ## Local format list -/

/-- The assignment `formats[index].formatId = formatId` into the allocated block; `none`
when `index` is outside the block. -/
def set_formatId (formats : List CLIPRDR_FORMAT) (index formatId : Nat) :
    Option (List CLIPRDR_FORMAT) :=
  match formats[index]? with
  | none => none
  | some format => some (formats.set index { format with formatId := formatId })

/-- The loop `while ((formatId = EnumClipboardFormats(formatId)) != 0)` of
`cliprdr_send_format_list`: the index after the loop and the block. `n` iterations
remain; every iteration that does not end the loop writes at the next index, so a block
of `count` elements allows at most `count + 1` iterations before a write leaves it. -/
def enumerate_loop (env : Platform) :
    Nat → Nat → Nat → List CLIPRDR_FORMAT → Option (Nat × List CLIPRDR_FORMAT)
  | 0, _, _, _ => none
  | n + 1, formatId, index, formats =>
    let next := env.EnumClipboardFormats formatId
    if next = 0 then some (index, formats)
    else
      match set_formatId formats index next with
      | none => none
      | some written => enumerate_loop env n next (index + 1) written

/-- The loop of `cliprdr_send_format_list` that names the formats: `n` iterations remain,
`index` is the index. -/
def name_loop (env : Platform) : Nat → Nat → List CLIPRDR_FORMAT → Option (List CLIPRDR_FORMAT)
  | 0, _, formats => some formats
  | n + 1, index, formats =>
    match formats[index]? with
    | none => none
    | some format =>
      match env.GetClipboardFormatNameA format.formatId with
      | none => name_loop env n (index + 1) formats
      | some formatName =>
        name_loop env n (index + 1)
          (formats.set index { format with formatName := env._strdup formatName })

/-- The function `cliprdr_send_format_list`: the PDUs sent and the status returned. With
`CF_HDROP` on the clipboard the two file transfer formats are written at indices 0 and 1
of the block of `CountClipboardFormats ()` elements, otherwise the formats are
enumerated; a write outside the block is a fault. When the clipboard cannot be opened
an empty list is sent. -/
def cliprdr_send_format_list (env : Platform) (ch : Channel) : Ran Nat :=
  if try_open_clipboard env then
    let count := env.CountClipboardFormats % 2 ^ 32
    if !env.calloc count then { sent := [], result := Outcome.done CHANNEL_RC_NO_MEMORY }
    else
      let formats : List CLIPRDR_FORMAT :=
        List.replicate count { formatId := 0, formatName := none }
      let filled : Option (Nat × List CLIPRDR_FORMAT) :=
        if env.IsClipboardFormatAvailable CF_HDROP then
          match set_formatId formats 0 (env.RegisterClipboardFormatW CFSTR_FILEDESCRIPTORW) with
          | none => none
          | some first =>
            match set_formatId first 1 (env.RegisterClipboardFormatW CFSTR_FILECONTENTS) with
            | none => none
            | some second => some (2, second)
        else enumerate_loop env (count + 1) 0 0 formats
      match filled with
      | none => { sent := [], result := Outcome.fault }
      | some (numFormats, written) =>
        if !env.CloseClipboard then { sent := [], result := Outcome.done ERROR_INTERNAL_ERROR }
        else
          match name_loop env numFormats 0 written with
          | none => { sent := [], result := Outcome.fault }
          | some named =>
            let formatList : CLIPRDR_FORMAT_LIST := { formats := named.take numFormats }
            { sent := [ClientPdu.FormatList formatList],
              result := Outcome.done (ch.ClientFormatList formatList) }
  else
    let formatList : CLIPRDR_FORMAT_LIST := { formats := [] }
    { sent := [ClientPdu.FormatList formatList],
      result := Outcome.done (ch.ClientFormatList formatList) }

/-- The local clipboard enumerates exactly the formats `fs` after the format `previous`:
each call of `EnumClipboardFormats` returns the next format, none of them 0, and 0 after
the last. -/
def enumeration_from (env : Platform) : Nat → List Nat → Prop
  | previous, [] => env.EnumClipboardFormats previous = 0
  | previous, f :: fs =>
    env.EnumClipboardFormats previous = f ∧ f ≠ 0 ∧ enumeration_from env f fs

/-- The format list entry of the local format `formatId`: the name that
`GetClipboardFormatNameA` gives, if any. -/
def named_format (env : Platform) (formatId : Nat) : CLIPRDR_FORMAT :=
  { formatId := formatId,
    formatName :=
      match env.GetClipboardFormatNameA formatId with
      | none => none
      | some formatName => env._strdup formatName }

/-- A local clipboard that holds the formats of `fs`, in that order; the registered
formats `0xC00A`, `0xC00C` and `0xC014` have names. -/
def clipboard_holding (fs : List Nat) : Platform :=
  { sample_platform with
    CountClipboardFormats := fs.length,
    IsClipboardFormatAvailable := fun f => decide (f ∈ fs),
    EnumClipboardFormats := fun f =>
      if f = 0 then fs.headD 0 else (fs.dropWhile (fun g => g != f)).tail.headD 0,
    GetClipboardFormatNameA := fun f =>
      if f = 0xC00A then some "CustomText"
      else if f = 0xC00C then some "FileContents"
      else if f = 0xC014 then some "FileGroupDescriptorW"
      else none }

/-! ## Serving the files of the local clipboard -/

/-- The fields of `WIN32_FIND_DATA` that the harvester reads. -/
structure WIN32_FIND_DATA where
  dwFileAttributes : Nat
  cFileName : String
deriving DecidableEq, Repr

/-- Answers of the local file system and of the allocator for the file arrays; a file is
named by the path the call is given.

* `CreateFileW p`: whether the handle is valid; `CloseHandle p`: whether closing succeeds;
* `GetFileAttributes p`, `GetFileSize p` (low and high part): the values returned;
* `GetFileTime p`: the last write time, `none` when the call fails;
* `SetFilePointer p low high`: whether the call returns something else than
  `INVALID_SET_FILE_POINTER`;
* `ReadFile p low high n`: the bytes read at that position when `n` are requested (at most
  `n` of them are used), `none` when the call fails;
* `FindFirstFile spec`: `none` for `INVALID_HANDLE_VALUE`, otherwise the entry the call
  returns and the entries the following calls of `FindNextFile` return, in order;
* `malloc_name p`, `calloc_descriptor p`: whether the name buffer and the descriptor of
  the record for the path `p` can be allocated;
* `realloc_descriptors n`, `realloc_names n`: whether the block can be grown to `n`
  elements; `heap_name i`, `heap_descriptor i`: what element `i` of a grown block holds
  before it is written. -/
structure FileSystem where
  CreateFileW : String → Bool
  CloseHandle : String → Bool
  GetFileAttributes : String → Nat
  GetFileSize : String → Nat × Nat
  GetFileTime : String → Option Nat
  SetFilePointer : String → Nat → Nat → Bool
  ReadFile : String → Nat → Nat → Nat → Option (List Nat)
  FindFirstFile : String → Option (WIN32_FIND_DATA × List WIN32_FIND_DATA)
  malloc_name : String → Bool
  calloc_descriptor : String → Bool
  realloc_descriptors : Nat → Bool
  realloc_names : Nat → Bool
  heap_name : Nat → Option String
  heap_descriptor : Nat → Option FILEDESCRIPTORW

/-- The content of a `DROPFILES` block: the flag `fWide` and the names of the list that
starts at the offset `pFiles`, up to the empty name that ends it. -/
structure DROPFILES where
  fWide : Bool
  names : List String
deriving DecidableEq, Repr

/-- Answers of the OLE clipboard and of the data object and stream found on it.

* `OleGetClipboard`: whether the call succeeds;
* `EnumFormatEtc`: `none` when the call does not return `S_OK`, otherwise the clipboard
  formats that `IEnumFORMATETC_Next` returns with `S_OK`, in order;
* `GetData f`: the stream returned with `S_OK` for the format `f`, `none` otherwise;
* `Stat s`: the size of the stream `s`, `none` when the call does not return `S_OK`;
* `Seek s position`: whether the call succeeds;
* `Read s position cb`: the bytes read when `cb` are requested (at most `cb` of them are
  used);
* `GetData_hGlobal f`: whether `IDataObject_GetData` succeeds for a format `f` whose
  medium is a global memory handle; `GlobalLock`: the `DROPFILES` block that locking that
  handle gives, `none` for NULL. -/
structure Ole where
  OleGetClipboard : Bool
  EnumFormatEtc : Option (List Nat)
  GetData : FORMATETC → Option Nat
  Stat : Nat → Option Nat
  Seek : Nat → Nat → Bool
  Read : Nat → Nat → Nat → List Nat
  GetData_hGlobal : FORMATETC → Bool := fun _ => false
  GlobalLock : Option DROPFILES := none

/-- The static variables `pStreamStc` and `uStreamIdStc` of
`wf_cliprdr_server_file_contents_request`. -/
structure StreamCache where
  pStreamStc : Option Nat
  uStreamIdStc : Nat
deriving DecidableEq, Repr

/-- The four bytes of a 32-bit value, little endian. -/
def bytes32 (value : Nat) : List Nat :=
  [value % 256, value / 256 % 256, value / 65536 % 256, value / 16777216 % 256]

/-- The function `wf_cliprdr_get_file_contents`: the bytes read (`*puSize` is their
number), `none` when the function returns `FALSE`. -/
def wf_cliprdr_get_file_contents (fs : FileSystem) (file_name : Option String)
    (positionLow positionHigh nRequested : Nat) : Option (List Nat) :=
  match file_name with
  | none => none
  | some name =>
    if !fs.CreateFileW name then none
    else
      let res : Option (List Nat) :=
        if !fs.SetFilePointer name positionLow positionHigh then none
        else
          match fs.ReadFile name positionLow positionHigh nRequested with
          | none => none
          | some bytes => some (bytes.take nRequested)
      if !fs.CloseHandle name then none else res

/-- The function `cliprdr_send_response_filecontents`: the PDU sent, with `size` bytes of
`data` (`none` for a NULL buffer), and the status of the send; a size beyond the buffer is
a fault. -/
def cliprdr_send_response_filecontents (ch : Channel) (streamId size : Nat)
    (data : Option (List Nat)) : Ran Nat :=
  if size ≤ (data.getD []).length then
    let fileContentsResponse : CLIPRDR_FILE_CONTENTS_RESPONSE :=
      { msgFlags := CB_RESPONSE_OK, streamId := streamId,
        requestedData := (data.getD []).take size }
    { sent := [ClientPdu.FileContentsResponse fileContentsResponse],
      result := Outcome.done (ch.ClientFileContentsResponse fileContentsResponse) }
  else { sent := [], result := Outcome.fault }

/-- What the body of `wf_cliprdr_server_file_contents_request` has when it reaches the
label `error`: the status `rc`, the size `uSize`, the buffer `pData`, the static
variables. -/
structure AtError where
  rc : Nat
  uSize : Nat
  pData : Option (List Nat)
  cache : StreamCache
deriving DecidableEq, Repr

/-- The part of `wf_cliprdr_server_file_contents_request` before the label `error`;
`none` is a fault (a descriptor outside the block or NULL is read). -/
def wf_cliprdr_server_file_contents_request_body (env : Platform) (fs : FileSystem) (ole : Ole)
    (clipboard : wfClipboard) (cache : StreamCache)
    (fileContentsRequest : CLIPRDR_FILE_CONTENTS_REQUEST) : Option AtError :=
  let cbRequested :=
    if fileContentsRequest.dwFlags = FILECONTENTS_SIZE then 8 else fileContentsRequest.cbRequested
  if !env.calloc cbRequested then
    some { rc := ERROR_INTERNAL_ERROR, uSize := 0, pData := none, cache := cache }
  else
    let pData : List Nat := List.replicate cbRequested 0
    if !ole.OleGetClipboard then
      some { rc := ERROR_INTERNAL_ERROR, uSize := 0, pData := some pData, cache := cache }
    else
      let vFormatEtc : FORMATETC :=
        { cfFormat := env.RegisterClipboardFormatW CFSTR_FILECONTENTS, tymed := TYMED_ISTREAM,
          dwAspect := 1,
          lindex :=
            if fileContentsRequest.listIndex < 2 ^ 31 then (fileContentsRequest.listIndex : Int)
            else (fileContentsRequest.listIndex : Int) - 2 ^ 32 }
      let looked : Bool × StreamCache :=
        if cache.uStreamIdStc ≠ fileContentsRequest.streamId ∨ cache.pStreamStc = none then
          let released : StreamCache := { cache with pStreamStc := none }
          match ole.EnumFormatEtc with
          | none => (false, released)
          | some formats =>
            if formats.any (fun cfFormat =>
                cfFormat == env.RegisterClipboardFormatW CFSTR_FILECONTENTS) then
              match ole.GetData vFormatEtc with
              | none => (false, released)
              | some pstm =>
                (true, { pStreamStc := some pstm,
                         uStreamIdStc := fileContentsRequest.streamId })
            else (false, released)
        else (true, cache)
      let position := fileContentsRequest.nPositionHigh * 2 ^ 32 + fileContentsRequest.nPositionLow
      match looked with
      | (true, current) =>
        match current.pStreamStc with
        | none => none
        | some pStreamStc =>
          if fileContentsRequest.dwFlags = FILECONTENTS_SIZE then
            match ole.Stat pStreamStc with
            | none =>
              some { rc := CHANNEL_RC_OK, uSize := 0, pData := some pData, cache := current }
            | some cbSize =>
              some { rc := CHANNEL_RC_OK, uSize := cbRequested,
                     pData := some (bytes32 (cbSize % 2 ^ 32) ++
                       bytes32 (cbSize / 2 ^ 32 % 2 ^ 32)),
                     cache := current }
          else if fileContentsRequest.dwFlags = FILECONTENTS_RANGE then
            if ole.Seek pStreamStc position then
              let bytes := (ole.Read pStreamStc position cbRequested).take cbRequested
              some { rc := CHANNEL_RC_OK, uSize := bytes.length,
                     pData := some (bytes ++ pData.drop bytes.length), cache := current }
            else some { rc := CHANNEL_RC_OK, uSize := 0, pData := some pData, cache := current }
          else some { rc := CHANNEL_RC_OK, uSize := 0, pData := some pData, cache := current }
      | (false, current) =>
        if fileContentsRequest.dwFlags = FILECONTENTS_SIZE then
          if clipboard.nFiles ≤ fileContentsRequest.listIndex then
            some { rc := ERROR_INTERNAL_ERROR, uSize := 0, pData := some pData, cache := current }
          else
            match clipboard.fileDescriptor[fileContentsRequest.listIndex]? with
            | none => none
            | some none => none
            | some (some descriptor) =>
              some { rc := CHANNEL_RC_OK, uSize := cbRequested,
                     pData := some (bytes32 descriptor.nFileSizeLow ++
                       bytes32 descriptor.nFileSizeHigh),
                     cache := current }
        else if fileContentsRequest.dwFlags = FILECONTENTS_RANGE then
          if clipboard.nFiles ≤ fileContentsRequest.listIndex then
            some { rc := ERROR_INTERNAL_ERROR, uSize := 0, pData := some pData, cache := current }
          else
            match clipboard.file_names[fileContentsRequest.listIndex]? with
            | none => none
            | some file_name =>
              match wf_cliprdr_get_file_contents fs file_name fileContentsRequest.nPositionLow
                  fileContentsRequest.nPositionHigh cbRequested with
              | none =>
                some { rc := ERROR_INTERNAL_ERROR, uSize := 0, pData := some pData,
                       cache := current }
              | some bytes =>
                some { rc := CHANNEL_RC_OK, uSize := bytes.length,
                       pData := some (bytes ++ pData.drop bytes.length), cache := current }
        else some { rc := CHANNEL_RC_OK, uSize := 0, pData := some pData, cache := current }

/-- The function `wf_cliprdr_server_file_contents_request`: the response sent, the status
returned and the static variables afterwards. Every path ends at the label `error`,
where the buffer is dropped when `uSize` is 0 and the response is sent. -/
def wf_cliprdr_server_file_contents_request (env : Platform) (fs : FileSystem) (ole : Ole)
    (ch : Channel) (clipboard : wfClipboard) (cache : StreamCache)
    (fileContentsRequest : CLIPRDR_FILE_CONTENTS_REQUEST) : Ran (Nat × StreamCache) :=
  match wf_cliprdr_server_file_contents_request_body env fs ole clipboard cache
      fileContentsRequest with
  | none => { sent := [], result := Outcome.fault }
  | some atError =>
    let pData := if atError.uSize = 0 then none else atError.pData
    let response :=
      cliprdr_send_response_filecontents ch fileContentsRequest.streamId atError.uSize pData
    { sent := response.sent,
      result :=
        match response.result with
        | Outcome.done sRc =>
          Outcome.done (if sRc ≠ CHANNEL_RC_OK then sRc else atError.rc, atError.cache)
        | Outcome.blocked => Outcome.blocked
        | Outcome.fault => Outcome.fault }

/-- An OLE clipboard whose data object offers a file selection (`CF_HDROP`) and no file
contents stream. -/
def file_selection_ole : Ole :=
  { OleGetClipboard := true,
    EnumFormatEtc := some [CF_HDROP],
    GetData := fun _ => none,
    Stat := fun _ => none,
    Seek := fun _ _ => false,
    Read := fun _ _ _ => [] }

/-- A file system on which no file can be opened and every allocation succeeds. -/
def locked_file_system : FileSystem :=
  { CreateFileW := fun _ => false,
    CloseHandle := fun _ => true,
    GetFileAttributes := fun _ => 0,
    GetFileSize := fun _ => (0, 0),
    GetFileTime := fun _ => none,
    SetFilePointer := fun _ _ _ => true,
    ReadFile := fun _ _ _ _ => none,
    FindFirstFile := fun _ => none,
    malloc_name := fun _ => true,
    calloc_descriptor := fun _ => true,
    realloc_descriptors := fun _ => true,
    realloc_names := fun _ => true,
    heap_name := fun _ => none,
    heap_descriptor := fun _ => none }

/-- A bridge that has harvested the one file `C:\data\a.txt` of 10 bytes. -/
def one_file_clipboard : wfClipboard :=
  { wf_cliprdr_init with
    nFiles := 1,
    file_array_size := 2,
    file_names := [some "C:\\data\\a.txt", none],
    fileDescriptor :=
      [some { dwFlags := FD_ATTRIBUTES + FD_FILESIZE + FD_WRITESTIME + FD_PROGRESSUI,
              dwFileAttributes := 0x20, ftLastWriteTime := 0, nFileSizeHigh := 0,
              nFileSizeLow := 10, cFileName := "a.txt" },
       none] }

/-- A platform on which `calloc` fails and everything else succeeds. -/
def calloc_failing_platform : Platform :=
  { sample_platform with calloc := fun _ => false }

/-- A size request of the peer for list index `listIndex` on stream `7`. -/
def size_request (listIndex : Nat) : CLIPRDR_FILE_CONTENTS_REQUEST :=
  { streamId := 7, listIndex := listIndex, dwFlags := FILECONTENTS_SIZE, nPositionLow := 0,
    nPositionHigh := 0, cbRequested := 8, clipDataId := 0, msgFlags := 0 }

/-- A range request of the peer for the first `cbRequested` bytes of list index
`listIndex` on stream `7`. -/
def range_request (listIndex cbRequested : Nat) : CLIPRDR_FILE_CONTENTS_REQUEST :=
  { streamId := 7, listIndex := listIndex, dwFlags := FILECONTENTS_RANGE, nPositionLow := 0,
    nPositionHigh := 0, cbRequested := cbRequested, clipDataId := 0, msgFlags := 0 }
/-! ## Harvesting the files of a drop list -/

/-- The WCHARs (UTF-16 code units) that hold a character: one for a character below
`0x10000`, a surrogate pair for any other character. -/
def wchars_of (c : Char) : List Nat :=
  if c.toNat < 0x10000 then [c.toNat]
  else [0xD800 + (c.toNat - 0x10000) / 0x400, 0xDC00 + (c.toNat - 0x10000) % 0x400]

/-- The WCHARs of a string, without the terminating 0. A `WCHAR` string of the source is
held as a `String`; the lengths, offsets and buffer sizes of the source count WCHARs, not
characters. -/
def wchars (s : String) : List Nat :=
  s.data.flatMap wchars_of

/-- The function `wcslen`: the number of WCHARs before the terminating 0. -/
def wcslen (s : String) : Nat :=
  (wchars s).length

/-- The characters that a sequence of WCHARs reads as. A surrogate pair is one character.
A surrogate without its partner is left where a cut goes through a pair; a `String`
cannot hold it, and it reads as `U+FFFD` here. -/
def chars_of_wchars : List Nat → List Char
  | [] => []
  | [u] => [if 0xD800 ≤ u ∧ u < 0xE000 then Char.ofNat 0xFFFD else Char.ofNat u]
  | u :: v :: rest =>
    if 0xD800 ≤ u ∧ u < 0xDC00 ∧ 0xDC00 ≤ v ∧ v < 0xE000 then
      Char.ofNat (0x10000 + (u - 0xD800) * 0x400 + (v - 0xDC00)) :: chars_of_wchars rest
    else
      (if 0xD800 ≤ u ∧ u < 0xE000 then Char.ofNat 0xFFFD else Char.ofNat u) ::
        chars_of_wchars (v :: rest)

/-- The string made of the first `n` WCHARs of `s`. -/
def wcs_take (s : String) (n : Nat) : String :=
  String.mk (chars_of_wchars ((wchars s).take n))

/-- The string at the address `s + n`: `s` without its first `n` WCHARs. -/
def wcs_from (s : String) (n : Nat) : String :=
  String.mk (chars_of_wchars ((wchars s).drop n))

/-- The function `StringCchCopy` into a buffer of `cchDest` WCHARs: the source,
truncated to `cchDest - 1` WCHARs when it does not fit. -/
def StringCchCopy (cchDest : Nat) (pszSrc : String) : String :=
  if wcslen pszSrc < cchDest then pszSrc else wcs_take pszSrc (cchDest - 1)

/-- The function `StringCchCat` on a buffer of `cchDest` WCHARs: the concatenation,
truncated to `cchDest - 1` WCHARs when it does not fit. -/
def StringCchCat (pszDest : String) (cchDest : Nat) (pszSrc : String) : String :=
  if wcslen (pszDest ++ pszSrc) < cchDest then pszDest ++ pszSrc
  else wcs_take (pszDest ++ pszSrc) (cchDest - 1)

/-- The descriptor that `wf_cliprdr_get_file_descriptor` fills for an opened file:
the flags without `FD_WRITESTIME` when the time cannot be read, the name without its
first `pathLen` WCHARs (`file_name + pathLen`). -/
def filled_descriptor (fs : FileSystem) (file_name : String) (pathLen : Nat) : FILEDESCRIPTORW :=
  { dwFlags :=
      match fs.GetFileTime file_name with
      | some _ => FD_ATTRIBUTES ||| FD_FILESIZE ||| FD_WRITESTIME ||| FD_PROGRESSUI
      | none =>
        (FD_ATTRIBUTES ||| FD_FILESIZE ||| FD_WRITESTIME ||| FD_PROGRESSUI) &&&
          (2 ^ 32 - 1 - FD_WRITESTIME),
    dwFileAttributes := fs.GetFileAttributes file_name,
    ftLastWriteTime := (fs.GetFileTime file_name).getD 0,
    nFileSizeHigh := (fs.GetFileSize file_name).2,
    nFileSizeLow := (fs.GetFileSize file_name).1,
    cFileName := wcs_from file_name pathLen }

/-- The function `wf_cliprdr_get_file_descriptor`: `none` for a NULL result (the
descriptor cannot be allocated or the file cannot be opened). Reading the name behind
its end, or a name that does not fit the `MAX_PATH` WCHARs of `cFileName` (`wcscpy_s`
calls the invalid parameter handler), is a fault. -/
def wf_cliprdr_get_file_descriptor (fs : FileSystem) (file_name : String) (pathLen : Nat) :
    Outcome (Option FILEDESCRIPTORW) :=
  if !fs.calloc_descriptor file_name then Outcome.done none
  else if !fs.CreateFileW file_name then Outcome.done none
  else if wcslen file_name < pathLen then Outcome.fault
  else if MAX_PATH ≤ wcslen file_name - pathLen then Outcome.fault
  else Outcome.done (some (filled_descriptor fs file_name pathLen))

/-- A block grown to `new_size` elements: the old elements, then what the heap holds. -/
def grown {α : Type} (block : List α) (new_size : Nat) (heap : Nat → α) : List α :=
  block.take new_size ++
    (List.range (new_size - block.length)).map (fun k => heap (block.length + k))

/-- The function `wf_cliprdr_array_ensure_capacity`: when `nFiles == file_array_size`
both blocks are grown to `(file_array_size + 1) * 2` elements; a block whose `realloc`
succeeds is replaced even when the other fails. -/
def wf_cliprdr_array_ensure_capacity (fs : FileSystem) (clipboard : wfClipboard) :
    Bool × wfClipboard :=
  if clipboard.nFiles = clipboard.file_array_size then
    let new_size := (clipboard.file_array_size + 1) * 2
    let new_fd := fs.realloc_descriptors new_size
    let new_name := fs.realloc_names new_size
    let replaced : wfClipboard :=
      { clipboard with
        fileDescriptor :=
          if new_fd then grown clipboard.fileDescriptor new_size fs.heap_descriptor
          else clipboard.fileDescriptor,
        file_names :=
          if new_name then grown clipboard.file_names new_size fs.heap_name
          else clipboard.file_names }
    if !new_fd || !new_name then (false, replaced)
    else (true, { replaced with file_array_size := new_size })
  else (true, clipboard)

/-- The function `wf_cliprdr_add_to_file_arrays`: whether the record was added, and the
bridge. A write at `nFiles` outside a block is a fault, and so is a name that does not
fit the buffer of `MAX_PATH` WCHARs (`wcscpy_s` calls the invalid parameter handler).
The name freed after a failed descriptor leaves its pointer in the block. -/
def wf_cliprdr_add_to_file_arrays (fs : FileSystem) (clipboard : wfClipboard)
    (full_file_name : String) (pathLen : Nat) : Outcome (Bool × wfClipboard) :=
  match wf_cliprdr_array_ensure_capacity fs clipboard with
  | (false, ensured) => Outcome.done (false, ensured)
  | (true, ensured) =>
    if ensured.file_names.length ≤ ensured.nFiles then Outcome.fault
    else if !fs.malloc_name full_file_name then
      Outcome.done (false,
        { ensured with file_names := ensured.file_names.set ensured.nFiles none })
    else if MAX_PATH ≤ wcslen full_file_name then Outcome.fault
    else
      let named : wfClipboard :=
        { ensured with
          file_names := ensured.file_names.set ensured.nFiles (some full_file_name) }
      if named.fileDescriptor.length ≤ named.nFiles then Outcome.fault
      else
        match wf_cliprdr_get_file_descriptor fs full_file_name pathLen with
        | Outcome.fault => Outcome.fault
        | Outcome.blocked => Outcome.blocked
        | Outcome.done none =>
          Outcome.done (false,
            { named with fileDescriptor := named.fileDescriptor.set named.nFiles none })
        | Outcome.done (some fd) =>
          Outcome.done (true,
            { named with
              fileDescriptor := named.fileDescriptor.set named.nFiles (some fd),
              nFiles := named.nFiles + 1 })

/-- The loop `while (FindNextFile (hFind, &FindFileData))` of
`wf_cliprdr_traverse_directory` over the entries that `FindNextFile` returns; `recurse`
is the recursive call. -/
def traverse_loop (fs : FileSystem)
    (recurse : wfClipboard → String → Nat → Outcome (Bool × wfClipboard))
    (Dir : String) (pathLen : Nat) :
    List WIN32_FIND_DATA → wfClipboard → Outcome (Bool × wfClipboard)
  | [], clipboard => Outcome.done (true, clipboard)
  | FindFileData :: rest, clipboard =>
    if (FindFileData.dwFileAttributes &&& FILE_ATTRIBUTE_DIRECTORY ≠ 0 ∧
          FindFileData.cFileName = ".") ∨ FindFileData.cFileName = ".." then
      traverse_loop fs recurse Dir pathLen rest clipboard
    else
      let added := StringCchCat (StringCchCat (StringCchCopy MAX_PATH Dir) MAX_PATH "\\")
        MAX_PATH FindFileData.cFileName
      match wf_cliprdr_add_to_file_arrays fs clipboard added pathLen with
      | Outcome.fault => Outcome.fault
      | Outcome.blocked => Outcome.blocked
      | Outcome.done (false, failed) => Outcome.done (false, failed)
      | Outcome.done (true, extended) =>
        if FindFileData.dwFileAttributes &&& FILE_ATTRIBUTE_DIRECTORY ≠ 0 then
          match recurse extended added pathLen with
          | Outcome.done (true, below) => traverse_loop fs recurse Dir pathLen rest below
          | other => other
        else traverse_loop fs recurse Dir pathLen rest extended

/-- The function `wf_cliprdr_traverse_directory`. The entry that `FindFirstFile` returns
is not looked at: the loop starts with `FindNextFile`. The recursion of the source is
bounded by the stack only: `stack` is the number of calls that still fit, a deeper call
is a fault. -/
def wf_cliprdr_traverse_directory (fs : FileSystem) :
    Nat → wfClipboard → String → Nat → Outcome (Bool × wfClipboard)
  | 0, _, _, _ => Outcome.fault
  | stack + 1, clipboard, Dir, pathLen =>
    match fs.FindFirstFile (StringCchCat (StringCchCopy MAX_PATH Dir) MAX_PATH "\\*") with
    | none => Outcome.done (false, clipboard)
    | some (_, entries) =>
      traverse_loop fs (wf_cliprdr_traverse_directory fs stack) Dir pathLen entries clipboard

/-- The loop of `wf_cliprdr_process_filename` that looks for the last backslash (the
WCHAR `0x5C`) among the WCHARs of the name: the offset it ends with. The WCHAR at the
index of the length is the terminating 0. -/
def last_backslash (wFileName : List Nat) : Nat → Nat
  | 0 => 0
  | offset + 1 =>
    if wFileName[offset + 1]? = some 0x5C then offset + 1
    else last_backslash wFileName offset

/-- The function `wf_cliprdr_process_filename` for a name of `str_len` WCHARs: a record
for the name itself, then the traversal when the descriptor of that record has
`FILE_ATTRIBUTE_DIRECTORY`. -/
def wf_cliprdr_process_filename (fs : FileSystem) (stack : Nat) (clipboard : wfClipboard)
    (wFileName : String) (str_len : Nat) : Outcome (Bool × wfClipboard) :=
  if wcslen wFileName < str_len then Outcome.fault
  else
    let pathLen := last_backslash (wchars wFileName) str_len + 1
    match wf_cliprdr_add_to_file_arrays fs clipboard wFileName pathLen with
    | Outcome.fault => Outcome.fault
    | Outcome.blocked => Outcome.blocked
    | Outcome.done (false, failed) => Outcome.done (false, failed)
    | Outcome.done (true, added) =>
      match added.fileDescriptor[added.nFiles - 1]? with
      | none => Outcome.fault
      | some none => Outcome.fault
      | some (some descriptor) =>
        if descriptor.dwFileAttributes &&& FILE_ATTRIBUTE_DIRECTORY ≠ 0 then
          match wf_cliprdr_traverse_directory fs stack added wFileName pathLen with
          | Outcome.done (false, failed) => Outcome.done (false, failed)
          | Outcome.done (true, below) => Outcome.done (true, below)
          | Outcome.blocked => Outcome.blocked
          | Outcome.fault => Outcome.fault
        else Outcome.done (true, added)

/-- The names of the records harvested so far: the first `nFiles` elements of
`file_names`. -/
def harvested_names (clipboard : wfClipboard) : List (Option String) :=
  clipboard.file_names.take clipboard.nFiles

/-- The descriptors of the records harvested so far: the first `nFiles` elements of
`fileDescriptor`. -/
def harvested_descriptors (clipboard : wfClipboard) : List (Option FILEDESCRIPTORW) :=
  clipboard.fileDescriptor.take clipboard.nFiles

/-- Every entry the enumeration of the directory `Dir` returns: the one of
`FindFirstFile` and those of `FindNextFile`. -/
def enumerated (fs : FileSystem) (Dir : String) : List WIN32_FIND_DATA :=
  match fs.FindFirstFile (Dir ++ "\\*") with
  | none => []
  | some (first, rest) => first :: rest

/-- Whether an entry is named `.` or `..`. -/
def named_dot (entry : WIN32_FIND_DATA) : Bool :=
  entry.cFileName == "." || entry.cFileName == ".."

/-- The paths the specification gives for one entry of the directory `Dir`: the path of
the entry, followed, for a sub-directory, by the paths `below` it. -/
def entry_paths_spec (below : String → List String) (Dir : String) (entry : WIN32_FIND_DATA) :
    List String :=
  (Dir ++ "\\" ++ entry.cFileName) ::
    (if entry.dwFileAttributes &&& FILE_ATTRIBUTE_DIRECTORY ≠ 0 then
      below (Dir ++ "\\" ++ entry.cFileName)
    else [])

/-- The paths below the directory `Dir` in the order the specification gives, down to
`depth` levels: every enumerated entry other than `.` and `..` in enumeration order,
each sub-directory followed by the paths below it. -/
def harvest_children_spec (fs : FileSystem) : Nat → String → List String
  | 0, _ => []
  | depth + 1, Dir =>
    ((enumerated fs Dir).filter (fun entry => !named_dot entry)).flatMap
      (entry_paths_spec (harvest_children_spec fs depth) Dir)

/-- The paths harvested for the input path `P` in the order the specification gives:
`P` itself, then, if `P` is a directory, the paths below it. -/
def harvest_spec (fs : FileSystem) (depth : Nat) (P : String) : List String :=
  P :: (if fs.GetFileAttributes P &&& FILE_ATTRIBUTE_DIRECTORY ≠ 0 then
          harvest_children_spec fs depth P
        else [])

/-- Whether the entry at `path` can be described: its path fits a buffer of `MAX_PATH`
WCHARs, its name buffer and its descriptor can be allocated, and it can be opened. -/
def describable (fs : FileSystem) (path : String) : Bool :=
  decide (wcslen path < MAX_PATH) && fs.malloc_name path && fs.calloc_descriptor path &&
    fs.CreateFileW path

/-- Whether an entry of the directory `Dir` can be harvested: an entry named `.` is a
directory, an entry other than `.` and `..` can be described and, if it is a directory,
can be harvested `below`. -/
def entry_harvestable (fs : FileSystem) (below : String → Bool) (Dir : String)
    (entry : WIN32_FIND_DATA) : Bool :=
  if entry.cFileName = ".." then true
  else if entry.cFileName = "." then
    decide (entry.dwFileAttributes &&& FILE_ATTRIBUTE_DIRECTORY ≠ 0)
  else
    describable fs (Dir ++ "\\" ++ entry.cFileName) &&
    (if entry.dwFileAttributes &&& FILE_ATTRIBUTE_DIRECTORY ≠ 0 then
      below (Dir ++ "\\" ++ entry.cFileName)
    else true)

/-- Whether the directory `Dir` can be harvested within `depth` levels: it can be
enumerated, the enumeration starts with the directory entry `.`, and every entry that
follows can be harvested, the sub-directories within one level less. -/
def harvestable (fs : FileSystem) : Nat → String → Bool
  | 0, _ => false
  | depth + 1, Dir =>
    decide (wcslen (Dir ++ "\\*") < MAX_PATH) &&
    match fs.FindFirstFile (Dir ++ "\\*") with
    | none => false
    | some (first, rest) =>
      first.cFileName == "." &&
      decide (first.dwFileAttributes &&& FILE_ATTRIBUTE_DIRECTORY ≠ 0) &&
      rest.all (entry_harvestable fs (harvestable fs depth) Dir)

/-- The file arrays are two blocks of `file_array_size` elements that hold `nFiles`
records. -/
def arrays_allocated (clipboard : wfClipboard) : Prop :=
  clipboard.file_names.length = clipboard.file_array_size ∧
  clipboard.fileDescriptor.length = clipboard.file_array_size ∧
  clipboard.nFiles ≤ clipboard.file_array_size

/-- The find data of a directory entry named `cFileName`. -/
def directory_entry (cFileName : String) : WIN32_FIND_DATA :=
  { dwFileAttributes := FILE_ATTRIBUTE_DIRECTORY, cFileName := cFileName }

/-- The find data of a plain file named `cFileName` (`FILE_ATTRIBUTE_ARCHIVE`). -/
def file_entry (cFileName : String) : WIN32_FIND_DATA :=
  { dwFileAttributes := 0x20, cFileName := cFileName }

/-- The file system of the example in the specification: the directory `C:\data\root`
holds `a.txt` (10 bytes) and `subdir`, which holds `b.txt` (0 bytes). Every file can be
opened and every allocation succeeds. -/
def example_file_system : FileSystem :=
  { CreateFileW := fun _ => true,
    CloseHandle := fun _ => true,
    GetFileAttributes := fun p =>
      if p = "C:\\data\\root" ∨ p = "C:\\data\\root\\subdir" then FILE_ATTRIBUTE_DIRECTORY
      else 0x20,
    GetFileSize := fun p => if p = "C:\\data\\root\\a.txt" then (10, 0) else (0, 0),
    GetFileTime := fun _ => some 0x01D9000000000000,
    SetFilePointer := fun _ _ _ => true,
    ReadFile := fun p _ _ n =>
      if p = "C:\\data\\root\\a.txt" then some (sample_content.take n) else some [],
    FindFirstFile := fun spec =>
      if spec = "C:\\data\\root\\*" then
        some (directory_entry ".",
          [directory_entry "..", file_entry "a.txt", directory_entry "subdir"])
      else if spec = "C:\\data\\root\\subdir\\*" then
        some (directory_entry ".", [directory_entry "..", file_entry "b.txt"])
      else none,
    malloc_name := fun _ => true,
    calloc_descriptor := fun _ => true,
    realloc_descriptors := fun _ => true,
    realloc_names := fun _ => true,
    heap_name := fun _ => none,
    heap_descriptor := fun _ => none }

/-- The file system of the example, on which `a.txt` is held open by another process and
cannot be opened. -/
def locked_child_file_system : FileSystem :=
  { example_file_system with
    CreateFileW := fun p => decide (p ≠ "C:\\data\\root\\a.txt") }

/-- A volume `D:\` whose enumeration has no entries `.` and `..`: it returns `a.txt` and
then `b.txt`. -/
def volume_file_system : FileSystem :=
  { example_file_system with
    GetFileAttributes := fun p => if p = "D:\\" then FILE_ATTRIBUTE_DIRECTORY else 0x20,
    GetFileSize := fun _ => (0, 0),
    FindFirstFile := fun spec =>
      if spec = "D:\\\\*" then some (file_entry "a.txt", [file_entry "b.txt"]) else none }

/-- What a harvest leaves: whether it returned `TRUE`, and the names and descriptors of
the records in the arrays; `none` when it does not return. -/
def harvested (outcome : Outcome (Bool × wfClipboard)) :
    Option (Bool × List (Option String) × List (Option FILEDESCRIPTORW)) :=
  match outcome with
  | Outcome.done (res, clipboard) =>
    some (res, harvested_names clipboard, harvested_descriptors clipboard)
  | Outcome.blocked => none
  | Outcome.fault => none

/-! ## Synchronization and the clipboard window -/

/-- Capability set type `CB_CAPSTYPE_GENERAL`. -/
def CB_CAPSTYPE_GENERAL : Nat := 0x0001

/-- Capability version `CB_CAPS_VERSION_2`. -/
def CB_CAPS_VERSION_2 : Nat := 0x00000002

/-- General capability flag `CB_USE_LONG_FORMAT_NAMES`. -/
def CB_USE_LONG_FORMAT_NAMES : Nat := 0x00000002

/-- General capability flag `CB_STREAM_FILECLIP_ENABLED`. -/
def CB_STREAM_FILECLIP_ENABLED : Nat := 0x00000004

/-- General capability flag `CB_FILECLIP_NO_FILE_PATHS`. -/
def CB_FILECLIP_NO_FILE_PATHS : Nat := 0x00000008

/-- The function `cliprdr_send_tempdir`: the value of `TEMP` is sent when it can be read;
otherwise nothing is sent and the function returns `-1` (as a `UINT`). -/
def cliprdr_send_tempdir (env : Platform) (ch : Channel) : Ran Nat :=
  match env.GetEnvironmentVariableA "TEMP" with
  | none => { sent := [], result := Outcome.done (2 ^ 32 - 1) }
  | some szTempDir =>
    let tempDirectory : CLIPRDR_TEMP_DIRECTORY := { szTempDir := szTempDir }
    { sent := [ClientPdu.TempDirectory tempDirectory],
      result := Outcome.done (ch.TempDirectory tempDirectory) }

/-- The function `wf_cliprdr_send_client_capabilities`: one general capability set. -/
def wf_cliprdr_send_client_capabilities (ch : Channel) : Ran Nat :=
  let generalCapabilitySet : CLIPRDR_GENERAL_CAPABILITY_SET :=
    { capabilitySetType := CB_CAPSTYPE_GENERAL,
      capabilitySetLength := 12,
      version := CB_CAPS_VERSION_2,
      generalFlags :=
        CB_USE_LONG_FORMAT_NAMES ||| CB_STREAM_FILECLIP_ENABLED ||| CB_FILECLIP_NO_FILE_PATHS }
  let capabilities : CLIPRDR_CAPABILITIES := { capabilitySets := [generalCapabilitySet] }
  { sent := [ClientPdu.Capabilities capabilities],
    result := Outcome.done (ch.ClientCapabilities capabilities) }

/-- The function `wf_cliprdr_monitor_ready`: the PDUs sent, the status returned and the
bridge afterwards. -/
def wf_cliprdr_monitor_ready (env : Platform) (ch : Channel) (clipboard : wfClipboard) :
    Ran (Nat × wfClipboard) :=
  let synced := { clipboard with sync := true }
  let capabilities := wf_cliprdr_send_client_capabilities ch
  match capabilities.result with
  | Outcome.blocked => { sent := capabilities.sent, result := Outcome.blocked }
  | Outcome.fault => { sent := capabilities.sent, result := Outcome.fault }
  | Outcome.done rc =>
    if rc ≠ CHANNEL_RC_OK then { sent := capabilities.sent, result := Outcome.done (rc, synced) }
    else
      let formatList := cliprdr_send_format_list env ch
      { sent := capabilities.sent ++ formatList.sent,
        result :=
          match formatList.result with
          | Outcome.done status => Outcome.done (status, synced)
          | Outcome.blocked => Outcome.blocked
          | Outcome.fault => Outcome.fault }

/-- The part of `cliprdr_proc` that the cases `WM_CLIPBOARDUPDATE` and `WM_DRAWCLIPBOARD`
share: when the clipboard is not owned by the bridge and the data object of the bridge is
not the current one, the local format list is sent; `drop_hmem` tells whether `hmem` is
freed first. -/
def announce_local_change (env : Platform) (ch : Channel) (clipboard : wfClipboard)
    (drop_hmem : Bool) : Ran wfClipboard :=
  if !env.clipboard_owned ∧ env.OleIsCurrentClipboard = S_FALSE then
    let freed := if drop_hmem then { clipboard with hmem := none } else clipboard
    let formatList := cliprdr_send_format_list env ch
    { sent := formatList.sent,
      result :=
        match formatList.result with
        | Outcome.done _ => Outcome.done freed
        | Outcome.blocked => Outcome.blocked
        | Outcome.fault => Outcome.fault }
  else { sent := [], result := Outcome.done clipboard }

/-- The case `WM_CLIPBOARDUPDATE` of `cliprdr_proc`: nothing happens before the bridge is
synchronized. -/
def cliprdr_proc_WM_CLIPBOARDUPDATE (env : Platform) (ch : Channel) (clipboard : wfClipboard) :
    Ran wfClipboard :=
  if clipboard.sync then announce_local_change env ch clipboard true
  else { sent := [], result := Outcome.done clipboard }

/-- The case `WM_DRAWCLIPBOARD` of `cliprdr_proc`: with the legacy API the local format
list is sent, then the message is passed to the next viewer (not represented). The field
`sync` is not read. -/
def cliprdr_proc_WM_DRAWCLIPBOARD (env : Platform) (ch : Channel) (clipboard : wfClipboard) :
    Ran wfClipboard :=
  if clipboard.legacyApi then announce_local_change env ch clipboard false
  else { sent := [], result := Outcome.done clipboard }

/-- A platform whose local clipboard holds the formats of `fs` and on which `TEMP` can be
read. -/
def platform_with_temp (fs : List Nat) : Platform :=
  { clipboard_holding fs with
    GetEnvironmentVariableA := fun name => if name = "TEMP" then some "C:\\Temp" else none }

/-- The capabilities PDU of the bridge. -/
def client_capabilities : CLIPRDR_CAPABILITIES :=
  { capabilitySets :=
      [{ capabilitySetType := CB_CAPSTYPE_GENERAL, capabilitySetLength := 12,
         version := CB_CAPS_VERSION_2,
         generalFlags :=
           CB_USE_LONG_FORMAT_NAMES ||| CB_STREAM_FILECLIP_ENABLED |||
             CB_FILECLIP_NO_FILE_PATHS }] }

/-- A channel on which sending the capabilities fails with `ERROR_INTERNAL_ERROR`. -/
def capabilities_failing_channel : Channel :=
  { sample_channel [] with ClientCapabilities := fun _ => ERROR_INTERNAL_ERROR }

/-- A bridge of the legacy API that is not synchronized. -/
def legacy_clipboard : wfClipboard :=
  { wf_cliprdr_init with legacyApi := true }

/-- A peer that answers every request with the eight bytes 1 to 8, whatever length was
requested. -/
def overlong_channel : Channel :=
  { sample_channel [] with
    peer := fun request =>
      some { msgFlags := CB_RESPONSE_OK, streamId := request.streamId,
             requestedData := [1, 2, 3, 4, 5, 6, 7, 8] } }

/-- Twenty bytes of a file that has grown since its descriptor was made. -/
def grown_content : List Nat :=
  [10, 11, 12, 13, 14, 15, 16, 17, 18, 19, 20, 21, 22, 23, 24, 25, 26, 27, 28, 29]

/-- A remote format list in which the remote id of the descriptor list format (`0xC00A`)
is the id under which the local system registers the name `CustomText`. -/
def colliding_list : CLIPRDR_FORMAT_LIST :=
  { formats := [{ formatId := 0xC00A, formatName := some "FileGroupDescriptorW" },
                { formatId := 0xC0A1, formatName := some "CustomText" }] }

/-- The registry that `wf_cliprdr_server_format_list` builds from `colliding_list`. -/
def colliding_registry : wfClipboard :=
  { wf_cliprdr_init with
    map_size := 2,
    format_mappings :=
      [{ remote_format_id := 0xC00A, local_format_id := 0xC014,
         name := some "FileGroupDescriptorW" },
       { remote_format_id := 0xC0A1, local_format_id := 0xC00A, name := some "CustomText" }] ++
        List.replicate 30 formatMapping.zero }

/-- The request for the descriptor list, as a consumer of the data object makes it. -/
def file_descriptor_FORMATETC (env : Platform) : FORMATETC :=
  { cfFormat := env.RegisterClipboardFormatW CFSTR_FILEDESCRIPTORW,
    dwAspect := DVASPECT_CONTENT, lindex := -1, tymed := TYMED_HGLOBAL }

/-- A remote format list of 40 unnamed formats with the ids 1 to 40: more than the initial
capacity of the registry. -/
def long_list : CLIPRDR_FORMAT_LIST :=
  { formats := (List.range 40).map (fun i => { formatId := i + 1, formatName := none }) }

/-- What a call returned, `none` when it did not return. -/
def Outcome.returned {α : Type} : Outcome α → Option α
  | Outcome.done a => some a
  | Outcome.blocked => none
  | Outcome.fault => none

/-- A consumer that calls `CliprdrDataObject_GetData` once per request, each call with the
channel as it is at that moment and on the object and bridge the previous call left. -/
def get_data_all (env : Platform) :
    List (Channel × FORMATETC) → wfClipboard → CliprdrDataObject → Outcome (List GetDataResult)
  | [], _, _ => Outcome.done []
  | (ch, pFormatEtc) :: rest, clipboard, This =>
    match (CliprdrDataObject_GetData env ch clipboard This pFormatEtc).result with
    | Outcome.blocked => Outcome.blocked
    | Outcome.fault => Outcome.fault
    | Outcome.done r =>
      match get_data_all env rest r.clipboard r.This with
      | Outcome.done rs => Outcome.done (r :: rs)
      | Outcome.blocked => Outcome.blocked
      | Outcome.fault => Outcome.fault

/-- The 592 bytes of a `FILEDESCRIPTORW` with the given flags, attributes and size, and
an empty name. -/
def descriptor_bytes (dwFlags dwFileAttributes nFileSizeHigh nFileSizeLow : Nat) : List Nat :=
  bytes32 dwFlags ++ List.replicate 32 0 ++ bytes32 dwFileAttributes ++ List.replicate 24 0 ++
    bytes32 nFileSizeHigh ++ bytes32 nFileSizeLow ++ List.replicate 520 0

/-- The bytes of a `FILEGROUPDESCRIPTORW` with `cItems` descriptors of files of one
byte. -/
def descriptor_list_bytes (cItems : Nat) : List Nat :=
  bytes32 cItems ++ (List.replicate cItems (descriptor_bytes FD_FILESIZE 0 0 1)).flatten

/-- A channel whose peer answers every format data request with a descriptor list of
`cItems` files. -/
def descriptor_channel (cItems : Nat) : Channel :=
  { sample_channel [] with
    data_peer := fun _ =>
      some { msgFlags := CB_RESPONSE_OK, requestedFormatData := descriptor_list_bytes cItems } }

/-- A channel whose peer answers with a descriptor list of two files and on which the
stream for list index 1 cannot be allocated. -/
def second_stream_failing_channel : Channel :=
  { descriptor_channel 2 with
    stream_alloc := fun i => if i = 1 then none else some (0x5000 + 0x100 * i) }

/-! ## The descriptor list of a drop list -/

/-- The all-zero descriptor of a block from `calloc`. -/
def FILEDESCRIPTORW.zero : FILEDESCRIPTORW :=
  { dwFlags := 0, dwFileAttributes := 0, ftLastWriteTime := 0, nFileSizeHigh := 0,
    nFileSizeLow := 0, cFileName := "" }

/-- A descriptor list block (`FILEGROUPDESCRIPTORW`): the count field and the
descriptors behind it. -/
structure FILEGROUPDESCRIPTORW where
  cItems : Nat
  fgd : List FILEDESCRIPTORW
deriving DecidableEq, Repr

/-- The function `clear_file_array`: the entries below `nFiles` of each block are freed,
then the blocks. A block that is not NULL and has fewer than `nFiles` elements is read
outside. -/
def clear_file_array (clipboard : wfClipboard) : Outcome wfClipboard :=
  if (clipboard.file_names ≠ [] ∧ clipboard.file_names.length < clipboard.nFiles) ∨
      (clipboard.fileDescriptor ≠ [] ∧ clipboard.fileDescriptor.length < clipboard.nFiles) then
    Outcome.fault
  else
    Outcome.done
      { clipboard with file_names := [], fileDescriptor := [], file_array_size := 0, nFiles := 0 }

/-- The loop of `wf_cliprdr_get_filedescriptor` over wide-character names; the result of
`wf_cliprdr_process_filename` is not looked at. -/
def wide_names_loop (fs : FileSystem) (stack : Nat) :
    List String → wfClipboard → Outcome wfClipboard
  | [], clipboard => Outcome.done clipboard
  | wFileName :: rest, clipboard =>
    match wf_cliprdr_process_filename fs stack clipboard wFileName (wcslen wFileName) with
    | Outcome.done (_, processed) => wide_names_loop fs stack rest processed
    | Outcome.blocked => Outcome.blocked
    | Outcome.fault => Outcome.fault

/-- The loop of `wf_cliprdr_get_filedescriptor` over single-byte names. The converted
name is held in a block of exactly `cchWideChar` WCHARs, without a terminating 0:
`wf_cliprdr_process_filename` and `wcscpy_s` read the WCHAR behind the block, and the
run ends there unless that WCHAR reads as 0. A block that cannot be allocated makes
`wf_cliprdr_process_filename` return at once. After each name the loop increments
`nFiles`, whatever `wf_cliprdr_process_filename` did. -/
def single_byte_names_loop (env : Platform) (fs : FileSystem) (stack : Nat) :
    List String → wfClipboard → Outcome wfClipboard
  | [], clipboard => Outcome.done clipboard
  | p :: rest, clipboard =>
    let wFileName := env.MultiByteToWideChar p
    let cchWideChar := wcslen wFileName
    if !env.calloc cchWideChar then
      single_byte_names_loop env fs stack rest { clipboard with nFiles := clipboard.nFiles + 1 }
    else if !env.terminated_behind then Outcome.fault
    else
      match wf_cliprdr_process_filename fs stack clipboard wFileName cchWideChar with
      | Outcome.done (_, processed) =>
        single_byte_names_loop env fs stack rest
          { processed with nFiles := processed.nFiles + 1 }
      | Outcome.blocked => Outcome.blocked
      | Outcome.fault => Outcome.fault

/-- The loop at the label `exit` of `wf_cliprdr_get_filedescriptor` that copies the
descriptors into the block: `n` iterations remain, `i` is the index; a NULL pointer
leaves the zero descriptor, an index outside `fileDescriptor` is a fault. -/
def copy_descriptors_loop (clipboard : wfClipboard) : Nat → Nat → Option (List FILEDESCRIPTORW)
  | 0, _ => some []
  | n + 1, i =>
    match clipboard.fileDescriptor[i]? with
    | none => none
    | some pointer =>
      (copy_descriptors_loop clipboard n (i + 1)).map
        (fun rest => pointer.getD FILEDESCRIPTORW.zero :: rest)

/-- The part of `wf_cliprdr_get_filedescriptor` at the label `exit`: the block of
`4 + nFiles * sizeof (FILEDESCRIPTORW)` bytes with the count `nFiles`, and its size;
`-1` and no block when it cannot be allocated. -/
def wf_cliprdr_get_filedescriptor_exit (env : Platform) (clipboard : wfClipboard) :
    Outcome (Int × Option FILEGROUPDESCRIPTORW × wfClipboard) :=
  let size := 4 + clipboard.nFiles * sizeof_FILEDESCRIPTORW
  if !env.calloc size then Outcome.done (-1, none, clipboard)
  else
    match copy_descriptors_loop clipboard clipboard.nFiles 0 with
    | none => Outcome.fault
    | some fgd =>
      Outcome.done ((size : Int), some { cItems := clipboard.nFiles % 2 ^ 32, fgd := fgd },
        clipboard)

/-- The function `wf_cliprdr_get_filedescriptor`: the value returned, the block stored
through `pData` (`none` for NULL) and the bridge afterwards. -/
def wf_cliprdr_get_filedescriptor (env : Platform) (fs : FileSystem) (ole : Ole) (stack : Nat)
    (clipboard : wfClipboard) : Outcome (Int × Option FILEGROUPDESCRIPTORW × wfClipboard) :=
  if !ole.OleGetClipboard then Outcome.done (-1, none, clipboard)
  else
    let format_etc : FORMATETC :=
      { cfFormat := CF_HDROP, tymed := TYMED_HGLOBAL, dwAspect := 1, lindex := -1 }
    if !ole.GetData_hGlobal format_etc then wf_cliprdr_get_filedescriptor_exit env clipboard
    else
      match ole.GlobalLock with
      | none => wf_cliprdr_get_filedescriptor_exit env { clipboard with nFiles := 0 }
      | some dropFiles =>
        match clear_file_array clipboard with
        | Outcome.blocked => Outcome.blocked
        | Outcome.fault => Outcome.fault
        | Outcome.done cleared =>
          let harvest :=
            if dropFiles.fWide then wide_names_loop fs stack dropFiles.names cleared
            else single_byte_names_loop env fs stack dropFiles.names cleared
          match harvest with
          | Outcome.blocked => Outcome.blocked
          | Outcome.fault => Outcome.fault
          | Outcome.done harvested => wf_cliprdr_get_filedescriptor_exit env harvested

/-- An OLE clipboard that holds the drop list `dropFiles`. -/
def drop_list_ole (dropFiles : DROPFILES) : Ole :=
  { file_selection_ole with
    GetData_hGlobal := fun format => decide (format.cfFormat = CF_HDROP),
    GlobalLock := some dropFiles }

/-- What a harvest of a drop list leaves, for comparison: the value returned, the count
field of the block, `nFiles`, `file_array_size`, and the names and descriptors in the
blocks of the bridge. -/
structure HarvestReport where
  rc : Int
  cItems : Option Nat
  nFiles : Nat
  file_array_size : Nat
  file_names : List (Option String)
  cFileNames : List (Option String)
deriving DecidableEq, Repr

/-- The report of a call of `wf_cliprdr_get_filedescriptor`, `none` when it did not
return. -/
def harvest_report (outcome : Outcome (Int × Option FILEGROUPDESCRIPTORW × wfClipboard)) :
    Option HarvestReport :=
  match outcome with
  | Outcome.done (rc, pData, clipboard) =>
    some { rc := rc, cItems := pData.map (fun block => block.cItems),
           nFiles := clipboard.nFiles, file_array_size := clipboard.file_array_size,
           file_names := clipboard.file_names,
           cFileNames := clipboard.fileDescriptor.map
             (fun pointer => pointer.map (fun descriptor => descriptor.cFileName)) }
  | Outcome.blocked => none
  | Outcome.fault => none

end WfCliprdr

/-! ## Serial port reads (`winpr/libwinpr/comm/comm_io.c`): the `VTIME` value of the
terminal, computed from the interval timeout -/

namespace CommIo

/-- The function `svtime`: `VTIME` in deciseconds from `Ti` in milliseconds; the result
is a `UCHAR`. -/
def svtime (Ti : Nat) : Nat :=
  if Ti = 0 then 0
  else if Ti < 100 then 1
  else if Ti > 25500 then 255
  else (Ti / 100) % 2 ^ 8

/-- The value the specification gives: 0 for 0, otherwise the whole deciseconds of `Ti`
clamped to the range from 1 to 255. -/
def vtime_spec (Ti : Nat) : Nat :=
  if Ti = 0 then 0 else max 1 (min 255 (Ti / 100))

end CommIo

namespace WfCliprdr

/-! ## Format registry: the loops -/

/-- The loop of `get_remote_format_id` over the entries `i .. i + n - 1` of a block that
holds them: it stops at the first entry with the local id, or falls through to the id. -/
theorem get_remote_format_id_loop_spec (clipboard : wfClipboard) (L : Nat) :
    ∀ n i, i + n ≤ clipboard.format_mappings.length →
      (∃ k map, i ≤ k ∧ k < i + n ∧ clipboard.format_mappings[k]? = some map ∧
          map.local_format_id = L ∧
          (∀ j map', i ≤ j → j < k → clipboard.format_mappings[j]? = some map' →
            map'.local_format_id ≠ L) ∧
          get_remote_format_id_loop clipboard L n i = some map.remote_format_id) ∨
      ((∀ j map', i ≤ j → j < i + n → clipboard.format_mappings[j]? = some map' →
            map'.local_format_id ≠ L) ∧
          get_remote_format_id_loop clipboard L n i = some L) := by
  intro n
  induction n with
  | zero =>
    intro i _
    right
    refine ⟨?_, rfl⟩
    intro j map' h1 h2
    omega
  | succ n ih =>
    intro i hlen
    have hi : i < clipboard.format_mappings.length := by omega
    have hget : clipboard.format_mappings[i]? = some clipboard.format_mappings[i] :=
      List.getElem?_eq_getElem hi
    by_cases hL : (clipboard.format_mappings[i]).local_format_id = L
    · left
      refine ⟨i, clipboard.format_mappings[i], le_refl i, by omega, hget, hL, ?_, ?_⟩
      · intro j map' h1 h2
        omega
      · simp [get_remote_format_id_loop, hget, hL]
    · have hstep : get_remote_format_id_loop clipboard L (n + 1) i =
          get_remote_format_id_loop clipboard L n (i + 1) := by
        simp [get_remote_format_id_loop, hget, hL]
      rcases ih (i + 1) (by omega) with ⟨k, map, h1, h2, h3, h4, h5, h6⟩ | ⟨h1, h2⟩
      · left
        refine ⟨k, map, by omega, by omega, h3, h4, ?_, by rw [hstep, h6]⟩
        intro j map' hj1 hj2 hj3
        by_cases hji : j = i
        · subst hji
          rw [hget] at hj3
          cases hj3
          exact hL
        · exact h5 j map' (by omega) hj2 hj3
      · right
        refine ⟨?_, by rw [hstep, h2]⟩
        intro j map' hj1 hj2 hj3
        by_cases hji : j = i
        · subst hji
          rw [hget] at hj3
          cases hj3
          exact hL
        · exact h1 j map' (by omega) (by omega) hj3

/-- The loop of `get_local_format_id_by_name` over the entries `i .. i + n - 1` of a block that
holds them: it stops at the first entry named `u`, or falls through to `0`. -/
theorem get_local_format_id_by_name_loop_spec (clipboard : wfClipboard) (u : String) :
    ∀ n i, i + n ≤ clipboard.format_mappings.length →
      (∃ k map, i ≤ k ∧ k < i + n ∧ clipboard.format_mappings[k]? = some map ∧
          map.name = some u ∧
          (∀ j map', i ≤ j → j < k → clipboard.format_mappings[j]? = some map' →
            map'.name ≠ some u) ∧
          get_local_format_id_by_name_loop clipboard u n i = some map.local_format_id) ∨
      ((∀ j map', i ≤ j → j < i + n → clipboard.format_mappings[j]? = some map' →
            map'.name ≠ some u) ∧
          get_local_format_id_by_name_loop clipboard u n i = some 0) := by
  intro n
  induction n with
  | zero =>
    intro i _
    right
    refine ⟨?_, rfl⟩
    intro j map' h1 h2
    omega
  | succ n ih =>
    intro i hlen
    have hi : i < clipboard.format_mappings.length := by omega
    have hget : clipboard.format_mappings[i]? = some clipboard.format_mappings[i] :=
      List.getElem?_eq_getElem hi
    by_cases hL : (clipboard.format_mappings[i]).name = some u
    · left
      refine ⟨i, clipboard.format_mappings[i], le_refl i, by omega, hget, hL, ?_, ?_⟩
      · intro j map' h1 h2
        omega
      · simp [get_local_format_id_by_name_loop, hget, hL]
    · have hstep : get_local_format_id_by_name_loop clipboard u (n + 1) i =
          get_local_format_id_by_name_loop clipboard u n (i + 1) := by
        simp only [get_local_format_id_by_name_loop, hget]
        cases hname : (clipboard.format_mappings[i]).name with
        | none => rfl
        | some name =>
          have hne : name ≠ u := by
            intro h
            apply hL
            rw [hname, h]
          simp [hne]
      rcases ih (i + 1) (by omega) with ⟨k, map, h1, h2, h3, h4, h5, h6⟩ | ⟨h1, h2⟩
      · left
        refine ⟨k, map, by omega, by omega, h3, h4, ?_, by rw [hstep, h6]⟩
        intro j map' hj1 hj2 hj3
        by_cases hji : j = i
        · subst hji
          rw [hget] at hj3
          cases hj3
          exact hL
        · exact h5 j map' (by omega) hj2 hj3
      · right
        refine ⟨?_, by rw [hstep, h2]⟩
        intro j map' hj1 hj2 hj3
        by_cases hji : j = i
        · subst hji
          rw [hget] at hj3
          cases hj3
          exact hL
        · exact h1 j map' (by omega) (by omega) hj3

/-- The loop of `get_remote_format_id` reads only the entries `i .. i + n - 1`. -/
theorem get_remote_format_id_loop_congr (c1 c2 : wfClipboard) (L : Nat) :
    ∀ n i, (∀ j, i ≤ j → j < i + n → c1.format_mappings[j]? = c2.format_mappings[j]?) →
      get_remote_format_id_loop c1 L n i = get_remote_format_id_loop c2 L n i := by
  intro n
  induction n with
  | zero => intro i _; rfl
  | succ n ih =>
    intro i h
    simp only [get_remote_format_id_loop]
    rw [h i (le_refl i) (by omega), ih (i + 1) (fun j h1 h2 => h j (by omega) (by omega))]

/-- The loop of `get_local_format_id_by_name` reads only the entries `i .. i + n - 1`. -/
theorem get_local_format_id_by_name_loop_congr (c1 c2 : wfClipboard) (u : String) :
    ∀ n i, (∀ j, i ≤ j → j < i + n → c1.format_mappings[j]? = c2.format_mappings[j]?) →
      get_local_format_id_by_name_loop c1 u n i = get_local_format_id_by_name_loop c2 u n i := by
  intro n
  induction n with
  | zero => intro i _; rfl
  | succ n ih =>
    intro i h
    simp only [get_local_format_id_by_name_loop]
    rw [h i (le_refl i) (by omega), ih (i + 1) (fun j h1 h2 => h j (by omega) (by omega))]

/-- The placeholder loop over entries inside the block returns its calls. -/
theorem placeholder_loop_defined (clipboard : wfClipboard) :
    ∀ n i, i + n ≤ clipboard.format_mappings.length →
      ∃ calls, placeholder_loop clipboard n i = some calls := by
  intro n
  induction n with
  | zero => intro i _; exact ⟨[], rfl⟩
  | succ n ih =>
    intro i hlen
    have hi : i < clipboard.format_mappings.length := by omega
    obtain ⟨calls, hc⟩ := ih (i + 1) (by omega)
    refine ⟨OsCall.SetClipboardData (clipboard.format_mappings[i]).local_format_id none :: calls,
      ?_⟩
    simp only [placeholder_loop, List.getElem?_eq_getElem hi, hc, Option.map_some']

/-- On a registry whose entries lie inside its block, `get_local_format_id_by_name` returns. -/
theorem get_local_format_id_by_name_defined (env : Platform) (clipboard : wfClipboard)
    (name : String) (hblock : clipboard.map_size ≤ clipboard.format_mappings.length) :
    ∃ id, get_local_format_id_by_name env clipboard name = some id := by
  unfold get_local_format_id_by_name
  cases env._wcsdup name with
  | none => exact ⟨0, rfl⟩
  | some u =>
    rcases get_local_format_id_by_name_loop_spec clipboard u clipboard.map_size 0 (by omega) with
      ⟨_, map, _, _, _, _, _, h⟩ | ⟨_, h⟩
    · exact ⟨_, h⟩
    · exact ⟨_, h⟩

/-- The loop of `clear_format_map` run over entries inside the block: it returns a block of
the same length, zero on the visited entries, unchanged elsewhere. -/
theorem clear_format_map_loop_spec :
    ∀ n i (maps : List formatMapping), i + n ≤ maps.length →
      ∃ maps', clear_format_map_loop n i maps = some maps' ∧ maps'.length = maps.length ∧
        (∀ j, i ≤ j → j < i + n → maps'[j]? = some formatMapping.zero) ∧
        (∀ j, (j < i ∨ i + n ≤ j) → maps'[j]? = maps[j]?) := by
  intro n
  induction n with
  | zero =>
    intro i maps _
    exact ⟨maps, rfl, rfl, fun j h1 h2 => by omega, fun j _ => rfl⟩
  | succ n ih =>
    intro i maps hlen
    have hi : i < maps.length := by omega
    obtain ⟨maps', h1, h2, h3, h4⟩ := ih (i + 1) (maps.set i formatMapping.zero)
      (by simp; omega)
    refine ⟨maps', ?_, ?_, ?_, ?_⟩
    · simp [clear_format_map_loop, hi, h1]
    · simpa using h2
    · intro j hj1 hj2
      by_cases hji : j = i
      · subst hji
        rw [h4 j (Or.inl (by omega))]
        simp [List.getElem?_set, hi]
      · exact h3 j (by omega) (by omega)
    · intro j hj
      rw [h4 j (by omega)]
      rw [List.getElem?_set]
      have : i ≠ j := by omega
      simp [this]

/-- When `realloc` succeeds, `map_ensure_capacity` on a registry with `map_size <=
map_capacity` leaves `map_size < map_capacity`, keeps the capacity equal to the block
length, never shrinks, and keeps every entry of the old block. -/
theorem map_ensure_capacity_spec (env : Platform) (hre : ∀ n, env.realloc n = true)
    (c : wfClipboard) (hcap : c.map_capacity = c.format_mappings.length)
    (hsz : c.map_size ≤ c.map_capacity) (hpos : 0 < c.map_capacity) :
    (map_ensure_capacity env c).map_size = c.map_size ∧
    (map_ensure_capacity env c).map_capacity = (map_ensure_capacity env c).format_mappings.length ∧
    c.map_size < (map_ensure_capacity env c).map_capacity ∧
    c.map_capacity ≤ (map_ensure_capacity env c).map_capacity ∧
    (∀ j, j < c.map_capacity →
      (map_ensure_capacity env c).format_mappings[j]? = c.format_mappings[j]?) ∧
    (∀ j, ((map_ensure_capacity env c).format_mappings[j]?).getD (env.heap j) =
      (c.format_mappings[j]?).getD (env.heap j)) := by
  unfold map_ensure_capacity
  by_cases hge : c.map_size ≥ c.map_capacity
  · simp only [hge, hre, if_true]
    have htake : List.take (c.map_capacity * 2) c.format_mappings = c.format_mappings := by
      apply List.take_of_length_le
      omega
    simp only [htake]
    refine ⟨trivial, ?_, by omega, by omega, ?_, ?_⟩
    · simp
      omega
    · intro j hj
      rw [List.getElem?_append_left (by omega)]
    · intro j
      by_cases hj : j < c.format_mappings.length
      · rw [List.getElem?_append_left hj]
      · rw [List.getElem?_append_right (by omega)]
        have hnone : c.format_mappings[j]? = none := List.getElem?_eq_none (by omega)
        rw [hnone]
        by_cases hj2 : j - c.format_mappings.length < c.map_capacity * 2 - c.format_mappings.length
        · have hr : (List.range (c.map_capacity * 2 - c.format_mappings.length))[j -
              c.format_mappings.length]? = some (j - c.format_mappings.length) := by
            rw [List.getElem?_range hj2]
          simp only [List.getElem?_map, hr, Option.map_some', Option.getD_some, Option.getD_none]
          congr 1
          omega
        · have hr : (List.range (c.map_capacity * 2 - c.format_mappings.length))[j -
              c.format_mappings.length]? = none := by
            apply List.getElem?_eq_none
            simp
            omega
          simp only [List.getElem?_map, hr, Option.map_none', Option.getD_none]
  · simp only [hge, if_false]
    exact ⟨trivial, hcap, by omega, le_refl _, fun j _ => trivial, fun j => trivial⟩

/-- When the name of a format converts (or there is none) the filled entry does not depend on
what the entry held before. -/
theorem fill_mapping_old_irrelevant (env : Platform) (old1 old2 : formatMapping)
    (f : CLIPRDR_FORMAT)
    (h : ∀ N, f.formatName = some N → ∃ W, env.ConvertUtf8ToWCharAlloc N = some W) :
    fill_mapping env old1 f = fill_mapping env old2 f := by
  unfold fill_mapping
  cases hN : f.formatName with
  | none => rfl
  | some N =>
    obtain ⟨W, hW⟩ := h N hN
    simp [hW]

/-- The first loop of `wf_cliprdr_server_format_list` started with `map_size = i <
map_capacity`: it returns a registry with one more entry per format, still with
`map_size < map_capacity`, the earlier entries untouched and entry `i + k` filled from
format `k`. -/
theorem wf_cliprdr_server_format_list_loop_spec (env : Platform)
    (hre : ∀ n, env.realloc n = true) :
    ∀ (formats : List CLIPRDR_FORMAT) (i : Nat) (c : wfClipboard),
      c.map_size = i → i < c.map_capacity → c.map_capacity = c.format_mappings.length →
      ∃ c', wf_cliprdr_server_format_list_loop env formats i c = some c' ∧
        c'.map_size = i + formats.length ∧
        c'.map_size < c'.map_capacity ∧
        c'.map_capacity = c'.format_mappings.length ∧
        c.map_capacity ≤ c'.map_capacity ∧
        (∀ j, j < i → c'.format_mappings[j]? = c.format_mappings[j]?) ∧
        (∀ k f, formats[k]? = some f →
          c'.format_mappings[i + k]? =
            some (fill_mapping env ((c.format_mappings[i + k]?).getD (env.heap (i + k))) f)) := by
  intro formats
  induction formats with
  | nil =>
    intro i c hsz hlt hcap
    refine ⟨c, rfl, by simpa using hsz, by omega, hcap, le_refl _, fun j _ => rfl, ?_⟩
    intro k f hk
    simp at hk
  | cons format rest ih =>
    intro i c hsz hlt hcap
    have hi : i < c.format_mappings.length := by omega
    have hget : c.format_mappings[i]? = some c.format_mappings[i] := List.getElem?_eq_getElem hi
    let c1 : wfClipboard :=
      { c with
        format_mappings := c.format_mappings.set i (fill_mapping env c.format_mappings[i] format),
        map_size := c.map_size + 1 }
    have hc1cap : c1.map_capacity = c1.format_mappings.length := by
      simp [c1, hcap]
    have hc1sz : c1.map_size ≤ c1.map_capacity := by
      show c.map_size + 1 ≤ c.map_capacity
      omega
    have hc1pos : 0 < c1.map_capacity := by
      show 0 < c.map_capacity
      omega
    obtain ⟨e1, e2, e3, e4, e5, e6⟩ := map_ensure_capacity_spec env hre c1 hc1cap hc1sz hc1pos
    have hc1size : c1.map_size = i + 1 := by
      show c.map_size + 1 = i + 1
      omega
    obtain ⟨c', r1, r2, r3, r4, r5, r6, r7⟩ := ih (i + 1) (map_ensure_capacity env c1)
      (by rw [e1, hc1size]) (by rw [hc1size] at e3; exact e3) e2
    have hc1c : c1.map_capacity = c.map_capacity := rfl
    refine ⟨c', ?_, ?_, r3, r4, by omega, ?_, ?_⟩
    · simp only [wf_cliprdr_server_format_list_loop, hget]
      exact r1
    · rw [r2]
      simp
      omega
    · intro j hj
      rw [r6 j (by omega), e5 j (by omega)]
      show (c.format_mappings.set i _)[j]? = _
      rw [List.getElem?_set]
      have : i ≠ j := by omega
      simp [this]
    · intro k f hk
      cases k with
      | zero =>
        simp at hk
        subst hk
        rw [Nat.add_zero, r6 i (by omega), e5 i (by omega)]
        show (c.format_mappings.set i _)[i]? = _
        simp [List.getElem?_set, hi, hget]
      | succ k =>
        simp at hk
        have h := r7 k f hk
        have hidx : i + (k + 1) = i + 1 + k := by omega
        rw [hidx, h, e6 (i + 1 + k)]
        show some (fill_mapping env (((c.format_mappings.set i _)[i + 1 + k]?).getD _) f) = _
        rw [List.getElem?_set]
        have : i ≠ i + 1 + k := by omega
        simp [this]

/-- What `wf_cliprdr_server_format_list` does to a registry whose block matches its positive
capacity when `realloc` succeeds: it returns, `map_size` is the number of formats and stays
below the capacity, the capacity never shrinks, and entry `k` is filled from format `k`. -/
theorem wf_cliprdr_server_format_list_spec (env : Platform) (c : wfClipboard)
    (formatList : CLIPRDR_FORMAT_LIST) (hre : ∀ n, env.realloc n = true)
    (hcap : c.map_capacity = c.format_mappings.length) (hpos : 0 < c.map_capacity) :
    ∃ h, wf_cliprdr_server_format_list env c formatList = some h ∧
      h.clipboard.map_size = formatList.formats.length ∧
      h.clipboard.map_size < h.clipboard.map_capacity ∧
      h.clipboard.map_capacity = h.clipboard.format_mappings.length ∧
      c.map_capacity ≤ h.clipboard.map_capacity ∧
      (∀ k f, formatList.formats[k]? = some f →
        h.clipboard.format_mappings[k]? = some (fill_mapping env (cleared_entry env c k) f)) := by
  obtain ⟨maps0, hm1, hm2, hm3, hm4⟩ :=
    clear_format_map_loop_spec c.map_capacity 0 c.format_mappings (by omega)
  have hclear : clear_format_map c = some { c with format_mappings := maps0, map_size := 0 } := by
    simp [clear_format_map, hm1]
  obtain ⟨c', r1, r2, r3, r4, r5, r6, r7⟩ :=
    wf_cliprdr_server_format_list_loop_spec env hre formatList.formats 0
      { c with format_mappings := maps0, map_size := 0 } rfl hpos (by simp [hm2, hcap])
  have hentries : ∀ k f, formatList.formats[k]? = some f →
      c'.format_mappings[k]? = some (fill_mapping env (cleared_entry env c k) f) := by
    intro k f hk
    have h := r7 k f hk
    simp only [Nat.zero_add] at h
    rw [h]
    congr 2
    unfold cleared_entry
    by_cases hkc : k < c.map_capacity
    · simp [hkc, hm3 k (Nat.zero_le k) (by omega)]
    · have : maps0[k]? = none := List.getElem?_eq_none (by omega)
      simp [hkc, this]
  have hsize : c'.map_size ≤ c'.format_mappings.length := by omega
  obtain ⟨id, hid⟩ := get_local_format_id_by_name_defined env c' CFSTR_FILEDESCRIPTORW hsize
  have hmod : c'.map_size % 2 ^ 32 ≤ c'.map_size := Nat.mod_le _ _
  obtain ⟨calls, hcalls⟩ := placeholder_loop_defined c' (c'.map_size % 2 ^ 32) 0 (by omega)
  simp only [Nat.zero_add] at r2
  unfold wf_cliprdr_server_format_list
  simp only [hclear, r1, file_transferring, hid, Option.map_some']
  by_cases hft : (id != 0) = true
  · simp only [hft]
    exact ⟨_, rfl, r2, r3, r4, r5, hentries⟩
  · have hft' : (id != 0) = false := by simpa using hft
    simp only [hft']
    by_cases hopen : try_open_clipboard env = true
    · simp only [hopen, Bool.not_true, Bool.false_eq_true, if_false]
      by_cases hempty : env.EmptyClipboard = true
      · simp only [hempty, if_true, hcalls, Option.map_some']
        exact ⟨_, rfl, r2, r3, r4, r5, hentries⟩
      · simp only [hempty, if_false]
        exact ⟨_, rfl, r2, r3, r4, r5, hentries⟩
    · have hopen' : try_open_clipboard env = false := by simpa using hopen
      simp only [hopen', Bool.not_false, if_true]
      exact ⟨_, rfl, r2, r3, r4, r5, hentries⟩

/-- The bridge that `wf_cliprdr_server_format_list` leaves is the registry that the loop
over the formats returns for the cleared registry. -/
theorem wf_cliprdr_server_format_list_rebuilt (env : Platform) (c : wfClipboard)
    (formatList : CLIPRDR_FORMAT_LIST) (h : Handled)
    (hh : wf_cliprdr_server_format_list env c formatList = some h) :
    ∃ cleared, clear_format_map c = some cleared ∧
      wf_cliprdr_server_format_list_loop env formatList.formats 0 cleared =
        some h.clipboard := by
  unfold wf_cliprdr_server_format_list at hh
  cases hclear : clear_format_map c with
  | none => simp [hclear] at hh
  | some cleared =>
    cases hloop : wf_cliprdr_server_format_list_loop env formatList.formats 0 cleared with
    | none => simp [hclear, hloop] at hh
    | some rebuilt =>
      refine ⟨cleared, rfl, ?_⟩
      rw [hloop]
      simp only [hclear, hloop] at hh
      cases hft : file_transferring env rebuilt with
      | none => simp [hft] at hh
      | some b =>
        cases b with
        | true =>
          simp only [hft, Option.some.injEq] at hh
          rw [← hh]
        | false =>
          simp only [hft] at hh
          by_cases hopen : try_open_clipboard env = true
          · simp only [hopen, Bool.not_true, Bool.false_eq_true, if_false] at hh
            by_cases hempty : env.EmptyClipboard = true
            · cases hcalls : placeholder_loop rebuilt (rebuilt.map_size % 2 ^ 32) 0 with
              | none =>
                rw [hcalls] at hh
                simp only [hempty, if_true, Option.map_none'] at hh
                cases hh
              | some calls =>
                rw [hcalls] at hh
                simp only [hempty, if_true, Option.map_some', Option.some.injEq] at hh
                rw [← hh]
            · have hempty' : env.EmptyClipboard = false := by simpa using hempty
              simp only [hempty', Bool.false_eq_true, if_false, Option.some.injEq] at hh
              rw [← hh]
          · have hopen' : try_open_clipboard env = false := by simpa using hopen
            simp only [hopen', Bool.not_false, if_true, Option.some.injEq] at hh
            rw [← hh]

/-- The loop of the rebuild over formats that all fit below the capacity leaves the
capacity as it is. -/
theorem wf_cliprdr_server_format_list_loop_keeps (env : Platform) :
    ∀ (formats : List CLIPRDR_FORMAT) (i : Nat) (c c' : wfClipboard),
      c.map_size = i → i + formats.length < c.map_capacity →
      wf_cliprdr_server_format_list_loop env formats i c = some c' →
      c'.map_capacity = c.map_capacity := by
  intro formats
  induction formats with
  | nil =>
    intro i c c' _ _ h
    simp only [wf_cliprdr_server_format_list_loop, Option.some.injEq] at h
    rw [← h]
  | cons format rest ih =>
    intro i c c' hsz hlt h
    simp only [List.length_cons] at hlt
    simp only [wf_cliprdr_server_format_list_loop] at h
    cases hget : c.format_mappings[i]? with
    | none => simp [hget] at h
    | some mapping =>
      simp only [hget] at h
      have hkeep : map_ensure_capacity env
          { c with
            format_mappings := c.format_mappings.set i (fill_mapping env mapping format),
            map_size := c.map_size + 1 } =
          { c with
            format_mappings := c.format_mappings.set i (fill_mapping env mapping format),
            map_size := c.map_size + 1 } := by
        unfold map_ensure_capacity
        have hnot : ¬ (c.map_size + 1 ≥ c.map_capacity) := by omega
        simp only [hnot, if_false]
      rw [hkeep] at h
      have hcap := ih (i + 1) _ c' (by show c.map_size + 1 = i + 1; omega)
        (by show i + 1 + rest.length < c.map_capacity; omega) h
      rw [hcap]

/-- What a rebuild does to the capacity, when `realloc` succeeds: a list shorter than the
capacity leaves it as it is, a list that is not shorter makes the block grow beyond the
entries that the rebuild writes. -/
theorem wf_cliprdr_server_format_list_capacity (env : Platform) (c : wfClipboard)
    (formatList : CLIPRDR_FORMAT_LIST) (hre : ∀ n, env.realloc n = true)
    (hcap : c.map_capacity = c.format_mappings.length) (hpos : 0 < c.map_capacity) :
    ∃ h, wf_cliprdr_server_format_list env c formatList = some h ∧
      h.clipboard.map_capacity = h.clipboard.format_mappings.length ∧
      (formatList.numFormats < c.map_capacity → h.clipboard.map_capacity = c.map_capacity) ∧
      (c.map_capacity ≤ formatList.numFormats →
        max c.map_capacity formatList.numFormats < h.clipboard.map_capacity) := by
  obtain ⟨h, h1, h2, h3, h4, h5, _⟩ :=
    wf_cliprdr_server_format_list_spec env c formatList hre hcap hpos
  refine ⟨h, h1, h4, ?_, ?_⟩
  · intro hshort
    obtain ⟨cleared, hclear, hloop⟩ :=
      wf_cliprdr_server_format_list_rebuilt env c formatList h h1
    have hcleared : cleared.map_size = 0 ∧ cleared.map_capacity = c.map_capacity := by
      unfold clear_format_map at hclear
      cases hm : clear_format_map_loop c.map_capacity 0 c.format_mappings with
      | none => simp [hm] at hclear
      | some maps =>
        simp only [hm, Option.map_some', Option.some.injEq] at hclear
        rw [← hclear]
        exact ⟨rfl, rfl⟩
    have hkeep := wf_cliprdr_server_format_list_loop_keeps env formatList.formats 0 cleared
      h.clipboard hcleared.1
      (by rw [hcleared.2, Nat.zero_add]; exact hshort) hloop
    rw [hkeep, hcleared.2]
  · intro hlong
    have hn : formatList.numFormats = formatList.formats.length := rfl
    rw [Nat.max_eq_right hlong, hn, ← h2]
    exact h3

/-- A run that starts with lists that are all shorter than 32 formats, from a registry
whose block of 32 entries was written: after these lists it goes on from such a
registry. -/
theorem handle_format_lists_short (env : Platform) (hre : ∀ n, env.realloc n = true) :
    ∀ (ls : List CLIPRDR_FORMAT_LIST) (c : wfClipboard),
      c.map_capacity = 32 → c.format_mappings.length = 32 →
      (∀ l ∈ ls, l.numFormats < 32) →
      ∃ c', c'.map_capacity = 32 ∧ c'.format_mappings.length = 32 ∧
        ∀ rest, handle_format_lists env 32 c (ls ++ rest) =
          handle_format_lists env 32 c' rest := by
  intro ls
  induction ls with
  | nil => intro c h1 h2 _; exact ⟨c, h1, h2, fun _ => rfl⟩
  | cons a ls ih =>
    intro c h1 h2 hshort
    obtain ⟨h, e1, e2, e3, _⟩ :=
      wf_cliprdr_server_format_list_capacity env c a hre (by omega) (by omega)
    have ha : a.numFormats < 32 := hshort a (List.mem_cons_self a ls)
    have hkeep : h.clipboard.map_capacity = 32 := by rw [e3 (by omega), h1]
    obtain ⟨c', r1, r2, r3⟩ := ih h.clipboard hkeep (by omega)
      (fun l hl => hshort l (List.mem_cons_of_mem a hl))
    refine ⟨c', r1, r2, ?_⟩
    intro rest
    have hmax : max 32 a.numFormats = 32 := Nat.max_eq_left (by omega)
    simp only [List.cons_append, handle_format_lists, clear_format_map_frees_stored, h1,
      Nat.le_refl, decide_True, if_true, e1, hmax]
    exact r3 rest

/-- A run in which a list of 32 formats or more is followed by another list, from a
registry whose block of 32 entries was written, with `realloc` succeeding: the rebuild
that follows the long list frees the names of entries that were never written. -/
theorem handle_format_lists_grown (env : Platform) (hre : ∀ n, env.realloc n = true) :
    ∀ (ls : List CLIPRDR_FORMAT_LIST) (last : CLIPRDR_FORMAT_LIST) (c : wfClipboard),
      c.map_capacity = 32 → c.format_mappings.length = 32 →
      (∃ l ∈ ls, 32 ≤ l.numFormats) →
      handle_format_lists env 32 c (ls ++ [last]) = none := by
  intro ls
  induction ls with
  | nil =>
    intro last c _ _ hlong
    obtain ⟨l, hl, _⟩ := hlong
    cases hl
  | cons a ls ih =>
    intro last c h1 h2 hlong
    obtain ⟨h, e1, e2, e3, e4⟩ :=
      wf_cliprdr_server_format_list_capacity env c a hre (by omega) (by omega)
    simp only [List.cons_append, handle_format_lists, clear_format_map_frees_stored, h1,
      Nat.le_refl, decide_True, if_true, e1]
    by_cases ha : a.numFormats < 32
    · have hkeep : h.clipboard.map_capacity = 32 := by rw [e3 (by omega), h1]
      have hmax : max 32 a.numFormats = 32 := Nat.max_eq_left (by omega)
      rw [hmax]
      apply ih last h.clipboard hkeep (by omega)
      obtain ⟨l, hl, hl32⟩ := hlong
      rcases List.mem_cons.mp hl with rfl | hmem
      · omega
      · exact ⟨l, hmem, hl32⟩
    · have hgrown := e4 (by omega)
      rw [h1] at hgrown
      have hnot : ¬ (h.clipboard.map_capacity ≤ max 32 a.numFormats) := by omega
      simp only [List.append_eq]
      cases hrest : ls ++ [last] with
      | nil => simp at hrest
      | cons b rest =>
        simp only [handle_format_lists, clear_format_map_frees_stored, hnot, decide_False,
          Bool.false_eq_true, if_false]

/-! ## Format registry: the claims -/

/-- C1: for every registry whose `map_size` entries lie inside its block and every local
format id `L`, `get_remote_format_id` returns the `remote_format_id` of the entry of
lowest index below `map_size` whose `local_format_id` is `L`, and returns `L` itself
when no entry below `map_size` has that local id. -/
theorem get_remote_format_id_first_match (clipboard : wfClipboard) (L : Nat)
    (hblock : clipboard.map_size ≤ clipboard.format_mappings.length) :
    (∃ i map, i < clipboard.map_size ∧ clipboard.format_mappings[i]? = some map ∧
        map.local_format_id = L ∧
        (∀ j map', j < i → clipboard.format_mappings[j]? = some map' →
          map'.local_format_id ≠ L) ∧
        get_remote_format_id clipboard L = some map.remote_format_id) ∨
    ((∀ i map, i < clipboard.map_size → clipboard.format_mappings[i]? = some map →
          map.local_format_id ≠ L) ∧
        get_remote_format_id clipboard L = some L) := by
  rcases get_remote_format_id_loop_spec clipboard L clipboard.map_size 0 (by omega) with
    ⟨k, map, _, h2, h3, h4, h5, h6⟩ | ⟨h1, h2⟩
  · left
    exact ⟨k, map, by omega, h3, h4, fun j map' hj hm => h5 j map' (Nat.zero_le j) hj hm, h6⟩
  · right
    exact ⟨fun i map hi hm => h1 i map (Nat.zero_le i) (by omega) hm, h2⟩

/-- Witness of C1 on a registry of two entries, looked up for the local id of `CustomText`. -/
theorem get_remote_format_id_first_match_witness :
    sample_registry.map_size ≤ sample_registry.format_mappings.length ∧
    ((∃ i map, i < sample_registry.map_size ∧ sample_registry.format_mappings[i]? = some map ∧
        map.local_format_id = 0xC00A ∧
        (∀ j map', j < i → sample_registry.format_mappings[j]? = some map' →
          map'.local_format_id ≠ 0xC00A) ∧
        get_remote_format_id sample_registry 0xC00A = some map.remote_format_id) ∨
    ((∀ i map, i < sample_registry.map_size → sample_registry.format_mappings[i]? = some map →
          map.local_format_id ≠ 0xC00A) ∧
        get_remote_format_id sample_registry 0xC00A = some 0xC00A)) :=
  ⟨by decide, get_remote_format_id_first_match sample_registry 0xC00A (by decide)⟩

/-- C3: the runs of format lists from the registry of `wf_cliprdr_init`, whose 32 entries
`calloc` has written, when no allocation fails (`realloc` succeeds, and the names that the
last list stores beyond the first 32 entries convert). When every earlier list has fewer
than 32 formats the run returns, and `get_remote_format_id` and
`get_local_format_id_by_name` answer after the last rebuild exactly as they do after
rebuilding the initial registry from the last list alone. When an earlier list has 32
formats or more, `realloc` has added entries that the rebuild did not write, and
`clear_format_map` in the rebuild that follows frees their `name`: the run has no
result. -/
theorem lookups_reflect_last_list (env : Platform) (earlier : List CLIPRDR_FORMAT_LIST)
    (last : CLIPRDR_FORMAT_LIST) (hre : ∀ n, env.realloc n = true)
    (hconv : ∀ (k : Nat) (f : CLIPRDR_FORMAT) (N : String), 32 ≤ k →
      last.formats[k]? = some f → f.formatName = some N →
      ∃ W, env.ConvertUtf8ToWCharAlloc N = some W) :
    ((∀ l ∈ earlier, l.numFormats < 32) →
      ∃ c1 c2, handle_format_lists env 32 wf_cliprdr_init (earlier ++ [last]) = some c1 ∧
        handle_format_lists env 32 wf_cliprdr_init [last] = some c2 ∧
        (∀ L, get_remote_format_id c1 L = get_remote_format_id c2 L) ∧
        (∀ name, get_local_format_id_by_name env c1 name =
          get_local_format_id_by_name env c2 name)) ∧
    ((∃ l ∈ earlier, 32 ≤ l.numFormats) →
      handle_format_lists env 32 wf_cliprdr_init (earlier ++ [last]) = none) := by
  refine ⟨?_, fun hlong =>
    handle_format_lists_grown env hre earlier last wf_cliprdr_init rfl (by decide) hlong⟩
  intro hshort
  obtain ⟨cp, p2, p3, p1⟩ :=
    handle_format_lists_short env hre earlier wf_cliprdr_init rfl (by decide) hshort
  obtain ⟨h1, a1, a2, _, _, _, a6⟩ :=
    wf_cliprdr_server_format_list_spec env cp last hre (by omega) (by omega)
  obtain ⟨h2, b1, b2, _, _, _, b6⟩ :=
    wf_cliprdr_server_format_list_spec env wf_cliprdr_init last hre (by decide) (by decide)
  have hsame : ∀ j, 0 ≤ j → j < 0 + h1.clipboard.map_size →
      h1.clipboard.format_mappings[j]? = h2.clipboard.format_mappings[j]? := by
    intro j _ hj
    have hjl : j < last.formats.length := by omega
    have hf : last.formats[j]? = some last.formats[j] := List.getElem?_eq_getElem hjl
    rw [a6 j _ hf, b6 j _ hf]
    congr 1
    by_cases hj32 : j < 32
    · have e1 : cleared_entry env cp j = formatMapping.zero := by
        unfold cleared_entry
        rw [if_pos (by omega)]
      have e2 : cleared_entry env wf_cliprdr_init j = formatMapping.zero := by
        unfold cleared_entry
        rw [if_pos (by simpa [wf_cliprdr_init] using hj32)]
      rw [e1, e2]
    · exact fill_mapping_old_irrelevant env _ _ _
        (fun N hN => hconv j _ N (by omega) hf hN)
  have hsize : h1.clipboard.map_size = h2.clipboard.map_size := by rw [a2, b2]
  refine ⟨h1.clipboard, h2.clipboard, ?_, ?_, ?_, ?_⟩
  · rw [p1 [last]]
    simp only [handle_format_lists, clear_format_map_frees_stored, p2, Nat.le_refl,
      decide_True, if_true, a1]
  · have hinit : wf_cliprdr_init.map_capacity ≤ 32 := by decide
    simp only [handle_format_lists, clear_format_map_frees_stored, hinit, decide_True,
      if_true, b1]
  · intro L
    unfold get_remote_format_id
    rw [← hsize]
    exact get_remote_format_id_loop_congr _ _ L _ 0 hsame
  · intro name
    unfold get_local_format_id_by_name
    cases env._wcsdup name with
    | none => rfl
    | some u =>
      show get_local_format_id_by_name_loop _ u _ 0 = get_local_format_id_by_name_loop _ u _ 0
      rw [← hsize]
      exact get_local_format_id_by_name_loop_congr _ _ u _ 0 hsame

/-- Witness of C3: two earlier lists of two and three formats, then the list of
`CustomText` and `7`; and a list of 40 formats, after which the block has 64 entries of
which 40 were written, then the list of `CustomText` and `7`. -/
theorem lookups_reflect_last_list_witness :
    (∀ n, sample_platform.realloc n = true) ∧
    (∃ c1 c2,
      handle_format_lists sample_platform 32 wf_cliprdr_init
        ([repeated_name_list, mixed_list] ++ [custom_text_list]) = some c1 ∧
      handle_format_lists sample_platform 32 wf_cliprdr_init [custom_text_list] = some c2 ∧
      (∀ L, get_remote_format_id c1 L = get_remote_format_id c2 L) ∧
      (∀ name, get_local_format_id_by_name sample_platform c1 name =
        get_local_format_id_by_name sample_platform c2 name)) ∧
    long_list.numFormats = 40 ∧
    (wf_cliprdr_server_format_list sample_platform wf_cliprdr_init long_list).map
        (fun handled => (handled.clipboard.map_size, handled.clipboard.map_capacity,
          clear_format_map_frees_stored handled.clipboard (max 32 long_list.numFormats))) =
      some (40, 64, false) ∧
    handle_format_lists sample_platform 32 wf_cliprdr_init ([long_list] ++ [custom_text_list]) =
      none :=
  ⟨fun _ => rfl,
    (lookups_reflect_last_list sample_platform [repeated_name_list, mixed_list]
      custom_text_list (fun _ => rfl) (fun _ _ N _ _ _ => ⟨N, rfl⟩)).1
      (by decide),
    by decide, by decide,
    (lookups_reflect_last_list sample_platform [long_list] custom_text_list
      (fun _ => rfl) (fun _ _ N _ _ _ => ⟨N, rfl⟩)).2
      ⟨long_list, List.mem_singleton.mpr rfl, by decide⟩⟩

/-- At or past the end `CliprdrStream_Read` returns `S_FALSE` with 0 bytes and sends nothing. -/
theorem CliprdrStream_Read_at_end (ch : Channel) (clipboard : wfClipboard)
    (This : CliprdrStream) (cb : Nat) (h : This.m_lOffset ≥ This.m_lSize) :
    CliprdrStream_Read ch clipboard This cb =
      { requests := [],
        result := some { hr := S_FALSE, pcbRead := 0, pv := [], stream := This,
                         clipboard := clipboard } } := by
  simp [CliprdrStream_Read, h]

/-- One `CliprdrStream_Read` before the end of a stream whose peer serves `content`: it returns
the bytes of `content` from the offset, at most `cb` and at most those that remain, and
advances the offset by their number. -/
theorem CliprdrStream_Read_served (ch : Channel) (content : List Nat) (clipboard : wfClipboard)
    (This : CliprdrStream) (cb : Nat) (hserve : ch.serves This.m_lIndex content)
    (hN : content.length = This.m_lSize) (h64 : This.m_lSize < 2 ^ 64)
    (hlt : This.m_lOffset < This.m_lSize) :
    (CliprdrStream_Read ch clipboard This cb).result = some
      { hr := if min cb (This.m_lSize - This.m_lOffset) < cb then S_FALSE else S_OK,
        pcbRead := min cb (This.m_lSize - This.m_lOffset),
        pv := (content.drop This.m_lOffset).take cb,
        stream := { This with
          m_lOffset := This.m_lOffset + min cb (This.m_lSize - This.m_lOffset) },
        clipboard := { clipboard with
          req_fsize := min cb (This.m_lSize - This.m_lOffset),
          req_fdata := some ((content.drop This.m_lOffset).take cb),
          req_fevent := false } } := by
  obtain ⟨hpeer, hsend, hmalloc, hset, hreset, hwait⟩ := hserve
  have hpos : (This.m_lOffset / 2 ^ 32) % 2 ^ 32 * 2 ^ 32 + This.m_lOffset % 2 ^ 32 =
      This.m_lOffset := by
    omega
  have hlen : ((content.drop This.m_lOffset).take cb).length =
      min cb (This.m_lSize - This.m_lOffset) := by
    simp [hN]
  have hnot : ¬ This.m_lOffset ≥ This.m_lSize := by omega
  have hmod : (This.m_lOffset + min cb (This.m_lSize - This.m_lOffset)) % 2 ^ 64 =
      This.m_lOffset + min cb (This.m_lSize - This.m_lOffset) := by
    apply Nat.mod_eq_of_lt
    omega
  simp only [CliprdrStream_Read, hnot, if_false, cliprdr_send_request_filecontents]
  rw [hpeer _ rfl rfl]
  simp only [serving_peer, hpos, wf_cliprdr_server_file_contents_response, hsend, hmalloc,
    hset, hreset, hwait, CLIPRDR_FILE_CONTENTS_RESPONSE.cbRequested, hlen]
  have htake : List.take (min cb (This.m_lSize - This.m_lOffset))
      (List.take cb (List.drop This.m_lOffset content)) =
      List.take cb (List.drop This.m_lOffset content) := by
    apply List.take_of_length_le
    rw [hlen]
  simp [CHANNEL_RC_OK, hmod, hlen, htake]
  omega

/-- Successive reads of a served stream from any offset inside it: the chunks, concatenated,
are the bytes of `content` from that offset, and a read returns 0 bytes exactly when the
offset has reached the total size. -/
theorem read_all_served (ch : Channel) (content : List Nat) (index : Nat)
    (hserve : ch.serves index content) :
    ∀ (cbs : List Nat) (clipboard : wfClipboard) (This : CliprdrStream),
      This.m_lIndex = index → content.length = This.m_lSize → This.m_lSize < 2 ^ 64 →
      This.m_lOffset ≤ This.m_lSize → (∀ cb ∈ cbs, 0 < cb) →
      ∃ rs, read_all ch clipboard This cbs = some rs ∧ rs.length = cbs.length ∧
        (rs.map ReadResult.pv).flatten = (content.drop This.m_lOffset).take cbs.sum ∧
        ∀ (j : Nat) (r : ReadResult), rs[j]? = some r →
          r.pcbRead = r.pv.length ∧
          (r.pcbRead = 0 ↔
            This.m_lOffset + ((rs.take j).map ReadResult.pcbRead).sum = This.m_lSize) := by
  intro cbs
  induction cbs with
  | nil =>
    intro clipboard This _ _ _ _ _
    refine ⟨[], rfl, rfl, by simp, ?_⟩
    intro j r hj
    simp at hj
  | cons cb rest ih =>
    intro clipboard This hidx hN h64 hle hposs
    have hcb : 0 < cb := hposs cb (List.mem_cons_self _ _)
    have hrest : ∀ x ∈ rest, 0 < x := fun x hx => hposs x (List.mem_cons_of_mem _ hx)
    by_cases hend : This.m_lOffset ≥ This.m_lSize
    · have hread := CliprdrStream_Read_at_end ch clipboard This cb hend
      obtain ⟨rs, r1, r2, r3, r4⟩ := ih clipboard This hidx hN h64 hle hrest
      refine ⟨{ hr := S_FALSE, pcbRead := 0, pv := [], stream := This,
                clipboard := clipboard } :: rs, ?_, ?_, ?_, ?_⟩
      · simp only [read_all, hread, r1, Option.map_some']
      · simp [r2]
      · have hdrop : content.drop This.m_lOffset = [] := by
          apply List.drop_of_length_le
          omega
        simp [r3, hdrop]
      · intro j r hj
        cases j with
        | zero =>
          simp at hj
          subst hj
          simp
          omega
        | succ j =>
          simp at hj
          have := r4 j r hj
          simpa using this
    · have hlt : This.m_lOffset < This.m_lSize := by omega
      have hread := CliprdrStream_Read_served ch content clipboard This cb
        (by rw [hidx]; exact hserve) hN h64 hlt
      obtain ⟨rs, r1, r2, r3, r4⟩ := ih
        { clipboard with
          req_fsize := min cb (This.m_lSize - This.m_lOffset),
          req_fdata := some ((content.drop This.m_lOffset).take cb),
          req_fevent := false }
        { This with m_lOffset := This.m_lOffset + min cb (This.m_lSize - This.m_lOffset) }
        hidx hN h64
        (by show This.m_lOffset + min cb (This.m_lSize - This.m_lOffset) ≤ This.m_lSize; omega)
        hrest
      have hlen : ((content.drop This.m_lOffset).take cb).length =
          min cb (This.m_lSize - This.m_lOffset) := by
        simp [hN]
      refine ⟨{ hr := if min cb (This.m_lSize - This.m_lOffset) < cb then S_FALSE else S_OK,
                pcbRead := min cb (This.m_lSize - This.m_lOffset),
                pv := (content.drop This.m_lOffset).take cb,
                stream := { This with
                  m_lOffset := This.m_lOffset + min cb (This.m_lSize - This.m_lOffset) },
                clipboard := { clipboard with
                  req_fsize := min cb (This.m_lSize - This.m_lOffset),
                  req_fdata := some ((content.drop This.m_lOffset).take cb),
                  req_fevent := false } } :: rs, ?_, ?_, ?_, ?_⟩
      · simp only [read_all, hread, r1, Option.map_some']
      · simp [r2]
      · simp only [List.map_cons, List.flatten_cons, r3, List.sum_cons]
        by_cases hfull : cb ≤ This.m_lSize - This.m_lOffset
        · rw [Nat.min_eq_left hfull, List.take_add, List.drop_drop]
        · have hmin : min cb (This.m_lSize - This.m_lOffset) = This.m_lSize - This.m_lOffset := by
            omega
          have hdrop : content.drop (This.m_lOffset + (This.m_lSize - This.m_lOffset)) = [] := by
            apply List.drop_of_length_le
            omega
          rw [hmin, hdrop]
          simp only [List.take_nil, List.append_nil]
          rw [List.take_of_length_le (by simp; omega), List.take_of_length_le (by simp; omega)]
      · intro j r hj
        cases j with
        | zero =>
          simp at hj
          subst hj
          simp only [hlen, List.take_zero, List.map_nil, List.sum_nil, true_and]
          omega
        | succ j =>
          simp at hj
          have h4 := r4 j r hj
          simp only [List.take_succ_cons, List.map_cons, List.sum_cons]
          refine ⟨h4.1, ?_⟩
          rw [h4.2]
          show This.m_lOffset + min cb (This.m_lSize - This.m_lOffset) +
              ((rs.take j).map ReadResult.pcbRead).sum = This.m_lSize ↔
            This.m_lOffset + (min cb (This.m_lSize - This.m_lOffset) +
              ((rs.take j).map ReadResult.pcbRead).sum) = This.m_lSize
          rw [Nat.add_assoc]

/-! ## Lazy file stream: the claims -/

/-- C6: for a stream of total size `N` at offset 0 whose peer serves `content` (of length
`N`), successive `CliprdrStream_Read` calls with positive lengths all return; their
chunks, concatenated, are the first bytes of `content`, all of it once the lengths add up
to `N`; each call reports as many bytes as it copies, and a call reports 0 bytes exactly
when the bytes reported before it add up to `N`. -/
theorem CliprdrStream_Read_reproduces_content (ch : Channel) (content : List Nat)
    (clipboard : wfClipboard) (This : CliprdrStream) (cbs : List Nat)
    (hserve : ch.serves This.m_lIndex content) (hN : content.length = This.m_lSize)
    (h64 : This.m_lSize < 2 ^ 64) (h0 : This.m_lOffset = 0) (hpos : ∀ cb ∈ cbs, 0 < cb) :
    ∃ rs, read_all ch clipboard This cbs = some rs ∧ rs.length = cbs.length ∧
      (rs.map ReadResult.pv).flatten = content.take cbs.sum ∧
      (content.length ≤ cbs.sum → (rs.map ReadResult.pv).flatten = content) ∧
      ∀ (j : Nat) (r : ReadResult), rs[j]? = some r →
        r.pcbRead = r.pv.length ∧
        (r.pcbRead = 0 ↔ ((rs.take j).map ReadResult.pcbRead).sum = content.length) := by
  obtain ⟨rs, r1, r2, r3, r4⟩ := read_all_served ch content This.m_lIndex hserve cbs clipboard
    This rfl hN h64 (by omega) hpos
  rw [h0, List.drop_zero] at r3
  refine ⟨rs, r1, r2, r3, ?_, ?_⟩
  · intro hle
    rw [r3, List.take_of_length_le hle]
  · intro j r hj
    have h := r4 j r hj
    rw [h0, Nat.zero_add, ← hN] at h
    exact h

/-- Witness of C6: four reads of length 4 on a served stream of ten bytes. -/
theorem CliprdrStream_Read_reproduces_content_witness :
    (sample_channel sample_content).serves sample_stream.m_lIndex sample_content ∧
    sample_content.length = sample_stream.m_lSize ∧
    sample_stream.m_lOffset = 0 ∧
    (∀ cb ∈ [4, 4, 4, 4], 0 < cb) ∧
    ∃ rs, read_all (sample_channel sample_content) wf_cliprdr_init sample_stream [4, 4, 4, 4] =
        some rs ∧ rs.length = 4 ∧
      (rs.map ReadResult.pv).flatten = sample_content.take 16 ∧
      (sample_content.length ≤ 16 → (rs.map ReadResult.pv).flatten = sample_content) ∧
      ∀ (j : Nat) (r : ReadResult), rs[j]? = some r →
        r.pcbRead = r.pv.length ∧
        (r.pcbRead = 0 ↔ ((rs.take j).map ReadResult.pcbRead).sum = sample_content.length) :=
  ⟨⟨fun _ _ _ => rfl, fun _ => rfl, fun _ => rfl, rfl, rfl, rfl⟩, rfl, rfl, by decide,
    CliprdrStream_Read_reproduces_content (sample_channel sample_content) sample_content
      wf_cliprdr_init sample_stream [4, 4, 4, 4]
      ⟨fun _ _ _ => rfl, fun _ => rfl, fun _ => rfl, rfl, rfl, rfl⟩ rfl (by decide) rfl
      (by decide)⟩

/-- Counterexample to C7: on a stream of ten bytes at offset 0, `CliprdrStream_Seek` with
origin End and move 0 returns `E_FAIL`, and the following read of 4 bytes returns the
first four bytes with `S_OK`. -/
theorem seek_end_then_read_returns_data :
    (CliprdrStream_Seek sample_stream 0 STREAM_SEEK_END).hr = E_FAIL ∧
    (CliprdrStream_Read (sample_channel sample_content) wf_cliprdr_init
      (CliprdrStream_Seek sample_stream 0 STREAM_SEEK_END).stream 4).result.map
        (fun r => (r.hr, r.pcbRead, r.pv)) = some (S_OK, 4, [10, 11, 12, 13]) := by
  decide

/-- C7 (amended): for every stream, `CliprdrStream_Seek` with origin End and move 0 returns
`E_FAIL` and leaves the stream as it was; the following `CliprdrStream_Read` of any
length returns 0 bytes with `S_FALSE`, sending nothing, when the offset of the stream is
already at or past its total size (as it is for every empty stream). -/
theorem CliprdrStream_Seek_end_rejected (This : CliprdrStream) (h64 : This.m_lSize < 2 ^ 64) :
    CliprdrStream_Seek This 0 STREAM_SEEK_END =
      { hr := E_FAIL, plibNewPosition := none, stream := This } ∧
    ∀ (ch : Channel) (clipboard : wfClipboard) (cb : Nat), This.m_lSize ≤ This.m_lOffset →
      CliprdrStream_Read ch clipboard (CliprdrStream_Seek This 0 STREAM_SEEK_END).stream cb =
        { requests := [],
          result := some { hr := S_FALSE, pcbRead := 0, pv := [], stream := This,
                           clipboard := clipboard } } := by
  have hseek : CliprdrStream_Seek This 0 STREAM_SEEK_END =
      { hr := E_FAIL, plibNewPosition := none, stream := This } := by
    simp [CliprdrStream_Seek, CliprdrStream_Seek_newoffset, STREAM_SEEK_END, STREAM_SEEK_SET,
      STREAM_SEEK_CUR]
    omega
  refine ⟨hseek, ?_⟩
  intro ch clipboard cb hle
  rw [hseek]
  exact CliprdrStream_Read_at_end ch clipboard This cb hle

/-- Witness of the amended C7 on an empty stream. -/
theorem CliprdrStream_Seek_end_rejected_witness :
    (0 : Nat) < 2 ^ 64 ∧
    CliprdrStream_Seek { sample_stream with m_lSize := 0 } 0 STREAM_SEEK_END =
      { hr := E_FAIL, plibNewPosition := none, stream := { sample_stream with m_lSize := 0 } } ∧
    ∀ (ch : Channel) (clipboard : wfClipboard) (cb : Nat),
      ({ sample_stream with m_lSize := 0 } : CliprdrStream).m_lSize ≤
        ({ sample_stream with m_lSize := 0 } : CliprdrStream).m_lOffset →
      CliprdrStream_Read ch clipboard
          (CliprdrStream_Seek { sample_stream with m_lSize := 0 } 0 STREAM_SEEK_END).stream cb =
        { requests := [],
          result := some { hr := S_FALSE, pcbRead := 0, pv := [],
                           stream := { sample_stream with m_lSize := 0 },
                           clipboard := clipboard } } :=
  ⟨by decide, CliprdrStream_Seek_end_rejected { sample_stream with m_lSize := 0 } (by decide)⟩

/-- Counterexample to C8: on a stream of total size 10 at offset 3 a seek to the absolute
position 10 returns `E_FAIL` (which is not `E_INVALIDARG`) and leaves the offset at 3. -/
theorem seek_to_total_size_rejected :
    CliprdrStream_Seek { sample_stream with m_lOffset := 3 } 10 STREAM_SEEK_SET =
      { hr := E_FAIL, plibNewPosition := none,
        stream := { sample_stream with m_lOffset := 3 } } ∧
    (10 : Int) ≤ (({ sample_stream with m_lOffset := 3 } : CliprdrStream).m_lSize : Int) ∧
    E_FAIL ≠ E_INVALIDARG := by
  decide

/-- C8 (amended): for every stream, every origin among Set, Current, End (with base 0, the
offset, the total size) and every move, the target is `base + move` reduced modulo
`2 ^ 64` (so it is `base + move` itself when that lies in `0 .. 2 ^ 64 - 1`); when the
target is below the total size `CliprdrStream_Seek` returns `S_OK`, stores the target as
the offset and reports it; when the target is at or beyond the total size it returns
`E_FAIL` and leaves the stream as it was. -/
theorem CliprdrStream_Seek_spec (This : CliprdrStream) (dlibMove : Int) (dwOrigin base : Nat)
    (horigin : (dwOrigin = STREAM_SEEK_SET ∧ base = 0) ∨
      (dwOrigin = STREAM_SEEK_CUR ∧ base = This.m_lOffset) ∨
      (dwOrigin = STREAM_SEEK_END ∧ base = This.m_lSize)) :
    ((((base : Int) + dlibMove) % 2 ^ 64).toNat < This.m_lSize →
      CliprdrStream_Seek This dlibMove dwOrigin =
        { hr := S_OK,
          plibNewPosition := some (((base : Int) + dlibMove) % 2 ^ 64).toNat,
          stream := { This with m_lOffset := (((base : Int) + dlibMove) % 2 ^ 64).toNat } }) ∧
    (This.m_lSize ≤ (((base : Int) + dlibMove) % 2 ^ 64).toNat →
      CliprdrStream_Seek This dlibMove dwOrigin =
        { hr := E_FAIL, plibNewPosition := none, stream := This }) ∧
    (0 ≤ (base : Int) + dlibMove → (base : Int) + dlibMove < 2 ^ 64 →
      (((((base : Int) + dlibMove) % 2 ^ 64).toNat : Nat) : Int) = (base : Int) + dlibMove) := by
  have hnew : CliprdrStream_Seek_newoffset This dlibMove dwOrigin =
      some (((base : Int) + dlibMove) % 2 ^ 64).toNat := by
    rcases horigin with ⟨h1, h2⟩ | ⟨h1, h2⟩ | ⟨h1, h2⟩
    · subst h1 h2
      simp [CliprdrStream_Seek_newoffset]
    · subst h1 h2
      simp [CliprdrStream_Seek_newoffset, STREAM_SEEK_CUR, STREAM_SEEK_SET]
    · subst h1 h2
      simp [CliprdrStream_Seek_newoffset, STREAM_SEEK_CUR, STREAM_SEEK_SET, STREAM_SEEK_END]
  refine ⟨?_, ?_, ?_⟩
  · intro hlt
    have hnot : ¬ (This.m_lSize ≤ (((base : Int) + dlibMove) % 2 ^ 64).toNat) := by omega
    simp only [CliprdrStream_Seek, hnew]
    rw [if_neg (by omega)]
  · intro hge
    simp only [CliprdrStream_Seek, hnew]
    rw [if_pos (Or.inr hge)]
  · intro h0 h1
    omega

/-- Witness of the amended C8: a backward seek by 5 from offset 7. -/
theorem CliprdrStream_Seek_spec_witness :
    ((STREAM_SEEK_CUR = STREAM_SEEK_SET ∧ (7 : Nat) = 0) ∨
      (STREAM_SEEK_CUR = STREAM_SEEK_CUR ∧
        7 = ({ sample_stream with m_lOffset := 7 } : CliprdrStream).m_lOffset) ∨
      (STREAM_SEEK_CUR = STREAM_SEEK_END ∧
        7 = ({ sample_stream with m_lOffset := 7 } : CliprdrStream).m_lSize)) ∧
    CliprdrStream_Seek { sample_stream with m_lOffset := 7 } (-5) STREAM_SEEK_CUR =
      { hr := S_OK, plibNewPosition := some 2,
        stream := { sample_stream with m_lOffset := 2 } } :=
  ⟨Or.inr (Or.inl ⟨rfl, rfl⟩),
    (CliprdrStream_Seek_spec { sample_stream with m_lOffset := 7 } (-5) STREAM_SEEK_CUR 7
      (Or.inr (Or.inl ⟨rfl, rfl⟩))).1 (by decide)⟩

/-- C9: for every stream whose offset is at or past its total size, `CliprdrStream_Read`
with any length returns `S_FALSE` with 0 bytes read, sends no file contents request and
leaves the stream (its offset) and the bridge unchanged. -/
theorem CliprdrStream_Read_end_of_stream (ch : Channel) (clipboard : wfClipboard)
    (This : CliprdrStream) (cb : Nat) (h : This.m_lOffset ≥ This.m_lSize) :
    CliprdrStream_Read ch clipboard This cb =
      { requests := [],
        result := some { hr := S_FALSE, pcbRead := 0, pv := [], stream := This,
                         clipboard := clipboard } } :=
  CliprdrStream_Read_at_end ch clipboard This cb h

/-- Witness of C9: a read at offset 10 of a stream of total size 10. -/
theorem CliprdrStream_Read_end_of_stream_witness :
    ({ sample_stream with m_lOffset := 10 } : CliprdrStream).m_lOffset ≥
      ({ sample_stream with m_lOffset := 10 } : CliprdrStream).m_lSize ∧
    CliprdrStream_Read (sample_channel sample_content) wf_cliprdr_init
        { sample_stream with m_lOffset := 10 } 4 =
      { requests := [],
        result := some { hr := S_FALSE, pcbRead := 0, pv := [],
                         stream := { sample_stream with m_lOffset := 10 },
                         clipboard := wf_cliprdr_init } } :=
  ⟨by decide,
    CliprdrStream_Read_end_of_stream (sample_channel sample_content) wf_cliprdr_init
      { sample_stream with m_lOffset := 10 } 4 (by decide)⟩

/-- Counterexample to C10: at offset 4 of a stream of total size 10 a read of length 100
requests 100 bytes, not the 6 that remain. -/
theorem read_requests_unclamped_length :
    ({ sample_stream with m_lOffset := 4 } : CliprdrStream).m_lOffset <
      ({ sample_stream with m_lOffset := 4 } : CliprdrStream).m_lSize ∧
    (CliprdrStream_Read (sample_channel sample_content) wf_cliprdr_init
      { sample_stream with m_lOffset := 4 } 100).requests.map
        CLIPRDR_FILE_CONTENTS_REQUEST.cbRequested = [100] ∧
    min 100 (({ sample_stream with m_lOffset := 4 } : CliprdrStream).m_lSize -
      ({ sample_stream with m_lOffset := 4 } : CliprdrStream).m_lOffset) = 6 := by
  decide

/-- C10 (amended): for every stream with offset below its total size and every length `cb`,
`CliprdrStream_Read` sends exactly one request: a range request for the list index of the
stream, at the position of the offset (low and high halves), for `cb` bytes. -/
theorem CliprdrStream_Read_request (ch : Channel) (clipboard : wfClipboard)
    (This : CliprdrStream) (cb : Nat) (hlt : This.m_lOffset < This.m_lSize) :
    (CliprdrStream_Read ch clipboard This cb).requests =
      [{ streamId := This.address % 2 ^ 32,
         listIndex := This.m_lIndex,
         dwFlags := FILECONTENTS_RANGE,
         nPositionLow := This.m_lOffset % 2 ^ 32,
         nPositionHigh := (This.m_lOffset / 2 ^ 32) % 2 ^ 32,
         cbRequested := cb,
         clipDataId := 0,
         msgFlags := 0 }] ∧
    (This.m_lSize < 2 ^ 64 →
      (This.m_lOffset / 2 ^ 32) % 2 ^ 32 * 2 ^ 32 + This.m_lOffset % 2 ^ 32 =
        This.m_lOffset) := by
  have hnot : ¬ This.m_lOffset ≥ This.m_lSize := by omega
  refine ⟨?_, ?_⟩
  · simp only [CliprdrStream_Read, hnot, if_false, cliprdr_send_request_filecontents]
  · intro h64
    omega

/-- Witness of the amended C10: the request of a read of length 100 at offset 4. -/
theorem CliprdrStream_Read_request_witness :
    ({ sample_stream with m_lOffset := 4 } : CliprdrStream).m_lOffset <
      ({ sample_stream with m_lOffset := 4 } : CliprdrStream).m_lSize ∧
    (CliprdrStream_Read (sample_channel sample_content) wf_cliprdr_init
        { sample_stream with m_lOffset := 4 } 100).requests =
      [{ streamId := 0x5000, listIndex := 3, dwFlags := FILECONTENTS_RANGE,
         nPositionLow := 4, nPositionHigh := 0, cbRequested := 100,
         clipDataId := 0, msgFlags := 0 }] :=
  ⟨by decide,
    (CliprdrStream_Read_request (sample_channel sample_content) wf_cliprdr_init
      { sample_stream with m_lOffset := 4 } 100 (by decide)).1⟩

/-! ## Lazy file stream: answered, refused and failed requests -/

/-- C11: for every `CliprdrStream_Read` of `cb` bytes with offset below the total size
whose request is answered with the `k` bytes `requestedData` (the response arrives with
`CB_RESPONSE_OK`, its buffer is allocated, the event is set and reset, the wait and the
send do not fail). When `k <= cb` the call returns, reports `k` bytes read, copies
exactly those bytes, increases the offset by `k` (in 64-bit arithmetic, so by exactly `k`
when the sum fits), returns `S_FALSE` when `k < cb` and `S_OK` otherwise, and leaves
total size and list index unchanged. When `cb < k` the `k` bytes are written at `pv`
all the same and reported in `*pcbRead`: more bytes than the `cb` bytes the caller
provided there, so `k - cb` of them are written behind the caller's buffer. -/
theorem CliprdrStream_Read_answered (ch : Channel) (clipboard : wfClipboard)
    (This : CliprdrStream) (cb : Nat) (response : CLIPRDR_FILE_CONTENTS_RESPONSE)
    (hlt : This.m_lOffset < This.m_lSize)
    (hpeer : ∀ request ∈ (CliprdrStream_Read ch clipboard This cb).requests,
      ch.peer request = some response)
    (hok : response.msgFlags = CB_RESPONSE_OK)
    (hsend : ∀ request ∈ (CliprdrStream_Read ch clipboard This cb).requests,
      ch.ClientFileContentsRequest request % 2 ^ 32 < 2 ^ 31)
    (hmalloc : ch.malloc response.requestedData.length = true)
    (hset : ch.SetEvent = true) (hreset : ch.ResetEvent = true)
    (hwait : ch.WaitFailed = false) :
    (response.requestedData.length ≤ cb →
      ∃ r, (CliprdrStream_Read ch clipboard This cb).result = some r ∧
        r.pcbRead = response.requestedData.length ∧
        r.pv = response.requestedData ∧
        r.stream.m_lOffset = (This.m_lOffset + response.requestedData.length) % 2 ^ 64 ∧
        (This.m_lOffset + response.requestedData.length < 2 ^ 64 →
          r.stream.m_lOffset = This.m_lOffset + response.requestedData.length) ∧
        r.hr = (if response.requestedData.length < cb then S_FALSE else S_OK) ∧
        r.stream.m_lSize = This.m_lSize ∧ r.stream.m_lIndex = This.m_lIndex) ∧
    (cb < response.requestedData.length →
      ∃ r, (CliprdrStream_Read ch clipboard This cb).result = some r ∧
        r.pcbRead = response.requestedData.length ∧
        cb < r.pv.length ∧ r.pv.length - cb = response.requestedData.length - cb) := by
  have hnot : ¬ This.m_lOffset ≥ This.m_lSize := by omega
  simp only [CliprdrStream_Read, hnot, if_false, cliprdr_send_request_filecontents,
    List.mem_singleton, forall_eq] at hpeer hsend
  have hnneg : ¬ (ch.ClientFileContentsRequest
      { streamId := This.address % 2 ^ 32, listIndex := This.m_lIndex,
        dwFlags := FILECONTENTS_RANGE, nPositionLow := This.m_lOffset % 2 ^ 32,
        nPositionHigh := This.m_lOffset / 2 ^ 32 % 2 ^ 32, cbRequested := cb,
        clipDataId := 0, msgFlags := 0 } % 2 ^ 32 ≥ 2 ^ 31) := by omega
  simp only [CliprdrStream_Read, hnot, if_false, cliprdr_send_request_filecontents, hpeer,
    wf_cliprdr_server_file_contents_response, hok, CLIPRDR_FILE_CONTENTS_RESPONSE.cbRequested,
    hmalloc, hset, hreset, hwait, ne_eq, not_true_eq_false, Bool.not_true, Bool.false_eq_true,
    if_true, Option.map_some', hnneg, List.take_length]
  refine ⟨fun _ => ⟨_, rfl, rfl, rfl, rfl, ?_, rfl, rfl, rfl⟩,
    fun hover => ⟨_, rfl, rfl, hover, rfl⟩⟩
  intro h
  exact Nat.mod_eq_of_lt h

/-- Witness of C11: a read of 4 bytes at offset 0 of the served sample stream, and a read
of 2 bytes at offset 4 of the sample stream that the peer answers with 8 bytes. -/
theorem CliprdrStream_Read_answered_witness :
    sample_stream.m_lOffset < sample_stream.m_lSize ∧
    (∃ r, (CliprdrStream_Read (sample_channel sample_content) wf_cliprdr_init sample_stream
        4).result = some r ∧
      r.pcbRead = 4 ∧
      r.pv = [10, 11, 12, 13] ∧
      r.stream.m_lOffset = (sample_stream.m_lOffset + 4) % 2 ^ 64 ∧
      (sample_stream.m_lOffset + 4 < 2 ^ 64 → r.stream.m_lOffset = sample_stream.m_lOffset + 4) ∧
      r.hr = (if 4 < 4 then S_FALSE else S_OK) ∧
      r.stream.m_lSize = sample_stream.m_lSize ∧ r.stream.m_lIndex = sample_stream.m_lIndex) ∧
    (∃ r, (CliprdrStream_Read overlong_channel wf_cliprdr_init
        { sample_stream with m_lOffset := 4 } 2).result = some r ∧
      r.pcbRead = 8 ∧ 2 < r.pv.length ∧ r.pv.length - 2 = 8 - 2) :=
  ⟨by decide,
    (CliprdrStream_Read_answered (sample_channel sample_content) wf_cliprdr_init sample_stream 4
      { msgFlags := CB_RESPONSE_OK, streamId := 0x5000, requestedData := [10, 11, 12, 13] }
      (by decide) (by decide) rfl (by decide) rfl rfl rfl rfl).1 (by decide),
    (CliprdrStream_Read_answered overlong_channel wf_cliprdr_init
      { sample_stream with m_lOffset := 4 } 2
      { msgFlags := CB_RESPONSE_OK, streamId := 0x5000,
        requestedData := [1, 2, 3, 4, 5, 6, 7, 8] }
      (by decide) (by decide) rfl (by decide) rfl rfl rfl rfl).2 (by decide)⟩

/-- C14, the code at the failing input: a response with `CB_RESPONSE_FAIL` makes
`wf_cliprdr_server_file_contents_response` return `E_FAIL` with the bridge as it was,
`req_fevent` not signalled; the request that waits for it never returns. -/
theorem failure_response_leaves_request_blocked :
    wf_cliprdr_server_file_contents_response refusing_channel wf_cliprdr_init
        { msgFlags := CB_RESPONSE_FAIL, streamId := 0x5000, requestedData := [] } =
      (E_FAIL, wf_cliprdr_init) ∧
    wf_cliprdr_init.req_fevent = false ∧
    (cliprdr_send_request_filecontents refusing_channel wf_cliprdr_init 0x5000 3
      FILECONTENTS_RANGE 0 4).result = none ∧
    (CliprdrStream_Read refusing_channel wf_cliprdr_init sample_stream 4).result = none := by
  decide

/-- C15, the code at the failing input: the request returns `ERROR_INTERNAL_ERROR` (here
because `ResetEvent` fails), and `CliprdrStream_Read` returns `S_OK`, reports 4 bytes and
advances the offset to 4. -/
theorem read_ignores_positive_error_status :
    (cliprdr_send_request_filecontents (reset_failing_channel sample_content) wf_cliprdr_init
      sample_stream.address sample_stream.m_lIndex FILECONTENTS_RANGE 0 4).result.map
        (fun r => r.1) = some ERROR_INTERNAL_ERROR ∧
    ERROR_INTERNAL_ERROR ≠ 0 ∧
    (CliprdrStream_Read (reset_failing_channel sample_content) wf_cliprdr_init sample_stream
      4).result.map (fun r => (r.hr, r.pcbRead, r.stream.m_lOffset)) = some (S_OK, 4, 4) := by
  decide

/-! ## Format registry: what the rebuild publishes -/

/-- C12: for every data object and every `GetData` request that matches its file contents
format, with list index `lindex`, `CliprdrDataObject_GetData` sends nothing and does one
of three things. When `0 <= lindex < m_nStreams` and the array holds the stream made for
that index, it returns `S_OK` with that stream as the medium, its reference count
incremented by exactly one, every other stream and the bridge unchanged. When
`0 <= lindex < m_nStreams` and the object has no array, or the array ends before that
index, or holds a NULL pointer there, the call reads outside the array or calls `AddRef`
through the NULL pointer: it does not return `E_INVALIDARG`. When the index is negative
or not below `m_nStreams` (as before any stream was made, when `m_nStreams = 0`) it
returns `E_INVALIDARG` and leaves the object, and so every reference count, unchanged. -/
theorem CliprdrDataObject_GetData_file_contents (env : Platform) (ch : Channel)
    (clipboard : wfClipboard) (This : CliprdrDataObject) (pFormatEtc format : FORMATETC)
    (idx : Nat) (hidx : cliprdr_lookup_format This pFormatEtc = (idx : Int))
    (hformat : This.m_pFormatEtc[idx]? = some format)
    (hcontents : format.cfFormat = env.RegisterClipboardFormatW CFSTR_FILECONTENTS)
    (hother : format.cfFormat ≠ env.RegisterClipboardFormatW CFSTR_FILEDESCRIPTORW) :
    (∀ (streams : List (Option CliprdrStream)) (stream : CliprdrStream),
      0 ≤ pFormatEtc.lindex → pFormatEtc.lindex.toNat < This.m_nStreams →
      This.m_pStream = some streams → streams[pFormatEtc.lindex.toNat]? = some (some stream) →
      CliprdrDataObject_GetData env ch clipboard This pFormatEtc =
        { sent := [],
          result := Outcome.done
            { hr := S_OK,
              pMedium := { tymed := format.tymed,
                           u := MediumValue.pstm
                             { stream with m_lRefCount := stream.m_lRefCount + 1 } },
              This := { This with
                m_pStream := some (streams.set pFormatEtc.lindex.toNat
                  (some { stream with m_lRefCount := stream.m_lRefCount + 1 })) },
              clipboard := clipboard } }) ∧
    (0 ≤ pFormatEtc.lindex → pFormatEtc.lindex.toNat < This.m_nStreams →
      (This.m_pStream = none ∨
        ∃ streams, This.m_pStream = some streams ∧
          (streams[pFormatEtc.lindex.toNat]? = none ∨
            streams[pFormatEtc.lindex.toNat]? = some none)) →
      CliprdrDataObject_GetData env ch clipboard This pFormatEtc =
        { sent := [], result := Outcome.fault }) ∧
    (¬ (0 ≤ pFormatEtc.lindex ∧ pFormatEtc.lindex.toNat < This.m_nStreams) →
      CliprdrDataObject_GetData env ch clipboard This pFormatEtc =
        { sent := [],
          result := Outcome.done
            { hr := E_INVALIDARG,
              pMedium := { tymed := format.tymed, u := MediumValue.unset },
              This := This, clipboard := clipboard } }) := by
  have hne : ¬ ((idx : Int) = -1) := by omega
  have hbranch : CliprdrDataObject_GetData env ch clipboard This pFormatEtc =
      CliprdrDataObject_GetData_contents clipboard This format pFormatEtc.lindex := by
    simp only [CliprdrDataObject_GetData, hidx, hne, if_false, Int.toNat_ofNat, hformat]
    rw [if_neg hother, if_pos hcontents]
  refine ⟨?_, ?_, ?_⟩
  · intro streams stream h0 hlt hstreams hstream
    rw [hbranch]
    simp only [CliprdrDataObject_GetData_contents, h0, hlt, and_self, if_true, hstreams,
      hstream, CliprdrStream_AddRef]
  · intro h0 hlt hmissing
    rw [hbranch]
    rcases hmissing with hnone | ⟨streams, hstreams, hend | hnull⟩
    · simp only [CliprdrDataObject_GetData_contents, h0, hlt, and_self, if_true, hnone]
    · simp only [CliprdrDataObject_GetData_contents, h0, hlt, and_self, if_true, hstreams,
        hend]
    · simp only [CliprdrDataObject_GetData_contents, h0, hlt, and_self, if_true, hstreams,
        hnull]
  · intro hout
    rw [hbranch]
    simp only [CliprdrDataObject_GetData_contents, hout, if_false]

set_option maxRecDepth 100000 in
/-- Witness of C12: the request for list index 1 of a data object with three streams; the
request for list index 2 of the data object that a descriptor list of two files followed
by a descriptor list of three files leaves, with `m_nStreams = 3` and an array of two
streams; and the request for list index 0 of a data object fresh from
`wf_create_file_obj`. -/
theorem CliprdrDataObject_GetData_file_contents_witness :
    cliprdr_lookup_format sample_data_object (file_contents_FORMATETC sample_platform 1) =
      ((1 : Nat) : Int) ∧
    sample_data_object.m_pFormatEtc[1]? =
      some { cfFormat := 0xC00C, dwAspect := DVASPECT_CONTENT, lindex := 0,
             tymed := TYMED_ISTREAM } ∧
    (CliprdrDataObject_GetData sample_platform (sample_channel []) wf_cliprdr_init
        sample_data_object (file_contents_FORMATETC sample_platform 1)).result =
      Outcome.done
        { hr := S_OK,
          pMedium := { tymed := TYMED_ISTREAM,
                       u := MediumValue.pstm { address := 0x5100, m_lRefCount := 2,
                                               m_lIndex := 1, m_lSize := 1, m_lOffset := 0 } },
          This := { sample_data_object with
            m_pStream := some [some { address := 0x5000, m_lRefCount := 1, m_lIndex := 0,
                                      m_lSize := 1, m_lOffset := 0 },
                               some { address := 0x5100, m_lRefCount := 2, m_lIndex := 1,
                                      m_lSize := 1, m_lOffset := 0 },
                               some { address := 0x5200, m_lRefCount := 1, m_lIndex := 2,
                                      m_lSize := 1, m_lOffset := 0 }] },
          clipboard := wf_cliprdr_init } ∧
    (get_data_all sample_platform
        [(descriptor_channel 2, file_descriptor_FORMATETC sample_platform),
         (descriptor_channel 3, file_descriptor_FORMATETC sample_platform)]
        wf_cliprdr_init (wf_create_file_obj sample_platform)).returned.map
        (fun rs => rs.map (fun (r : GetDataResult) => (r.hr, r.This))) =
      some [(S_OK, { recounted_data_object with m_nStreams := 2 }),
            (S_OK, recounted_data_object)] ∧
    CliprdrDataObject_GetData sample_platform (sample_channel []) wf_cliprdr_init
        recounted_data_object (file_contents_FORMATETC sample_platform 2) =
      { sent := [], result := Outcome.fault } ∧
    (CliprdrDataObject_GetData sample_platform (sample_channel []) wf_cliprdr_init
        (wf_create_file_obj sample_platform) (file_contents_FORMATETC sample_platform 0)).result =
      Outcome.done
        { hr := E_INVALIDARG,
          pMedium := { tymed := TYMED_ISTREAM, u := MediumValue.unset },
          This := wf_create_file_obj sample_platform, clipboard := wf_cliprdr_init } :=
  ⟨by decide, by decide,
    by
      rw [(CliprdrDataObject_GetData_file_contents sample_platform (sample_channel [])
        wf_cliprdr_init sample_data_object (file_contents_FORMATETC sample_platform 1)
        { cfFormat := 0xC00C, dwAspect := DVASPECT_CONTENT, lindex := 0,
          tymed := TYMED_ISTREAM } 1 (by decide) (by decide) (by decide) (by decide)).1
        _ { address := 0x5100, m_lRefCount := 1, m_lIndex := 1, m_lSize := 1, m_lOffset := 0 }
        (by decide) (by decide) rfl (by decide)]
      decide,
    by decide,
    (CliprdrDataObject_GetData_file_contents sample_platform (sample_channel [])
      wf_cliprdr_init recounted_data_object (file_contents_FORMATETC sample_platform 2)
      { cfFormat := 0xC00C, dwAspect := DVASPECT_CONTENT, lindex := 0,
        tymed := TYMED_ISTREAM } 1 (by decide) (by decide) (by decide) (by decide)).2.1
      (by decide) (by decide)
      (Or.inr ⟨[some { address := 0x5000, m_lRefCount := 1, m_lIndex := 0, m_lSize := 1,
                       m_lOffset := 0 },
                some { address := 0x5100, m_lRefCount := 1, m_lIndex := 1, m_lSize := 1,
                       m_lOffset := 0 }], by decide, Or.inl (by decide)⟩),
    by decide⟩

/-! ## Local format list: what is sent -/

/-- The element behind a prefix is at the index of the length of the prefix. -/
theorem getElem?_append_cons_length {α : Type} (a b : List α) (x : α) :
    (a ++ x :: b)[a.length]? = some x := by
  induction a with
  | nil => simp
  | cons y a ih => simpa using ih

/-- Writing at the index of the length of a prefix replaces the element behind it. -/
theorem set_append_cons_length {α : Type} (a b : List α) (x y : α) :
    (a ++ x :: b).set a.length y = a ++ y :: b := by
  induction a with
  | nil => simp
  | cons z a ih => simp [ih]

/-- The enumeration loop writes the enumerated formats behind the entries already
written, when the block has room for them. -/
theorem enumerate_loop_spec (env : Platform) :
    ∀ (fs : List Nat) (previous fuel k : Nat) (written : List CLIPRDR_FORMAT),
      enumeration_from env previous fs → fs.length ≤ k → fs.length < fuel →
      enumerate_loop env fuel previous written.length
          (written ++ List.replicate k { formatId := 0, formatName := none }) =
        some (written.length + fs.length,
          written ++ fs.map (fun f => { formatId := f, formatName := none }) ++
            List.replicate (k - fs.length) { formatId := 0, formatName := none }) := by
  intro fs
  induction fs with
  | nil =>
    intro previous fuel k written henum _ hfuel
    obtain ⟨n, rfl⟩ : ∃ n, fuel = n + 1 := ⟨fuel - 1, by simp at hfuel; omega⟩
    simp only [enumeration_from] at henum
    simp [enumerate_loop, henum]
  | cons f fs ih =>
    intro previous fuel k written henum hk hfuel
    obtain ⟨n, rfl⟩ : ∃ n, fuel = n + 1 := ⟨fuel - 1, by simp at hfuel; omega⟩
    obtain ⟨j, rfl⟩ : ∃ j, k = j + 1 := ⟨k - 1, by simp at hk; omega⟩
    simp only [enumeration_from] at henum
    obtain ⟨hnext, hf, hrest⟩ := henum
    have hset : set_formatId
        (written ++ List.replicate (j + 1) { formatId := 0, formatName := none })
        written.length f =
        some ((written ++ [{ formatId := f, formatName := none }]) ++
          List.replicate j { formatId := 0, formatName := none }) := by
      simp only [set_formatId, List.replicate_succ, getElem?_append_cons_length,
        set_append_cons_length, List.append_assoc, List.singleton_append]
    have hstep := ih f n j (written ++ [{ formatId := f, formatName := none }]) hrest
      (by simp at hk; omega) (by simp at hfuel; omega)
    simp only [List.length_append, List.length_singleton] at hstep
    simp only [enumerate_loop, hnext, hf, if_false, hset, hstep]
    simp [Nat.add_assoc, Nat.add_comm 1]

/-- The naming loop names the entries from `index` on, one per iteration. -/
theorem name_loop_spec (env : Platform) :
    ∀ (todo finished rest : List CLIPRDR_FORMAT),
      (∀ f ∈ todo, f.formatName = none) →
      name_loop env todo.length finished.length (finished ++ (todo ++ rest)) =
        some (finished ++ (todo.map (fun f => named_format env f.formatId) ++ rest)) := by
  intro todo
  induction todo with
  | nil => intro finished rest _; simp [name_loop]
  | cons f todo ih =>
    intro finished rest hnone
    have hf : f.formatName = none := hnone f (List.mem_cons_self _ _)
    have hnamed : named_format env f.formatId =
        match env.GetClipboardFormatNameA f.formatId with
        | none => f
        | some formatName => { f with formatName := env._strdup formatName } := by
      cases f with
      | mk formatId formatName =>
        simp only at hf
        subst hf
        simp only [named_format]
        cases env.GetClipboardFormatNameA formatId <;> rfl
    have hstep := ih (finished ++ [named_format env f.formatId]) rest
      (fun g hg => hnone g (List.mem_cons_of_mem _ hg))
    simp only [List.length_append, List.length_singleton, List.append_assoc,
      List.singleton_append] at hstep
    simp only [List.length_cons, name_loop, List.cons_append, getElem?_append_cons_length,
      List.map_cons]
    cases hname : env.GetClipboardFormatNameA f.formatId with
    | none =>
      rw [hname] at hnamed
      simp only at hnamed
      rw [hnamed] at hstep
      simp only [hnamed]
      exact hstep
    | some formatName =>
      rw [hname] at hnamed
      simp only at hnamed
      simp only [set_append_cons_length, hnamed]
      rw [hnamed] at hstep
      exact hstep

/-- C20: `cliprdr_send_format_list` on a local clipboard that can be opened, whose block
of `CountClipboardFormats()` elements is allocated and that can be closed again. With
`CF_HDROP` available on a clipboard of fewer than two formats (a file selection alone)
the two file transfer formats are written outside the block and no format list is sent;
on a clipboard of at least two formats the one PDU sent is a format list that holds
exactly the file descriptor list format followed by the file contents format. Without
`CF_HDROP` it holds exactly the formats `fs` that the clipboard enumerates, in that
order; each format with the name `GetClipboardFormatNameA` gives for it. The status
returned is the status of the send. -/
theorem cliprdr_send_format_list_formats (env : Platform) (ch : Channel)
    (hopen : try_open_clipboard env = true)
    (hcount : env.CountClipboardFormats < 2 ^ 32)
    (hcalloc : env.calloc env.CountClipboardFormats = true)
    (hclose : env.CloseClipboard = true) :
    (env.IsClipboardFormatAvailable CF_HDROP = true → env.CountClipboardFormats < 2 →
      cliprdr_send_format_list env ch = { sent := [], result := Outcome.fault }) ∧
    (env.IsClipboardFormatAvailable CF_HDROP = true → 2 ≤ env.CountClipboardFormats →
      cliprdr_send_format_list env ch =
        { sent := [ClientPdu.FormatList
            { formats :=
                [named_format env (env.RegisterClipboardFormatW CFSTR_FILEDESCRIPTORW),
                 named_format env (env.RegisterClipboardFormatW CFSTR_FILECONTENTS)] }],
          result := Outcome.done (ch.ClientFormatList
            { formats :=
                [named_format env (env.RegisterClipboardFormatW CFSTR_FILEDESCRIPTORW),
                 named_format env (env.RegisterClipboardFormatW CFSTR_FILECONTENTS)] }) }) ∧
    (env.IsClipboardFormatAvailable CF_HDROP = false →
      ∀ fs : List Nat, enumeration_from env 0 fs → fs.length ≤ env.CountClipboardFormats →
        cliprdr_send_format_list env ch =
          { sent := [ClientPdu.FormatList { formats := fs.map (named_format env) }],
            result := Outcome.done
              (ch.ClientFormatList { formats := fs.map (named_format env) }) }) := by
  have hmod : env.CountClipboardFormats % 2 ^ 32 = env.CountClipboardFormats :=
    Nat.mod_eq_of_lt hcount
  refine ⟨?_, ?_, ?_⟩
  · intro hdrop hfew
    have hcases : env.CountClipboardFormats = 0 ∨ env.CountClipboardFormats = 1 := by omega
    simp only [cliprdr_send_format_list, hopen, if_true, hmod, hcalloc, Bool.not_true,
      Bool.false_eq_true, if_false, hdrop]
    rcases hcases with h0 | h1
    · simp [h0, set_formatId]
    · simp [h1, set_formatId]
  · intro hdrop htwo
    obtain ⟨j, hj⟩ : ∃ j, env.CountClipboardFormats = j + 2 :=
      ⟨env.CountClipboardFormats - 2, by omega⟩
    have hnames := name_loop_spec env
      [{ formatId := env.RegisterClipboardFormatW CFSTR_FILEDESCRIPTORW, formatName := none },
       { formatId := env.RegisterClipboardFormatW CFSTR_FILECONTENTS, formatName := none }]
      [] (List.replicate j { formatId := 0, formatName := none })
      (by intro f hf; simp only [List.mem_cons, List.mem_singleton, List.mem_nil_iff,
            or_false] at hf; rcases hf with rfl | rfl <;> rfl)
    simp only [List.length_cons, List.length_nil, List.nil_append, List.cons_append,
      List.map_cons, List.map_nil] at hnames
    simp only [Nat.zero_add, Nat.reduceAdd] at hnames
    simp only [cliprdr_send_format_list, hopen, if_true, hmod, hcalloc, Bool.not_true,
      Bool.false_eq_true, if_false, hdrop, hclose]
    simp only [hj, List.replicate_succ, set_formatId, List.getElem?_cons_zero,
      List.set_cons_zero, List.getElem?_cons_succ, List.set_cons_succ, hnames]
    simp
  · intro hdrop fs henum hlen
    have hloop := enumerate_loop_spec env fs 0 (env.CountClipboardFormats + 1)
      env.CountClipboardFormats [] henum hlen (by omega)
    simp only [List.length_nil, List.nil_append, Nat.zero_add] at hloop
    have hnames := name_loop_spec env
      (fs.map (fun f => ({ formatId := f, formatName := none } : CLIPRDR_FORMAT)))
      [] (List.replicate (env.CountClipboardFormats - fs.length)
        { formatId := 0, formatName := none })
      (by intro f hf; simp only [List.mem_map] at hf; obtain ⟨g, _, rfl⟩ := hf; rfl)
    simp only [List.length_map, List.length_nil, List.nil_append, List.map_map] at hnames
    simp only [cliprdr_send_format_list, hopen, if_true, hmod, hcalloc, Bool.not_true,
      Bool.false_eq_true, if_false, hdrop, hclose, hloop, hnames]
    have htake : List.take fs.length
        (List.map ((fun f => named_format env f.formatId) ∘
            fun f => ({ formatId := f, formatName := none } : CLIPRDR_FORMAT)) fs ++
          List.replicate (env.CountClipboardFormats - fs.length)
            { formatId := 0, formatName := none }) = fs.map (named_format env) := by
      rw [List.take_append_of_le_length (by simp)]
      rw [List.take_of_length_le (by simp)]
      rfl
    rw [htake]

/-- Witness of C20: a clipboard that holds a file selection as its only format, a
clipboard that holds a file selection among three formats, and a clipboard that holds a
text format, a registered format and a bitmap. -/
theorem cliprdr_send_format_list_formats_witness :
    cliprdr_send_format_list (clipboard_holding [CF_HDROP]) (sample_channel []) =
      { sent := [], result := Outcome.fault } ∧
    (cliprdr_send_format_list (clipboard_holding [0xC00A, CF_HDROP, 49]) (sample_channel [])).sent =
      [ClientPdu.FormatList
        { formats := [{ formatId := 0xC014, formatName := some "FileGroupDescriptorW" },
                      { formatId := 0xC00C, formatName := some "FileContents" }] }] ∧
    (cliprdr_send_format_list (clipboard_holding [13, 0xC00A, 2]) (sample_channel [])).sent =
      [ClientPdu.FormatList
        { formats := [{ formatId := 13, formatName := none },
                      { formatId := 0xC00A, formatName := some "CustomText" },
                      { formatId := 2, formatName := none }] }] :=
  ⟨(cliprdr_send_format_list_formats (clipboard_holding [CF_HDROP])
      (sample_channel []) (by decide) (by decide) (by decide) (by decide)).1
      (by decide) (by decide),
    by
      rw [(cliprdr_send_format_list_formats (clipboard_holding [0xC00A, CF_HDROP, 49])
        (sample_channel []) (by decide) (by decide) (by decide) (by decide)).2.1
        (by decide) (by decide)]
      decide,
    by
      rw [(cliprdr_send_format_list_formats (clipboard_holding [13, 0xC00A, 2])
        (sample_channel []) (by decide) (by decide) (by decide) (by decide)).2.2
        (by decide) [13, 0xC00A, 2]
        ⟨by decide, by decide, by decide, by decide, by decide, by decide,
          show (clipboard_holding [13, 0xC00A, 2]).EnumClipboardFormats 2 = 0 by decide⟩
        (by decide)]
      decide⟩

/-! ## Serving the files of the local clipboard: the flag of the response -/

/-- C16: a request of the peer that `wf_cliprdr_server_file_contents_request` cannot serve
is answered with `CB_RESPONSE_OK`. For every request, bridge and environment the handler
sends nothing (a fault) or one file contents response whose flag is `CB_RESPONSE_OK`;
and with a list index that is not below `nFiles`, with a buffer that cannot be allocated,
and with a local file that cannot be opened, the handler returns `ERROR_INTERNAL_ERROR`
while the response it has sent carries `CB_RESPONSE_OK` and no data. -/
theorem file_contents_failure_answered_with_ok_flag :
    (∀ (env : Platform) (fs : FileSystem) (ole : Ole) (ch : Channel) (clipboard : wfClipboard)
        (cache : StreamCache) (fileContentsRequest : CLIPRDR_FILE_CONTENTS_REQUEST),
      (wf_cliprdr_server_file_contents_request env fs ole ch clipboard cache
          fileContentsRequest).sent = [] ∨
      ∃ requestedData : List Nat,
        (wf_cliprdr_server_file_contents_request env fs ole ch clipboard cache
            fileContentsRequest).sent =
          [ClientPdu.FileContentsResponse
            { msgFlags := CB_RESPONSE_OK, streamId := fileContentsRequest.streamId,
              requestedData := requestedData }]) ∧
    wf_cliprdr_server_file_contents_request sample_platform locked_file_system
        file_selection_ole (sample_channel []) wf_cliprdr_init
        { pStreamStc := none, uStreamIdStc := 0 } (size_request 0) =
      { sent := [ClientPdu.FileContentsResponse
          { msgFlags := CB_RESPONSE_OK, streamId := 7, requestedData := [] }],
        result := Outcome.done (ERROR_INTERNAL_ERROR, { pStreamStc := none, uStreamIdStc := 0 }) } ∧
    wf_cliprdr_server_file_contents_request calloc_failing_platform locked_file_system
        file_selection_ole (sample_channel []) one_file_clipboard
        { pStreamStc := none, uStreamIdStc := 0 } (size_request 0) =
      { sent := [ClientPdu.FileContentsResponse
          { msgFlags := CB_RESPONSE_OK, streamId := 7, requestedData := [] }],
        result := Outcome.done (ERROR_INTERNAL_ERROR, { pStreamStc := none, uStreamIdStc := 0 }) } ∧
    wf_cliprdr_server_file_contents_request sample_platform locked_file_system
        file_selection_ole (sample_channel []) one_file_clipboard
        { pStreamStc := none, uStreamIdStc := 0 } (range_request 0 4) =
      { sent := [ClientPdu.FileContentsResponse
          { msgFlags := CB_RESPONSE_OK, streamId := 7, requestedData := [] }],
        result := Outcome.done (ERROR_INTERNAL_ERROR, { pStreamStc := none, uStreamIdStc := 0 }) } := by
  refine ⟨?_, by decide, by decide, by decide⟩
  intro env fs ole ch clipboard cache fileContentsRequest
  simp only [wf_cliprdr_server_file_contents_request]
  cases wf_cliprdr_server_file_contents_request_body env fs ole clipboard cache
      fileContentsRequest with
  | none => exact Or.inl rfl
  | some atError =>
    simp only [cliprdr_send_response_filecontents]
    by_cases hsize : atError.uSize ≤
        ((if atError.uSize = 0 then none else atError.pData).getD []).length
    · rw [if_pos hsize]
      exact Or.inr ⟨_, rfl⟩
    · rw [if_neg hsize]
      exact Or.inl rfl
/-! ## Harvesting: the records appended -/

/-- The WCHARs of a concatenation are the WCHARs of its parts. -/
theorem wchars_append (a b : String) : wchars (a ++ b) = wchars a ++ wchars b := by
  simp only [wchars, String.data_append, List.flatMap_append]

/-- The length of a concatenation in WCHARs is the sum of the lengths of its parts. -/
theorem wcslen_append (a b : String) : wcslen (a ++ b) = wcslen a + wcslen b := by
  simp only [wcslen, wchars_append, List.length_append]

/-- A string that fits the buffer is copied unchanged. -/
theorem StringCchCopy_fit (cchDest : Nat) (pszSrc : String) (h : wcslen pszSrc < cchDest) :
    StringCchCopy cchDest pszSrc = pszSrc := by
  simp only [StringCchCopy, h, if_true]

/-- A concatenation that fits the buffer is not truncated. -/
theorem StringCchCat_fit (pszDest : String) (cchDest : Nat) (pszSrc : String)
    (h : wcslen (pszDest ++ pszSrc) < cchDest) :
    StringCchCat pszDest cchDest pszSrc = pszDest ++ pszSrc := by
  simp only [StringCchCat, h, if_true]

/-- The path built for an entry of `Dir` is `Dir\name` when that fits. -/
theorem added_path_fit (Dir name : String) (h : wcslen (Dir ++ "\\" ++ name) < MAX_PATH) :
    StringCchCat (StringCchCat (StringCchCopy MAX_PATH Dir) MAX_PATH "\\") MAX_PATH name =
      Dir ++ "\\" ++ name := by
  have h1 : wcslen Dir < MAX_PATH := by
    simp only [wcslen_append] at h
    omega
  have h2 : wcslen (Dir ++ "\\") < MAX_PATH := by
    simp only [wcslen_append] at h ⊢
    omega
  rw [StringCchCopy_fit _ _ h1, StringCchCat_fit _ _ _ h2, StringCchCat_fit _ _ _ h]

/-- The search pattern built for `Dir` is `Dir\*` when that fits. -/
theorem DirSpec_fit (Dir : String) (h : wcslen (Dir ++ "\\*") < MAX_PATH) :
    StringCchCat (StringCchCopy MAX_PATH Dir) MAX_PATH "\\*" = Dir ++ "\\*" := by
  have h1 : wcslen Dir < MAX_PATH := by
    simp only [wcslen_append] at h
    omega
  rw [StringCchCopy_fit _ _ h1, StringCchCat_fit _ _ _ h]

/-- Writing element `n` of a block extends its first `n` elements by that element. -/
theorem take_set_succ {α : Type} (x : α) :
    ∀ (l : List α) (n : Nat), n < l.length → (l.set n x).take (n + 1) = l.take n ++ [x] := by
  intro l
  induction l with
  | nil => intro n h; simp at h
  | cons y l ih =>
    intro n h
    cases n with
    | zero => simp
    | succ n =>
      simp only [List.length_cons] at h
      simp [ih n (by omega)]

/-- Writing element `n` of a block leaves its first `n` elements as they are. -/
theorem take_set_same {α : Type} (x : α) :
    ∀ (l : List α) (n : Nat), (l.set n x).take n = l.take n := by
  intro l
  induction l with
  | nil => intro n; simp
  | cons y l ih =>
    intro n
    cases n with
    | zero => simp
    | succ n => simp [ih n]

/-- A grown block has the new size. -/
theorem grown_length {α : Type} (block : List α) (new_size : Nat) (heap : Nat → α)
    (h : block.length ≤ new_size) : (grown block new_size heap).length = new_size := by
  simp only [grown, List.length_append, List.length_take, List.length_map, List.length_range]
  omega

/-- A grown block keeps the elements of the old block. -/
theorem grown_take {α : Type} (block : List α) (new_size : Nat) (heap : Nat → α) (n : Nat)
    (h : n ≤ block.length) (hn : block.length ≤ new_size) :
    (grown block new_size heap).take n = block.take n := by
  simp only [grown]
  rw [List.take_of_length_le hn, List.take_append_of_le_length h]

/-- With both reallocations succeeding `wf_cliprdr_array_ensure_capacity` leaves room for
one more record and keeps the records. -/
theorem wf_cliprdr_array_ensure_capacity_spec (fs : FileSystem)
    (hfd : ∀ n, fs.realloc_descriptors n = true) (hname : ∀ n, fs.realloc_names n = true)
    (c : wfClipboard) (hc : arrays_allocated c) :
    ∃ ensured, wf_cliprdr_array_ensure_capacity fs c = (true, ensured) ∧
      ensured.nFiles = c.nFiles ∧
      ensured.file_names.length = ensured.file_array_size ∧
      ensured.fileDescriptor.length = ensured.file_array_size ∧
      ensured.nFiles < ensured.file_array_size ∧
      ensured.file_names.take c.nFiles = c.file_names.take c.nFiles ∧
      ensured.fileDescriptor.take c.nFiles = c.fileDescriptor.take c.nFiles := by
  obtain ⟨h1, h2, h3⟩ := hc
  by_cases hfull : c.nFiles = c.file_array_size
  · have hrun : wf_cliprdr_array_ensure_capacity fs c =
        (true, { c with
          fileDescriptor :=
            grown c.fileDescriptor ((c.file_array_size + 1) * 2) fs.heap_descriptor,
          file_names := grown c.file_names ((c.file_array_size + 1) * 2) fs.heap_name,
          file_array_size := (c.file_array_size + 1) * 2 }) := by
      simp only [wf_cliprdr_array_ensure_capacity, hfull, if_true, hfd, hname,
        Bool.not_true, Bool.or_self, Bool.false_eq_true, if_false]
    refine ⟨_, hrun, rfl, ?_, ?_, ?_, ?_, ?_⟩
    · exact grown_length c.file_names _ _ (by omega)
    · exact grown_length c.fileDescriptor _ _ (by omega)
    · show c.nFiles < (c.file_array_size + 1) * 2
      omega
    · exact grown_take c.file_names _ _ _ (by omega) (by omega)
    · exact grown_take c.fileDescriptor _ _ _ (by omega) (by omega)
  · refine ⟨c, by simp only [wf_cliprdr_array_ensure_capacity, hfull, if_false], rfl, h1, h2,
      by omega, rfl, rfl⟩

/-- An entry that can be described is appended as one record: its path and the descriptor
filled for it. -/
theorem wf_cliprdr_add_to_file_arrays_spec (fs : FileSystem)
    (hfd : ∀ n, fs.realloc_descriptors n = true) (hname : ∀ n, fs.realloc_names n = true)
    (c : wfClipboard) (hc : arrays_allocated c) (path : String) (pathLen : Nat)
    (hpath : describable fs path = true) (hlen : pathLen ≤ wcslen path) :
    ∃ added, wf_cliprdr_add_to_file_arrays fs c path pathLen = Outcome.done (true, added) ∧
      arrays_allocated added ∧
      added.nFiles = c.nFiles + 1 ∧
      added.fileDescriptor[c.nFiles]? = some (some (filled_descriptor fs path pathLen)) ∧
      harvested_names added = harvested_names c ++ [some path] ∧
      harvested_descriptors added =
        harvested_descriptors c ++ [some (filled_descriptor fs path pathLen)] := by
  obtain ⟨e, he, hn, hl1, hl2, hlt, ht1, ht2⟩ :=
    wf_cliprdr_array_ensure_capacity_spec fs hfd hname c hc
  simp only [describable, Bool.and_eq_true, decide_eq_true_eq] at hpath
  obtain ⟨⟨⟨hfit, hmalloc⟩, hcalloc⟩, hopen⟩ := hpath
  have hdesc : wf_cliprdr_get_file_descriptor fs path pathLen =
      Outcome.done (some (filled_descriptor fs path pathLen)) := by
    simp only [wf_cliprdr_get_file_descriptor, hcalloc, hopen, Bool.not_true,
      Bool.false_eq_true, if_false]
    rw [if_neg (by omega), if_neg (by omega)]
  have hrun : wf_cliprdr_add_to_file_arrays fs c path pathLen =
      Outcome.done (true,
        { e with
          file_names := e.file_names.set e.nFiles (some path),
          fileDescriptor :=
            e.fileDescriptor.set e.nFiles (some (filled_descriptor fs path pathLen)),
          nFiles := e.nFiles + 1 }) := by
    simp only [wf_cliprdr_add_to_file_arrays, he, hmalloc, Bool.not_true, Bool.false_eq_true,
      if_false, hdesc, List.length_set]
    rw [if_neg (by omega), if_neg (by omega), if_neg (by omega)]
  refine ⟨_, hrun, ?_, ?_, ?_, ?_, ?_⟩
  · refine ⟨?_, ?_, ?_⟩
    · simp only [List.length_set]; exact hl1
    · simp only [List.length_set]; exact hl2
    · show e.nFiles + 1 ≤ e.file_array_size
      omega
  · show e.nFiles + 1 = c.nFiles + 1
    omega
  · show (e.fileDescriptor.set e.nFiles (some (filled_descriptor fs path pathLen)))[c.nFiles]? = _
    rw [hn, List.getElem?_set_self (by omega)]
  · show (e.file_names.set e.nFiles (some path)).take (e.nFiles + 1) = _
    rw [take_set_succ _ _ _ (by omega), hn, ht1]
    rfl
  · show (e.fileDescriptor.set e.nFiles (some (filled_descriptor fs path pathLen))).take
      (e.nFiles + 1) = _
    rw [take_set_succ _ _ _ (by omega), hn, ht2]
    rfl

/-- The loop over the entries of a directory appends, for every entry that is not `.` or
`..`, its record and, for a sub-directory, the records the recursive call appends. -/
theorem traverse_loop_spec (fs : FileSystem)
    (hfd : ∀ n, fs.realloc_descriptors n = true) (hname : ∀ n, fs.realloc_names n = true)
    (recurse : wfClipboard → String → Nat → Outcome (Bool × wfClipboard))
    (below : String → Bool) (belowPaths : String → List String) (Dir : String) (pathLen : Nat)
    (hlen : pathLen ≤ wcslen Dir)
    (hrec : ∀ (c : wfClipboard) (p : String), arrays_allocated c → pathLen ≤ wcslen p →
      below p = true →
      ∃ c', recurse c p pathLen = Outcome.done (true, c') ∧ arrays_allocated c' ∧
        harvested_names c' = harvested_names c ++ (belowPaths p).map some ∧
        harvested_descriptors c' = harvested_descriptors c ++
          (belowPaths p).map (fun q => some (filled_descriptor fs q pathLen))) :
    ∀ (entries : List WIN32_FIND_DATA) (c : wfClipboard), arrays_allocated c →
      entries.all (entry_harvestable fs below Dir) = true →
      ∃ c', traverse_loop fs recurse Dir pathLen entries c = Outcome.done (true, c') ∧
        arrays_allocated c' ∧
        harvested_names c' = harvested_names c ++
          ((entries.filter (fun entry => !named_dot entry)).flatMap
            (entry_paths_spec belowPaths Dir)).map some ∧
        harvested_descriptors c' = harvested_descriptors c ++
          ((entries.filter (fun entry => !named_dot entry)).flatMap
            (entry_paths_spec belowPaths Dir)).map
              (fun q => some (filled_descriptor fs q pathLen)) := by
  intro entries
  induction entries with
  | nil =>
    intro c hc _
    exact ⟨c, rfl, hc, by simp, by simp⟩
  | cons e rest ih =>
    intro c hc hall
    simp only [List.all_cons, Bool.and_eq_true] at hall
    obtain ⟨he, hrest⟩ := hall
    by_cases hdd : e.cFileName = ".."
    · have hskip : named_dot e = true := by simp [named_dot, hdd]
      obtain ⟨c', hrun, hc', hn, hd⟩ := ih c hc hrest
      refine ⟨c', ?_, hc', ?_, ?_⟩
      · simp only [traverse_loop, hdd, or_true, if_true]
        exact hrun
      · simpa [List.filter_cons, hskip] using hn
      · simpa [List.filter_cons, hskip] using hd
    · by_cases hd : e.cFileName = "."
      · have hskip : named_dot e = true := by simp [named_dot, hd]
        have hdir : e.dwFileAttributes &&& FILE_ATTRIBUTE_DIRECTORY ≠ 0 := by
          simpa [entry_harvestable, hdd, hd] using he
        obtain ⟨c', hrun, hc', hn, hdsc⟩ := ih c hc hrest
        refine ⟨c', ?_, hc', ?_, ?_⟩
        · simp only [traverse_loop]
          rw [if_pos (Or.inl ⟨hdir, hd⟩)]
          exact hrun
        · simpa [List.filter_cons, hskip] using hn
        · simpa [List.filter_cons, hskip] using hdsc
      · have hkeep : named_dot e = false := by simp [named_dot, hdd, hd]
        simp only [entry_harvestable, hdd, hd, if_false, Bool.and_eq_true] at he
        obtain ⟨hdescribable, hbelow⟩ := he
        have hfit : wcslen (Dir ++ "\\" ++ e.cFileName) < MAX_PATH := by
          simp only [describable, Bool.and_eq_true, decide_eq_true_eq] at hdescribable
          exact hdescribable.1.1.1
        have hplen : pathLen ≤ wcslen (Dir ++ "\\" ++ e.cFileName) := by
          simp only [wcslen_append]
          omega
        obtain ⟨c1, hadd, hc1, -, -, hn1, hd1⟩ :=
          wf_cliprdr_add_to_file_arrays_spec fs hfd hname c hc _ pathLen hdescribable hplen
        have hcond : ¬ ((e.dwFileAttributes &&& FILE_ATTRIBUTE_DIRECTORY ≠ 0 ∧
            e.cFileName = ".") ∨ e.cFileName = "..") := by
          rintro (⟨_, h⟩ | h)
          · exact hd h
          · exact hdd h
        by_cases hdir : e.dwFileAttributes &&& FILE_ATTRIBUTE_DIRECTORY ≠ 0
        · rw [if_pos hdir] at hbelow
          obtain ⟨c2, hsub, hc2, hn2, hd2⟩ := hrec c1 _ hc1 hplen hbelow
          obtain ⟨c', hrun, hc', hn, hdsc⟩ := ih c2 hc2 hrest
          refine ⟨c', ?_, hc', ?_, ?_⟩
          · simp only [traverse_loop]
            rw [if_neg hcond]
            simp only [added_path_fit Dir e.cFileName hfit, hadd]
            rw [if_pos hdir]
            simp only [hsub]
            exact hrun
          · rw [hn, hn2, hn1]
            simp [List.filter_cons, hkeep, entry_paths_spec, hdir]
          · rw [hdsc, hd2, hd1]
            simp [List.filter_cons, hkeep, entry_paths_spec, hdir]
        · obtain ⟨c', hrun, hc', hn, hdsc⟩ := ih c1 hc1 hrest
          refine ⟨c', ?_, hc', ?_, ?_⟩
          · simp only [traverse_loop]
            rw [if_neg hcond]
            simp only [added_path_fit Dir e.cFileName hfit, hadd]
            rw [if_neg hdir]
            exact hrun
          · rw [hn, hn1]
            simp [List.filter_cons, hkeep, entry_paths_spec, hdir]
          · rw [hdsc, hd1]
            simp [List.filter_cons, hkeep, entry_paths_spec, hdir]

/-- A directory that can be harvested within `depth` levels is traversed to the end, with
a stack of at least `depth` calls, and the records appended are those of the paths the
specification gives. -/
theorem wf_cliprdr_traverse_directory_spec (fs : FileSystem)
    (hfd : ∀ n, fs.realloc_descriptors n = true) (hname : ∀ n, fs.realloc_names n = true)
    (pathLen : Nat) :
    ∀ (depth stack : Nat) (c : wfClipboard) (Dir : String), depth ≤ stack →
      arrays_allocated c → pathLen ≤ wcslen Dir → harvestable fs depth Dir = true →
      ∃ c', wf_cliprdr_traverse_directory fs stack c Dir pathLen = Outcome.done (true, c') ∧
        arrays_allocated c' ∧
        harvested_names c' = harvested_names c ++ (harvest_children_spec fs depth Dir).map some ∧
        harvested_descriptors c' = harvested_descriptors c ++
          (harvest_children_spec fs depth Dir).map
            (fun q => some (filled_descriptor fs q pathLen)) := by
  intro depth
  induction depth with
  | zero =>
    intro stack c Dir _ _ _ h
    simp [harvestable] at h
  | succ depth ih =>
    intro stack c Dir hstack hc hlen h
    obtain ⟨s, rfl⟩ : ∃ s, stack = s + 1 := ⟨stack - 1, by omega⟩
    simp only [harvestable, Bool.and_eq_true, decide_eq_true_eq] at h
    obtain ⟨hfit, hfind⟩ := h
    cases hff : fs.FindFirstFile (Dir ++ "\\*") with
    | none => simp [hff] at hfind
    | some found =>
      obtain ⟨first, rest⟩ := found
      simp only [hff, Bool.and_eq_true, decide_eq_true_eq, beq_iff_eq] at hfind
      obtain ⟨⟨hfirst, _⟩, hall⟩ := hfind
      obtain ⟨c', hrun, hc', hn, hd⟩ :=
        traverse_loop_spec fs hfd hname (wf_cliprdr_traverse_directory fs s)
          (harvestable fs depth) (harvest_children_spec fs depth) Dir pathLen hlen
          (fun c p hc hp hb => ih s c p (by omega) hc hp hb) rest c hc hall
      have hskip : named_dot first = true := by simp [named_dot, hfirst]
      refine ⟨c', ?_, hc', ?_, ?_⟩
      · simp only [wf_cliprdr_traverse_directory, DirSpec_fit Dir hfit, hff]
        exact hrun
      · simpa [harvest_children_spec, enumerated, hff, List.filter_cons, hskip] using hn
      · simpa [harvest_children_spec, enumerated, hff, List.filter_cons, hskip] using hd

/-- The search for the last backslash ends at or before the offset it starts from. -/
theorem last_backslash_le (wFileName : List Nat) :
    ∀ offset, last_backslash wFileName offset ≤ offset := by
  intro offset
  induction offset with
  | zero => simp [last_backslash]
  | succ offset ih =>
    simp only [last_backslash]
    split
    · exact Nat.le_refl _
    · omega

/-- Started at the terminating 0 of a name that is not empty, the search ends inside the
name. -/
theorem last_backslash_lt_length (wFileName : List Nat) (h : 0 < wFileName.length) :
    last_backslash wFileName wFileName.length < wFileName.length := by
  obtain ⟨k, hk⟩ : ∃ k, wFileName.length = k + 1 := ⟨wFileName.length - 1, by omega⟩
  have hnone : wFileName[k + 1]? = none := List.getElem?_eq_none (by omega)
  rw [hk]
  simp only [last_backslash, hnone]
  have := last_backslash_le wFileName k
  simp only [reduceCtorEq, if_false]
  omega

/-- A path that can be described, with everything below it, is harvested as the
specification gives: its own record, then the records below it. -/
theorem wf_cliprdr_process_filename_spec (fs : FileSystem)
    (hfd : ∀ n, fs.realloc_descriptors n = true) (hname : ∀ n, fs.realloc_names n = true)
    (depth stack : Nat) (c : wfClipboard) (P : String) (hstack : depth ≤ stack)
    (hc : arrays_allocated c) (hP : 0 < wcslen P) (hdescribable : describable fs P = true)
    (htree : fs.GetFileAttributes P &&& FILE_ATTRIBUTE_DIRECTORY ≠ 0 →
      harvestable fs depth P = true) :
    ∃ c', wf_cliprdr_process_filename fs stack c P (wcslen P) = Outcome.done (true, c') ∧
      arrays_allocated c' ∧
      harvested_names c' = harvested_names c ++ (harvest_spec fs depth P).map some ∧
      harvested_descriptors c' = harvested_descriptors c ++
        (harvest_spec fs depth P).map
          (fun q => some (filled_descriptor fs q
            (last_backslash (wchars P) (wcslen P) + 1))) := by
  have hplen : last_backslash (wchars P) (wcslen P) + 1 ≤ wcslen P := by
    have hlt := last_backslash_lt_length (wchars P) hP
    exact hlt
  obtain ⟨c1, hadd, hc1, hn1, hget, hnames1, hdesc1⟩ :=
    wf_cliprdr_add_to_file_arrays_spec fs hfd hname c hc P _ hdescribable hplen
  have hget1 : c1.fileDescriptor[c1.nFiles - 1]? =
      some (some (filled_descriptor fs P (last_backslash (wchars P) (wcslen P) + 1))) := by
    rw [hn1, Nat.add_sub_cancel]
    exact hget
  by_cases hdir : fs.GetFileAttributes P &&& FILE_ATTRIBUTE_DIRECTORY ≠ 0
  · obtain ⟨c2, hrun, hc2, hn2, hd2⟩ :=
      wf_cliprdr_traverse_directory_spec fs hfd hname _ depth stack c1 P hstack hc1 hplen
        (htree hdir)
    refine ⟨c2, ?_, hc2, ?_, ?_⟩
    · simp only [wf_cliprdr_process_filename, Nat.lt_irrefl, if_false, hadd, hget1]
      rw [if_pos (show (filled_descriptor fs P
        (last_backslash (wchars P) (wcslen P) + 1)).dwFileAttributes
        &&& FILE_ATTRIBUTE_DIRECTORY ≠ 0 from hdir)]
      simp only [hrun]
    · rw [hn2, hnames1]
      simp [harvest_spec, hdir]
    · rw [hd2, hdesc1]
      simp [harvest_spec, hdir]
  · refine ⟨c1, ?_, hc1, ?_, ?_⟩
    · simp only [wf_cliprdr_process_filename, Nat.lt_irrefl, if_false, hadd, hget1]
      rw [if_neg (show ¬ ((filled_descriptor fs P
        (last_backslash (wchars P) (wcslen P) + 1)).dwFileAttributes
        &&& FILE_ATTRIBUTE_DIRECTORY ≠ 0) from hdir)]
    · rw [hnames1]
      simp [harvest_spec, hdir]
    · rw [hdesc1]
      simp [harvest_spec, hdir]

/-- C17 (counterexample): a directory tree whose children are not all harvested. With
`a.txt` held open by another process, harvesting `C:\data\root` returns `FALSE` at that
entry and leaves the one record of the root, without the entry `subdir` that follows
and without what is below it; and on the volume `D:\`, whose enumeration does not start
with `.`, the entry `a.txt` that `FindFirstFile` returns gets no record. The
specification gives four and three paths. -/
theorem harvest_omits_enumerated_children :
    harvested (wf_cliprdr_process_filename locked_child_file_system 8 wf_cliprdr_init
        "C:\\data\\root" 12) =
      some (false, [some "C:\\data\\root"],
        [some { dwFlags := FD_ATTRIBUTES + FD_FILESIZE + FD_WRITESTIME + FD_PROGRESSUI,
                dwFileAttributes := FILE_ATTRIBUTE_DIRECTORY,
                ftLastWriteTime := 0x01D9000000000000,
                nFileSizeHigh := 0, nFileSizeLow := 0, cFileName := "root" }]) ∧
    harvest_spec locked_child_file_system 2 "C:\\data\\root" =
      ["C:\\data\\root", "C:\\data\\root\\a.txt", "C:\\data\\root\\subdir",
       "C:\\data\\root\\subdir\\b.txt"] ∧
    (harvested (wf_cliprdr_process_filename volume_file_system 8 wf_cliprdr_init
        "D:\\" 3)).map (fun report => (report.1, report.2.1)) =
      some (true, [some "D:\\", some "D:\\\\b.txt"]) ∧
    harvest_spec volume_file_system 2 "D:\\" = ["D:\\", "D:\\\\a.txt", "D:\\\\b.txt"] := by
  refine ⟨by decide, by decide, by decide, by decide⟩

/-- C17 (amended): for every input path `P` that is not empty and every file system in
which `P` and every entry below it can be described (the path fits `MAX_PATH` WCHARs, the
allocations succeed, the entry can be opened), every enumeration starts with the entry
`.`, and the tree is at most `depth` levels deep, harvesting with a stack of at least
`depth` calls returns `TRUE` and appends exactly the records the specification gives, in
that order: one for `P` itself, then, if `P` is a directory, one for every enumerated
entry other than `.` and `..` in enumeration order, each sub-directory followed by the
records below it. -/
theorem harvest_appends_described_tree (fs : FileSystem)
    (hfd : ∀ n, fs.realloc_descriptors n = true) (hname : ∀ n, fs.realloc_names n = true)
    (depth stack : Nat) (c : wfClipboard) (P : String) (hstack : depth ≤ stack)
    (hc : arrays_allocated c) (hP : 0 < wcslen P) (hdescribable : describable fs P = true)
    (htree : fs.GetFileAttributes P &&& FILE_ATTRIBUTE_DIRECTORY ≠ 0 →
      harvestable fs depth P = true) :
    ∃ c', wf_cliprdr_process_filename fs stack c P (wcslen P) = Outcome.done (true, c') ∧
      harvested_names c' = harvested_names c ++ (harvest_spec fs depth P).map some ∧
      harvested_descriptors c' = harvested_descriptors c ++
        (harvest_spec fs depth P).map
          (fun q => some (filled_descriptor fs q
            (last_backslash (wchars P) (wcslen P) + 1))) := by
  obtain ⟨c', hrun, _, hn, hd⟩ :=
    wf_cliprdr_process_filename_spec fs hfd hname depth stack c P hstack hc hP hdescribable
      htree
  exact ⟨c', hrun, hn, hd⟩

/-- Witness of C17: the tree of the example, harvested into the empty arrays. -/
theorem harvest_appends_described_tree_witness :
    harvestable example_file_system 2 "C:\\data\\root" = true ∧
    harvest_spec example_file_system 2 "C:\\data\\root" =
      ["C:\\data\\root", "C:\\data\\root\\a.txt", "C:\\data\\root\\subdir",
       "C:\\data\\root\\subdir\\b.txt"] ∧
    wcslen "C:\\data\\root" = 12 ∧
    last_backslash (wchars "C:\\data\\root") (wcslen "C:\\data\\root") + 1 = 8 ∧
    ∃ c', wf_cliprdr_process_filename example_file_system 8 wf_cliprdr_init
        "C:\\data\\root" (wcslen "C:\\data\\root") = Outcome.done (true, c') ∧
      harvested_names c' = harvested_names wf_cliprdr_init ++
        (harvest_spec example_file_system 2 "C:\\data\\root").map some ∧
      harvested_descriptors c' = harvested_descriptors wf_cliprdr_init ++
        (harvest_spec example_file_system 2 "C:\\data\\root").map
          (fun q => some (filled_descriptor example_file_system q
            (last_backslash (wchars "C:\\data\\root") (wcslen "C:\\data\\root") + 1))) :=
  ⟨by decide, by decide, by decide, by decide,
    harvest_appends_described_tree example_file_system (fun _ => rfl) (fun _ => rfl) 2 8
      wf_cliprdr_init "C:\\data\\root" (by decide) ⟨rfl, rfl, Nat.le_refl _⟩ (by decide)
      (by decide) (fun _ => by decide)⟩

/-- C18 (counterexample): harvesting the root `C:\data\root` that holds `a.txt` (10 bytes)
and `subdir` with `b.txt` (0 bytes) yields four descriptors, not two: the directories
`root` and `root\subdir` have descriptors of their own, and the names are relative to the
directory that holds the root, with backslashes: `root\a.txt` and `root\subdir\b.txt`. -/
theorem harvest_of_example_has_four_descriptors :
    harvested (wf_cliprdr_process_filename example_file_system 8 wf_cliprdr_init
        "C:\\data\\root" 12) =
      some (true,
        [some "C:\\data\\root", some "C:\\data\\root\\a.txt", some "C:\\data\\root\\subdir",
         some "C:\\data\\root\\subdir\\b.txt"],
        [some { dwFlags := FD_ATTRIBUTES + FD_FILESIZE + FD_WRITESTIME + FD_PROGRESSUI,
                dwFileAttributes := FILE_ATTRIBUTE_DIRECTORY,
                ftLastWriteTime := 0x01D9000000000000,
                nFileSizeHigh := 0, nFileSizeLow := 0, cFileName := "root" },
         some { dwFlags := FD_ATTRIBUTES + FD_FILESIZE + FD_WRITESTIME + FD_PROGRESSUI,
                dwFileAttributes := 0x20, ftLastWriteTime := 0x01D9000000000000,
                nFileSizeHigh := 0, nFileSizeLow := 10, cFileName := "root\\a.txt" },
         some { dwFlags := FD_ATTRIBUTES + FD_FILESIZE + FD_WRITESTIME + FD_PROGRESSUI,
                dwFileAttributes := FILE_ATTRIBUTE_DIRECTORY,
                ftLastWriteTime := 0x01D9000000000000,
                nFileSizeHigh := 0, nFileSizeLow := 0, cFileName := "root\\subdir" },
         some { dwFlags := FD_ATTRIBUTES + FD_FILESIZE + FD_WRITESTIME + FD_PROGRESSUI,
                dwFileAttributes := 0x20, ftLastWriteTime := 0x01D9000000000000,
                nFileSizeHigh := 0, nFileSizeLow := 0, cFileName := "root\\subdir\\b.txt" }]) := by
  decide

/-- C18 (amended): for every file system and every root path `P` that is a directory
whose enumeration returns `.`, `..`, the file `a.txt` (10 bytes) and the directory
`subdir`, whose enumeration returns `.`, `..` and the file `b.txt` (0 bytes), all of
which can be described: harvesting `P` into empty arrays returns `TRUE` and yields
exactly four records, in this order: `P`, `P\a.txt`, `P\subdir`, `P\subdir\b.txt`; each
descriptor is the one filled for its path, named by the path without the part of `P` up
to its last backslash, with the sizes 10 and 0 for the two files. -/
theorem harvest_of_root_with_file_and_subdir (fs : FileSystem)
    (hfd : ∀ n, fs.realloc_descriptors n = true) (hname : ∀ n, fs.realloc_names n = true)
    (stack : Nat) (c : wfClipboard) (P : String) (hstack : 2 ≤ stack)
    (hc : arrays_allocated c) (hempty : c.nFiles = 0) (hP : 0 < wcslen P)
    (hdir : fs.GetFileAttributes P &&& FILE_ATTRIBUTE_DIRECTORY ≠ 0)
    (hroot : fs.FindFirstFile (P ++ "\\*") =
      some (directory_entry ".",
        [directory_entry "..", file_entry "a.txt", directory_entry "subdir"]))
    (hsub : fs.FindFirstFile (P ++ "\\" ++ "subdir" ++ "\\*") =
      some (directory_entry ".", [directory_entry "..", file_entry "b.txt"]))
    (hdP : describable fs P = true)
    (hda : describable fs (P ++ "\\" ++ "a.txt") = true)
    (hds : describable fs (P ++ "\\" ++ "subdir") = true)
    (hdb : describable fs (P ++ "\\" ++ "subdir" ++ "\\" ++ "b.txt") = true)
    (hasize : fs.GetFileSize (P ++ "\\" ++ "a.txt") = (10, 0))
    (hbsize : fs.GetFileSize (P ++ "\\" ++ "subdir" ++ "\\" ++ "b.txt") = (0, 0)) :
    ∃ c', wf_cliprdr_process_filename fs stack c P (wcslen P) = Outcome.done (true, c') ∧
      c'.nFiles = 4 ∧
      harvested_names c' =
        [some P, some (P ++ "\\" ++ "a.txt"), some (P ++ "\\" ++ "subdir"),
         some (P ++ "\\" ++ "subdir" ++ "\\" ++ "b.txt")] ∧
      harvested_descriptors c' =
        [some (filled_descriptor fs P (last_backslash (wchars P) (wcslen P) + 1)),
         some { filled_descriptor fs (P ++ "\\" ++ "a.txt")
                  (last_backslash (wchars P) (wcslen P) + 1) with
                nFileSizeLow := 10, nFileSizeHigh := 0,
                cFileName := wcs_from (P ++ "\\" ++ "a.txt")
                  (last_backslash (wchars P) (wcslen P) + 1) },
         some (filled_descriptor fs (P ++ "\\" ++ "subdir")
                  (last_backslash (wchars P) (wcslen P) + 1)),
         some { filled_descriptor fs (P ++ "\\" ++ "subdir" ++ "\\" ++ "b.txt")
                  (last_backslash (wchars P) (wcslen P) + 1) with
                nFileSizeLow := 0, nFileSizeHigh := 0,
                cFileName := wcs_from (P ++ "\\" ++ "subdir" ++ "\\" ++ "b.txt")
                  (last_backslash (wchars P) (wcslen P) + 1) }] := by
  have hfitb : wcslen (P ++ "\\" ++ "subdir" ++ "\\" ++ "b.txt") < MAX_PATH := by
    simp only [describable, Bool.and_eq_true, decide_eq_true_eq] at hdb
    exact hdb.1.1.1
  have hl1 : wcslen "\\" = 1 := by decide
  have hl2 : wcslen "subdir" = 6 := by decide
  have hl3 : wcslen "b.txt" = 5 := by decide
  have hl4 : wcslen "\\*" = 2 := by decide
  simp only [wcslen_append, hl1, hl2, hl3] at hfitb
  have hfit1 : wcslen (P ++ "\\*") < MAX_PATH := by
    simp only [wcslen_append, hl4]
    omega
  have hfit2 : wcslen (P ++ "\\" ++ "subdir" ++ "\\*") < MAX_PATH := by
    simp only [wcslen_append, hl1, hl2, hl4]
    omega
  have hfile : ∀ n, (file_entry n).dwFileAttributes &&& FILE_ATTRIBUTE_DIRECTORY = 0 := by
    intro n
    show (0x20 : Nat) &&& FILE_ATTRIBUTE_DIRECTORY = 0
    decide
  have hdirectory : ∀ n,
      ((directory_entry n).dwFileAttributes &&& FILE_ATTRIBUTE_DIRECTORY = 0) = False := by
    intro n
    apply eq_false
    show ¬ (FILE_ATTRIBUTE_DIRECTORY &&& FILE_ATTRIBUTE_DIRECTORY = 0)
    decide
  have hfname : ∀ n, (file_entry n).cFileName = n := fun _ => rfl
  have hdname : ∀ n, (directory_entry n).cFileName = n := fun _ => rfl
  have hsubtree : harvestable fs 1 (P ++ "\\" ++ "subdir") = true := by
    simp [harvestable, hfit2, hsub, entry_harvestable, hdb, hfile, hdirectory, hfname, hdname]
  have htree : harvestable fs 2 P = true := by
    simp [harvestable, hfit1, hroot, entry_harvestable, hda, hds, hfile, hdirectory, hfname,
      hdname]
    simpa [harvestable, hfit2] using hsubtree
  have hspec : harvest_spec fs 2 P =
      [P, P ++ "\\" ++ "a.txt", P ++ "\\" ++ "subdir",
       P ++ "\\" ++ "subdir" ++ "\\" ++ "b.txt"] := by
    simp [harvest_spec, hdir, harvest_children_spec, enumerated, hroot, hsub, named_dot,
      entry_paths_spec, hfile, hdirectory, hfname, hdname]
  obtain ⟨c', hrun, hc', hn, hd⟩ :=
    wf_cliprdr_process_filename_spec fs hfd hname 2 stack c P hstack hc hP hdP
      (fun _ => htree)
  have hnone : harvested_names c = [] := by simp [harvested_names, hempty]
  have hdnone : harvested_descriptors c = [] := by simp [harvested_descriptors, hempty]
  rw [hnone, hspec] at hn
  rw [hdnone, hspec] at hd
  have hcount : c'.nFiles = 4 := by
    have hlen := congrArg List.length hn
    obtain ⟨h1, _, h3⟩ := hc'
    simp only [harvested_names, List.length_take, List.nil_append,
      List.map_cons, List.map_nil, List.length_cons, List.length_nil] at hlen
    omega
  refine ⟨c', hrun, hcount, ?_, ?_⟩
  · rw [hn]
    rfl
  · rw [hd]
    simp [filled_descriptor, hasize, hbsize]

/-- Witness of C18: the file system of the example, harvested into the empty arrays. -/
theorem harvest_of_root_with_file_and_subdir_witness :
    example_file_system.FindFirstFile ("C:\\data\\root" ++ "\\*") =
      some (directory_entry ".",
        [directory_entry "..", file_entry "a.txt", directory_entry "subdir"]) ∧
    example_file_system.GetFileSize ("C:\\data\\root" ++ "\\" ++ "a.txt") = (10, 0) ∧
    wcs_from ("C:\\data\\root" ++ "\\" ++ "subdir" ++ "\\" ++ "b.txt")
        (last_backslash (wchars "C:\\data\\root") (wcslen "C:\\data\\root") + 1) =
      "root\\subdir\\b.txt" ∧
    ∃ c', wf_cliprdr_process_filename example_file_system 8 wf_cliprdr_init "C:\\data\\root"
        (wcslen "C:\\data\\root") = Outcome.done (true, c') ∧
      c'.nFiles = 4 ∧
      harvested_names c' =
        [some "C:\\data\\root", some ("C:\\data\\root" ++ "\\" ++ "a.txt"),
         some ("C:\\data\\root" ++ "\\" ++ "subdir"),
         some ("C:\\data\\root" ++ "\\" ++ "subdir" ++ "\\" ++ "b.txt")] ∧
      harvested_descriptors c' =
        [some (filled_descriptor example_file_system "C:\\data\\root"
           (last_backslash (wchars "C:\\data\\root") (wcslen "C:\\data\\root") + 1)),
         some { filled_descriptor example_file_system ("C:\\data\\root" ++ "\\" ++ "a.txt")
                  (last_backslash (wchars "C:\\data\\root") (wcslen "C:\\data\\root") + 1) with
                nFileSizeLow := 10, nFileSizeHigh := 0,
                cFileName := wcs_from ("C:\\data\\root" ++ "\\" ++ "a.txt")
                  (last_backslash (wchars "C:\\data\\root") (wcslen "C:\\data\\root") + 1) },
         some (filled_descriptor example_file_system ("C:\\data\\root" ++ "\\" ++ "subdir")
                  (last_backslash (wchars "C:\\data\\root") (wcslen "C:\\data\\root") + 1)),
         some { filled_descriptor example_file_system
                  ("C:\\data\\root" ++ "\\" ++ "subdir" ++ "\\" ++ "b.txt")
                  (last_backslash (wchars "C:\\data\\root") (wcslen "C:\\data\\root") + 1) with
                nFileSizeLow := 0, nFileSizeHigh := 0,
                cFileName := wcs_from ("C:\\data\\root" ++ "\\" ++ "subdir" ++ "\\" ++ "b.txt")
                  (last_backslash (wchars "C:\\data\\root") (wcslen "C:\\data\\root") + 1) }] :=
  ⟨by decide, by decide, by decide,
    harvest_of_root_with_file_and_subdir example_file_system (fun _ => rfl) (fun _ => rfl) 8
      wf_cliprdr_init "C:\\data\\root" (by decide) ⟨rfl, rfl, Nat.le_refl _⟩ rfl (by decide)
      (by decide) (by decide) (by decide) (by decide) (by decide) (by decide) (by decide)
      (by decide) (by decide)⟩

/-! ## Synchronization -/

/-- The format list sender sends nothing or one format list. -/
theorem cliprdr_send_format_list_sent (env : Platform) (ch : Channel) :
    (cliprdr_send_format_list env ch).sent = [] ∨
    ∃ formatList, (cliprdr_send_format_list env ch).sent = [ClientPdu.FormatList formatList] := by
  unfold cliprdr_send_format_list
  by_cases hopen : try_open_clipboard env = true
  · simp only [hopen, if_true]
    by_cases hcalloc : env.calloc (env.CountClipboardFormats % 2 ^ 32) = true
    · simp only [hcalloc, Bool.not_true, Bool.false_eq_true, if_false]
      split
      · exact Or.inl rfl
      · by_cases hclose : env.CloseClipboard = true
        · simp only [hclose, Bool.not_true, Bool.false_eq_true, if_false]
          split
          · exact Or.inl rfl
          · exact Or.inr ⟨_, rfl⟩
        · have hclose' : env.CloseClipboard = false := by simpa using hclose
          simp only [hclose', Bool.not_false, if_true]
          exact Or.inl trivial
    · have hcalloc' : env.calloc (env.CountClipboardFormats % 2 ^ 32) = false := by
        simpa using hcalloc
      simp only [hcalloc', Bool.not_false, if_true]
      exact Or.inl trivial
  · simp only [hopen, if_false]
    exact Or.inr ⟨_, rfl⟩

/-- C21: for every environment and bridge, `wf_cliprdr_monitor_ready` sends first one
capabilities PDU with one general capability set of version 2 and length 12 whose flags
are `CB_USE_LONG_FORMAT_NAMES | CB_STREAM_FILECLIP_ENABLED | CB_FILECLIP_NO_FILE_PATHS`
(the value 14), then what `cliprdr_send_format_list` sends, and returns the status of the
format list with `sync` set; when sending the capabilities returns a status other than
`CHANNEL_RC_OK`, that status is returned with `sync` set and nothing else is sent. -/
theorem wf_cliprdr_monitor_ready_sends (env : Platform) (ch : Channel)
    (clipboard : wfClipboard) :
    client_capabilities =
      { capabilitySets := [{ capabilitySetType := 1, capabilitySetLength := 12, version := 2,
                             generalFlags := 14 }] } ∧
    client_capabilities.cCapabilitiesSets = 1 ∧
    (ch.ClientCapabilities client_capabilities ≠ CHANNEL_RC_OK →
      wf_cliprdr_monitor_ready env ch clipboard =
        { sent := [ClientPdu.Capabilities client_capabilities],
          result := Outcome.done (ch.ClientCapabilities client_capabilities,
            { clipboard with sync := true }) }) ∧
    (ch.ClientCapabilities client_capabilities = CHANNEL_RC_OK →
      (wf_cliprdr_monitor_ready env ch clipboard).sent =
        ClientPdu.Capabilities client_capabilities :: (cliprdr_send_format_list env ch).sent ∧
      ∀ status, (cliprdr_send_format_list env ch).result = Outcome.done status →
        (wf_cliprdr_monitor_ready env ch clipboard).result =
          Outcome.done (status, { clipboard with sync := true })) := by
  refine ⟨by decide, by decide, ?_, ?_⟩
  · intro hrc
    have hrc' : ch.ClientCapabilities
        { capabilitySets :=
            [{ capabilitySetType := CB_CAPSTYPE_GENERAL, capabilitySetLength := 12,
               version := CB_CAPS_VERSION_2,
               generalFlags := CB_USE_LONG_FORMAT_NAMES ||| CB_STREAM_FILECLIP_ENABLED |||
                 CB_FILECLIP_NO_FILE_PATHS }] } ≠ CHANNEL_RC_OK := hrc
    simp only [wf_cliprdr_monitor_ready, wf_cliprdr_send_client_capabilities]
    rw [if_pos hrc']
    rfl
  · intro hrc
    have hrc' : ¬ (ch.ClientCapabilities
        { capabilitySets :=
            [{ capabilitySetType := CB_CAPSTYPE_GENERAL, capabilitySetLength := 12,
               version := CB_CAPS_VERSION_2,
               generalFlags := CB_USE_LONG_FORMAT_NAMES ||| CB_STREAM_FILECLIP_ENABLED |||
                 CB_FILECLIP_NO_FILE_PATHS }] } ≠ CHANNEL_RC_OK) := fun h => h hrc
    simp only [wf_cliprdr_monitor_ready, wf_cliprdr_send_client_capabilities]
    rw [if_neg hrc']
    refine ⟨rfl, ?_⟩
    intro status hstatus
    simp only [hstatus]

/-- Witness of C21: a channel on which the capabilities are sent, with a local clipboard
of two formats, and a channel on which sending them fails. -/
theorem wf_cliprdr_monitor_ready_sends_witness :
    (wf_cliprdr_monitor_ready (clipboard_holding [13, 1]) (sample_channel [])
        wf_cliprdr_init).sent =
      [ClientPdu.Capabilities client_capabilities,
       ClientPdu.FormatList
         { formats := [{ formatId := 13, formatName := none },
                       { formatId := 1, formatName := none }] }] ∧
    (wf_cliprdr_monitor_ready (clipboard_holding [13, 1]) (sample_channel [])
        wf_cliprdr_init).result =
      Outcome.done (CHANNEL_RC_OK, { wf_cliprdr_init with sync := true }) ∧
    wf_cliprdr_monitor_ready (clipboard_holding [13, 1]) capabilities_failing_channel
        wf_cliprdr_init =
      { sent := [ClientPdu.Capabilities client_capabilities],
        result := Outcome.done (ERROR_INTERNAL_ERROR, { wf_cliprdr_init with sync := true }) } :=
  ⟨by
      rw [((wf_cliprdr_monitor_ready_sends (clipboard_holding [13, 1]) (sample_channel [])
        wf_cliprdr_init).2.2.2 (by decide)).1]
      decide,
    ((wf_cliprdr_monitor_ready_sends (clipboard_holding [13, 1]) (sample_channel [])
      wf_cliprdr_init).2.2.2 (by decide)).2 CHANNEL_RC_OK (by decide),
    (wf_cliprdr_monitor_ready_sends (clipboard_holding [13, 1]) capabilities_failing_channel
      wf_cliprdr_init).2.2.1 (by decide)⟩

/-- C22 (counterexample): `TEMP` can be read and the bridge synchronizes, and the PDUs
sent are the capabilities and the format list: no temporary directory PDU, although
`cliprdr_send_tempdir` would send one in that environment. -/
theorem monitor_ready_with_readable_temp :
    (platform_with_temp [13, 1]).GetEnvironmentVariableA "TEMP" = some "C:\\Temp" ∧
    wf_cliprdr_monitor_ready (platform_with_temp [13, 1]) (sample_channel []) wf_cliprdr_init =
      { sent := [ClientPdu.Capabilities client_capabilities,
                 ClientPdu.FormatList
                   { formats := [{ formatId := 13, formatName := none },
                                 { formatId := 1, formatName := none }] }],
        result := Outcome.done (CHANNEL_RC_OK, { wf_cliprdr_init with sync := true }) } ∧
    (cliprdr_send_tempdir (platform_with_temp [13, 1]) (sample_channel [])).sent =
      [ClientPdu.TempDirectory { szTempDir := "C:\\Temp" }] := by
  decide

/-- C22 (amended): for every environment and bridge, `wf_cliprdr_monitor_ready` sends no
temporary directory PDU, whether `TEMP` can be read or not: it does not call
`cliprdr_send_tempdir`. That function, which nothing calls, sends exactly one temporary
directory PDU with the value of `TEMP` when it can be read, and sends nothing and returns
`-1` when it cannot. -/
theorem monitor_ready_sends_no_temp_directory (env : Platform) (ch : Channel)
    (clipboard : wfClipboard) :
    (∀ tempDirectory,
      ClientPdu.TempDirectory tempDirectory ∉ (wf_cliprdr_monitor_ready env ch clipboard).sent) ∧
    (∀ szTempDir, env.GetEnvironmentVariableA "TEMP" = some szTempDir →
      cliprdr_send_tempdir env ch =
        { sent := [ClientPdu.TempDirectory { szTempDir := szTempDir }],
          result := Outcome.done (ch.TempDirectory { szTempDir := szTempDir }) }) ∧
    (env.GetEnvironmentVariableA "TEMP" = none →
      cliprdr_send_tempdir env ch = { sent := [], result := Outcome.done (2 ^ 32 - 1) }) := by
  refine ⟨?_, ?_, ?_⟩
  · intro tempDirectory hmem
    have hsent : (wf_cliprdr_monitor_ready env ch clipboard).sent =
        [ClientPdu.Capabilities client_capabilities] ∨
        (wf_cliprdr_monitor_ready env ch clipboard).sent =
          ClientPdu.Capabilities client_capabilities ::
            (cliprdr_send_format_list env ch).sent := by
      simp only [wf_cliprdr_monitor_ready, wf_cliprdr_send_client_capabilities]
      split
      · exact Or.inl rfl
      · exact Or.inr rfl
    rcases hsent with h | h
    · rw [h] at hmem
      simp at hmem
    · rw [h] at hmem
      rcases cliprdr_send_format_list_sent env ch with h0 | ⟨formatList, h1⟩
      · rw [h0] at hmem
        simp at hmem
      · rw [h1] at hmem
        simp at hmem
  · intro szTempDir h
    simp only [cliprdr_send_tempdir, h]
  · intro h
    simp only [cliprdr_send_tempdir, h]

/-- Witness of C22: an environment in which `TEMP` can be read. -/
theorem monitor_ready_sends_no_temp_directory_witness :
    (platform_with_temp [13, 1]).GetEnvironmentVariableA "TEMP" = some "C:\\Temp" ∧
    ClientPdu.TempDirectory { szTempDir := "C:\\Temp" } ∉
      (wf_cliprdr_monitor_ready (platform_with_temp [13, 1]) (sample_channel [])
        wf_cliprdr_init).sent ∧
    cliprdr_send_tempdir (platform_with_temp [13, 1]) (sample_channel []) =
      { sent := [ClientPdu.TempDirectory { szTempDir := "C:\\Temp" }],
        result := Outcome.done CHANNEL_RC_OK } :=
  ⟨by decide,
    (monitor_ready_sends_no_temp_directory (platform_with_temp [13, 1]) (sample_channel [])
      wf_cliprdr_init).1 _,
    (monitor_ready_sends_no_temp_directory (platform_with_temp [13, 1]) (sample_channel [])
      wf_cliprdr_init).2.1 "C:\\Temp" (by decide)⟩

/-! ## Data object, stream, local format list, window procedure: failing inputs -/

/-- C23, the code at the failing input: in the registry built from a list in which the
remote id `0xC00A` of the descriptor list format is also the local id of `CustomText`,
the registry maps the local descriptor list id `0xC014` to `0xC00A`, and the request that
`CliprdrDataObject_GetData` sends carries `0xC0A1`, the remote id of `CustomText`: the id
is mapped by `CliprdrDataObject_GetData` and again by `cliprdr_send_data_request`. The
render path, which hands the local id to `cliprdr_send_data_request`, sends `0xC00A`. -/
theorem descriptor_request_maps_the_id_twice :
    (wf_cliprdr_server_format_list sample_platform wf_cliprdr_init colliding_list).map
        (fun handled => handled.clipboard) = some colliding_registry ∧
    sample_platform.RegisterClipboardFormatW CFSTR_FILEDESCRIPTORW = 0xC014 ∧
    get_remote_format_id colliding_registry 0xC014 = some 0xC00A ∧
    get_remote_format_id colliding_registry 0xC00A = some 0xC0A1 ∧
    (CliprdrDataObject_GetData sample_platform (sample_channel []) colliding_registry
        (wf_create_file_obj sample_platform) (file_descriptor_FORMATETC sample_platform)).sent =
      [ClientPdu.FormatDataRequest { requestedFormatId := 0xC0A1 }] ∧
    (cliprdr_proc_WM_RENDERFORMAT sample_platform (sample_channel []) colliding_registry
        0xC014).sent =
      [ClientPdu.FormatDataRequest { requestedFormatId := 0xC00A }] := by
  decide

/-- C24, the code at the failing inputs: a response of 8 bytes to a read of 4 bytes is
copied whole, and reported as 8 bytes read; and a response of the 4 bytes requested at
offset 8 of a stream of total size 10 leaves the offset at 12. -/
theorem read_copies_what_the_response_carries :
    (CliprdrStream_Read overlong_channel wf_cliprdr_init sample_stream 4).result.map
        (fun r => (r.hr, r.pcbRead, r.pv)) = some (S_OK, 8, [1, 2, 3, 4, 5, 6, 7, 8]) ∧
    (CliprdrStream_Read (sample_channel grown_content) wf_cliprdr_init
        { sample_stream with m_lOffset := 8 } 4).result.map
        (fun r => (r.pcbRead, r.pv, r.stream.m_lOffset, r.stream.m_lSize)) =
      some (4, [18, 19, 20, 21], 12, 10) := by
  decide

/-- C27, the code at the failing inputs: with `CF_HDROP` as the only format on the local
clipboard the block has one element and the second file transfer format is written at
index 1; with `CF_HDROP` available and a count of 0 the first one is written at index 0
of a block without elements. Both writes are outside the block. -/
theorem file_selection_written_outside_block :
    (clipboard_holding [CF_HDROP]).CountClipboardFormats = 1 ∧
    (clipboard_holding [CF_HDROP]).IsClipboardFormatAvailable CF_HDROP = true ∧
    set_formatId (List.replicate 1 { formatId := 0, formatName := none }) 1
      ((clipboard_holding [CF_HDROP]).RegisterClipboardFormatW CFSTR_FILECONTENTS) = none ∧
    cliprdr_send_format_list (clipboard_holding [CF_HDROP]) (sample_channel []) =
      { sent := [], result := Outcome.fault } ∧
    cliprdr_send_format_list
        { clipboard_holding [CF_HDROP] with CountClipboardFormats := 0 } (sample_channel []) =
      { sent := [], result := Outcome.fault } := by
  decide

/-- C29, the code at the failing input: a bridge of the legacy API that is not
synchronized sends the local format list on `WM_DRAWCLIPBOARD`, while the same bridge
sends nothing on `WM_CLIPBOARDUPDATE`. -/
theorem legacy_change_announced_before_sync :
    legacy_clipboard.sync = false ∧
    cliprdr_proc_WM_DRAWCLIPBOARD (clipboard_holding [13, 1]) (sample_channel [])
        legacy_clipboard =
      { sent := [ClientPdu.FormatList
          { formats := [{ formatId := 13, formatName := none },
                        { formatId := 1, formatName := none }] }],
        result := Outcome.done legacy_clipboard } ∧
    cliprdr_proc_WM_CLIPBOARDUPDATE (clipboard_holding [13, 1]) (sample_channel [])
        legacy_clipboard =
      { sent := [], result := Outcome.done legacy_clipboard } := by
  decide

/-! ## Format registry: the writes stay inside the block -/

set_option maxRecDepth 100000 in
/-- C26, the code at the failing inputs. A descriptor list request answered with one file
makes one stream; a second one answered with two files returns `S_OK` and sets
`m_nStreams` to 2 while the array keeps its one element, and the file contents request
for list index 1 that follows passes the index check and reads outside the array. A
descriptor list request in which the stream for list index 1 cannot be made returns
`E_OUTOFMEMORY` with `m_nStreams = 2` and a NULL pointer at index 1, and the file contents
request for list index 1 that follows passes the index check and dereferences it. -/
theorem stream_count_differs_from_stream_array :
    (get_data_all sample_platform
        [(descriptor_channel 1, file_descriptor_FORMATETC sample_platform),
         (descriptor_channel 2, file_descriptor_FORMATETC sample_platform)]
        wf_cliprdr_init (wf_create_file_obj sample_platform)).returned.map
        (fun rs => rs.map (fun (r : GetDataResult) => (r.hr, r.This.m_nStreams))) =
      some [(S_OK, 1), (S_OK, 2)] ∧
    (get_data_all sample_platform
        [(descriptor_channel 1, file_descriptor_FORMATETC sample_platform),
         (descriptor_channel 2, file_descriptor_FORMATETC sample_platform)]
        wf_cliprdr_init (wf_create_file_obj sample_platform)).returned.map
        (fun rs => rs.map (fun (r : GetDataResult) => r.This.m_pStream)) =
      some [some [some { address := 0x5000, m_lRefCount := 1, m_lIndex := 0, m_lSize := 1,
                         m_lOffset := 0 }],
            some [some { address := 0x5000, m_lRefCount := 1, m_lIndex := 0, m_lSize := 1,
                         m_lOffset := 0 }]] ∧
    get_data_all sample_platform
        [(descriptor_channel 1, file_descriptor_FORMATETC sample_platform),
         (descriptor_channel 2, file_descriptor_FORMATETC sample_platform),
         (descriptor_channel 2, file_contents_FORMATETC sample_platform 1)]
        wf_cliprdr_init (wf_create_file_obj sample_platform) = Outcome.fault ∧
    (get_data_all sample_platform
        [(second_stream_failing_channel, file_descriptor_FORMATETC sample_platform)]
        wf_cliprdr_init (wf_create_file_obj sample_platform)).returned.map
        (fun rs => rs.map (fun (r : GetDataResult) => (r.hr, r.This.m_nStreams))) =
      some [(E_OUTOFMEMORY, 2)] ∧
    (get_data_all sample_platform
        [(second_stream_failing_channel, file_descriptor_FORMATETC sample_platform)]
        wf_cliprdr_init (wf_create_file_obj sample_platform)).returned.map
        (fun rs => rs.map (fun (r : GetDataResult) => r.This.m_pStream)) =
      some [some [some { address := 0x5000, m_lRefCount := 1, m_lIndex := 0, m_lSize := 1,
                         m_lOffset := 0 }, none]] ∧
    get_data_all sample_platform
        [(second_stream_failing_channel, file_descriptor_FORMATETC sample_platform),
         (second_stream_failing_channel, file_contents_FORMATETC sample_platform 1)]
        wf_cliprdr_init (wf_create_file_obj sample_platform) = Outcome.fault := by
  refine ⟨by decide, by decide, by decide, by decide, by decide, by decide⟩

/-! ## The descriptor list of a drop list: the count of single-byte names -/

set_option maxRecDepth 100000 in
/-- C25, the code at the failing inputs. A drop list of single-byte names (`fWide` false)
with the one name `C:\data\root\a.txt` appends one record and leaves `nFiles = 2`: the
count field of the block is 2, and index 1 holds neither a name nor a descriptor. The same
list with wide-character names leaves `nFiles = 1` and a count of 1. A single-byte list
with the directory `C:\data\root\subdir`, which holds one file, appends two records and
leaves `nFiles = 3` above `file_array_size = 2`, and the copy of the descriptors reads
outside the block. When the character behind the block of the converted name does not read
as 0 the call does not return. -/
theorem single_byte_names_counted_twice :
    harvest_report (wf_cliprdr_get_filedescriptor sample_platform example_file_system
        (drop_list_ole { fWide := false, names := ["C:\\data\\root\\a.txt"] }) 8
        wf_cliprdr_init) =
      some { rc := 1188, cItems := some 2, nFiles := 2, file_array_size := 2,
             file_names := [some "C:\\data\\root\\a.txt", none],
             cFileNames := [some "a.txt", none] } ∧
    harvest_report (wf_cliprdr_get_filedescriptor sample_platform example_file_system
        (drop_list_ole { fWide := true, names := ["C:\\data\\root\\a.txt"] }) 8
        wf_cliprdr_init) =
      some { rc := 596, cItems := some 1, nFiles := 1, file_array_size := 2,
             file_names := [some "C:\\data\\root\\a.txt", none],
             cFileNames := [some "a.txt", none] } ∧
    (single_byte_names_loop sample_platform example_file_system 8 ["C:\\data\\root\\subdir"]
        wf_cliprdr_init).returned.map
        (fun (c : wfClipboard) => (c.nFiles, c.file_array_size, c.file_names)) =
      some (3, 2, [some "C:\\data\\root\\subdir", some "C:\\data\\root\\subdir\\b.txt"]) ∧
    wf_cliprdr_get_filedescriptor sample_platform example_file_system
        (drop_list_ole { fWide := false, names := ["C:\\data\\root\\subdir"] }) 8
        wf_cliprdr_init = Outcome.fault ∧
    wf_cliprdr_get_filedescriptor { sample_platform with terminated_behind := false }
        example_file_system
        (drop_list_ole { fWide := false, names := ["C:\\data\\root\\a.txt"] }) 8
        wf_cliprdr_init = Outcome.fault := by
  refine ⟨by decide, by decide, by decide, by decide, by decide⟩

end WfCliprdr

namespace CommIo

/-- C30: for every interval `Ti` in milliseconds (every value of the 32-bit argument among
them), `svtime Ti` is 0 when `Ti = 0` and otherwise `Ti / 100` rounded down and clamped to
the range from 1 to 255; it fits an unsigned byte, and it does not decrease when `Ti`
grows. -/
theorem svtime_is_clamped_deciseconds (Ti : Nat) :
    svtime Ti = vtime_spec Ti ∧
    (Ti = 0 → svtime Ti = 0) ∧
    (Ti ≠ 0 → 1 ≤ svtime Ti) ∧
    svtime Ti < 2 ^ 8 ∧
    ∀ Tj, Ti ≤ Tj → svtime Ti ≤ svtime Tj := by
  have hspec : ∀ T, svtime T = vtime_spec T := by
    intro T
    unfold svtime vtime_spec
    by_cases h0 : T = 0
    · simp [h0]
    · by_cases h1 : T < 100
      · have hdiv : T / 100 = 0 := Nat.div_eq_of_lt h1
        simp [h0, h1, hdiv]
      · by_cases h2 : T > 25500
        · have hdiv : 255 ≤ T / 100 := by omega
          simp only [h0, h1, h2, if_false, if_true]
          omega
        · simp only [h0, h1, h2, if_false]
          have hdiv1 : 1 ≤ T / 100 := by omega
          have hdiv2 : T / 100 ≤ 255 := by omega
          omega
  have hmono : ∀ A B, A ≤ B → vtime_spec A ≤ vtime_spec B := by
    intro A B hAB
    unfold vtime_spec
    have hdiv : A / 100 ≤ B / 100 := Nat.div_le_div_right hAB
    by_cases hA : A = 0
    · simp [hA]
    · have hB : B ≠ 0 := by omega
      simp only [hA, hB, if_false]
      omega
  refine ⟨hspec Ti, ?_, ?_, ?_, ?_⟩
  · intro h0
    simp [svtime, h0]
  · intro h0
    rw [hspec Ti]
    unfold vtime_spec
    simp only [h0, if_false]
    omega
  · rw [hspec Ti]
    unfold vtime_spec
    by_cases h0 : Ti = 0
    · simp [h0]
    · simp only [h0, if_false]
      omega
  · intro Tj hle
    rw [hspec Ti, hspec Tj]
    exact hmono Ti Tj hle

/-- Witness of C30: intervals of 250 ms and of 26 s. -/
theorem svtime_is_clamped_deciseconds_witness :
    svtime 250 = 2 ∧ svtime 26000 = 255 ∧ svtime 250 ≤ svtime 26000 ∧ svtime 99 = 1 ∧
    svtime 0 = 0 :=
  ⟨by decide, by decide,
    (svtime_is_clamped_deciseconds 250).2.2.2.2 26000 (by decide),
    by decide, by decide⟩

end CommIo
